import Mathlib

/-!
# Emerald: a shallow embedding of the CPU core

The register file (`core/registers.hh`, `main.cc`), the address space
(`memory.hh`) and the arithmetic handlers of `core/instructions.tcc`, written as
pure functions over an explicit machine state.

Conventions
* `u8` and `u16` values are natural numbers; every place where the C++ code
  truncates (an assignment to a `u8`, a `u16` or an `i16` that can wrap) is an
  explicit `%`.
* A C++ exception is the `Except.error` branch; the machine state is lost with it,
  as it is in the emulator (every exception is fatal).
* A `ByteRegister` or `WordRegister` of the source is a C++ reference into the
  register file; here it is a selector that is read and written through
  `RegisterFile.get8`, `set8`, `get16`, `set16`.
-/

namespace Emerald

/-! ## Errors -/

/-- The exceptions thrown by the modelled code: `assert` of `macros.hh`, the
`MemoryException`s of `memory.hh`, the `ILL` handler and the `runtime_error` of
`PixelFIFO::pop`. `TableIndexOutOfRange` stands for an index outside
`instruction_table`, which the C++ code cannot form (the opcode is a `u8` and
`instruction_set` is 0 or 1). -/
inductive Error
  | AssertionFailed
  | IllegalInstruction
  | IllegalRomWrite
  | WordOnIoRegister
  | InvalidRegisterNumber
  | TableIndexOutOfRange
  | PixelFifoEmpty
  deriving DecidableEq

/-! ## Flags (`core/registers.hh`) -/

namespace Flags

def CARRY : Nat := 0x10
def HALF_CARRY : Nat := 0x20
def SUBTRACT : Nat := 0x40
def ZERO : Nat := 0x80
def ANY : Nat := 0x00
def NOT : Nat := 0x01
def NONZERO : Nat := 0x81
def NOCARRY : Nat := 0x11

end Flags

/-! ## Register file (`core/registers.hh`, `main.cc`) -/

/-- Selector of an 8-bit register: the byte references of `namespace Registers`.
`unused` is the placeholder `_`, the low byte of the guard word. -/
inductive ByteRegister
  | A | F | B | C | D | E | H | L | unused
  deriving DecidableEq

/-- Selector of a 16-bit register: the word references of `namespace Registers`.
`unused16` is the placeholder `__`, the guard word itself. -/
inductive WordRegister
  | AF | BC | DE | HL | SP | PC | unused16
  deriving DecidableEq

/-- The value `GUARD_REGISTER_VALUE` of `main.cc`. -/
def GUARD_REGISTER_VALUE : Nat := 0xABCD

/-- The `RegisterFile` of `registers.hh` together with the `guard_register` of
`main.cc`. Each pair is a union of a `u16` with two `u8` (low byte first), so the
bytes are stored and the words are computed from them. -/
structure RegisterFile where
  A : Nat
  F : Nat
  B : Nat
  C : Nat
  D : Nat
  E : Nat
  H : Nat
  L : Nat
  SP : Nat
  PC : Nat
  guard_register : Nat

namespace RegisterFile

/-- Read through a byte reference. -/
def get8 (r : RegisterFile) : ByteRegister → Nat
  | .A => r.A
  | .F => r.F
  | .B => r.B
  | .C => r.C
  | .D => r.D
  | .E => r.E
  | .H => r.H
  | .L => r.L
  | .unused => r.guard_register % 256

/-- Write through a byte reference (the value is truncated to a `u8`). -/
def set8 (r : RegisterFile) (x : ByteRegister) (v : Nat) : RegisterFile :=
  match x with
  | .A => { r with A := v % 256 }
  | .F => { r with F := v % 256 }
  | .B => { r with B := v % 256 }
  | .C => { r with C := v % 256 }
  | .D => { r with D := v % 256 }
  | .E => { r with E := v % 256 }
  | .H => { r with H := v % 256 }
  | .L => { r with L := v % 256 }
  | .unused => { r with guard_register := r.guard_register / 256 * 256 + v % 256 }

/-- Read through a word reference: `pair(hi, lo) = (hi << 8) | lo`. -/
def get16 (r : RegisterFile) : WordRegister → Nat
  | .AF => r.A * 256 + r.F
  | .BC => r.B * 256 + r.C
  | .DE => r.D * 256 + r.E
  | .HL => r.H * 256 + r.L
  | .SP => r.SP
  | .PC => r.PC
  | .unused16 => r.guard_register

/-- Write through a word reference (the value is truncated to a `u16`). -/
def set16 (r : RegisterFile) (x : WordRegister) (v : Nat) : RegisterFile :=
  match x with
  | .AF => { r with A := v % 65536 / 256, F := v % 256 }
  | .BC => { r with B := v % 65536 / 256, C := v % 256 }
  | .DE => { r with D := v % 65536 / 256, E := v % 256 }
  | .HL => { r with H := v % 65536 / 256, L := v % 256 }
  | .SP => { r with SP := v % 65536 }
  | .PC => { r with PC := v % 65536 }
  | .unused16 => { r with guard_register := v % 65536 }

/-- The macro `SET_FLAG(f)`: `F |= f`. -/
def SET_FLAG (r : RegisterFile) (f : Nat) : RegisterFile :=
  { r with F := (r.F ||| f) % 256 }

/-- The macro `CLEAR_FLAG(f)`: `F &= ~f`. -/
def CLEAR_FLAG (r : RegisterFile) (f : Nat) : RegisterFile :=
  { r with F := r.F &&& (0xFF ^^^ f) }

end RegisterFile

/-! ## Address space (`memory.hh`) -/

/-- One slot of `Memory::registers`. A callback is a `std::function<u8(u16, u8,
bool)>`; it is modelled by the value it returns or the exception it throws. The
byte a direct slot points to is kept in `ptr`. -/
structure IoRegister where
  initialized : Bool
  callable : Bool
  callback : Nat → Nat → Bool → Except Error Nat
  ptr : Nat

/-- The class `Memory`: the 64 KiB array, the bank controller, the 0x81 I/O
register slots and the debug flag. The members `addr` and `_register` set by
`operator[]` are the result of `Memory.select`. -/
structure Memory where
  memory : Nat → Nat
  bankctl : Nat → Nat → Bool → Except Error Nat
  registers : Nat → IoRegister
  debug : Bool

namespace Memory

/-- The selection done by `operator[]`: the assertion `addr != 0xABCD`, then the
I/O slot the address maps to, if any. -/
def select (addr : Nat) : Except Error (Option Nat) :=
  if addr = 0xABCD then .error .AssertionFailed
  else if addr &&& 0xFF80 = 0xFF00 then .ok (some (addr &&& 0xFF))
  else if addr = 0xFFFF then .ok (some 0x80)
  else .ok none

/-- The call `memory[addr].read_byte()`. -/
def read_byte (m : Memory) (addr : Nat) : Except Error Nat :=
  match select addr with
  | .error e => .error e
  | .ok none => .ok (m.memory addr)
  | .ok (some i) =>
    if !(m.registers i).initialized then .ok 0xFF
    else if (m.registers i).callable then (m.registers i).callback addr 0 false
    else .ok (m.registers i).ptr

/-- The call `memory[addr].write_byte(b)`. -/
def write_byte (m : Memory) (addr b : Nat) : Except Error Memory :=
  match select addr with
  | .error e => .error e
  | .ok (some i) =>
    if !(m.registers i).initialized then .ok m
    else if (m.registers i).callable then
      match (m.registers i).callback addr b true with
      | .error e => .error e
      | .ok _ => .ok m
    else
      .ok { m with registers := fun j =>
              if j = i then { m.registers i with ptr := b } else m.registers j }
  | .ok none =>
    if addr &&& 0x8000 ≠ 0 then
      .ok { m with memory := fun a => if a = addr then b else m.memory a }
    else
      match m.bankctl addr b true with
      | .error e => .error e
      | .ok _ => .ok m

/-- The call `memory[addr].read_word()`: a little-endian read of the array. -/
def read_word (m : Memory) (addr : Nat) : Except Error Nat :=
  match select addr with
  | .error e => .error e
  | .ok (some _) => .error .WordOnIoRegister
  | .ok none => .ok (m.memory addr + m.memory (addr + 1) * 256)

/-- The call `memory[addr].write_word(w)`: a little-endian write to the array. -/
def write_word (m : Memory) (addr w : Nat) : Except Error Memory :=
  match select addr with
  | .error e => .error e
  | .ok (some _) => .error .WordOnIoRegister
  | .ok none =>
    if m.debug || (addr &&& 0x8000 != 0) then
      .ok { m with memory := fun a =>
              if a = addr then w % 256
              else if a = addr + 1 then w / 256 % 256
              else m.memory a }
    else .error .IllegalRomWrite

end Memory

/-! ## Machine state and instruction descriptors (`core/instructions.hh`) -/

/-- The members of the class `CPU` (`core/cpu.hh`) the handlers act on. The
members `IF` and `IE` are the bytes the I/O slots 0x0F and 0x80 point to: they
are the `ptr` of these slots in `Memory.registers`. The member `on` is `on_flag`
here. -/
structure CPU where
  IME : Bool
  on_flag : Bool
  halted : Bool
  instruction_set : Nat

/-- The state the handlers act on: the register file, the address space and the
processor. -/
structure State where
  regs : RegisterFile
  mem : Memory
  cpu : CPU

/-- The struct `InstructionArgs`. -/
structure InstructionArgs where
  dst : ByteRegister
  src : ByteRegister
  dst16 : WordRegister
  src16 : WordRegister
  data : Nat
  flag : Nat
  cycles : Nat

/-- The type of a handler `u8 fn(InstructionArgs)`: it returns the new state and
the cycle count, or throws. -/
abbrev Handler := InstructionArgs → State → Except Error (State × Nat)

/-! ## The processor's stack (`core/cpu.cc`) -/

namespace CPU

/-- The method `CPU::push`: `SP -= 2`, then the word is written at `SP`; `AF` is
written with the low nibble of `F` masked. -/
def push (s : State) (r : WordRegister) : Except Error State :=
  let regs := s.regs.set16 .SP (s.regs.SP + 65536 - 2)
  let w := if r = .AF then regs.get16 r &&& 0xFFF0 else regs.get16 r
  match s.mem.write_word regs.SP w with
  | .error e => .error e
  | .ok m => .ok { s with regs := regs, mem := m }

/-- The method `CPU::pop`: the word at `SP` goes to `r`, then `SP += 2`. -/
def pop (s : State) (r : WordRegister) : Except Error State :=
  match s.mem.read_word s.regs.SP with
  | .error e => .error e
  | .ok w =>
    let regs := s.regs.set16 r w
    .ok { s with regs := regs.set16 .SP (regs.SP + 2) }

end CPU

/-! ## Handlers (`core/instructions.tcc`) -/

namespace Instructions

open Flags

/-- Conversion to `i8` of a byte (two's complement). -/
def toI8 (b : Nat) : Int :=
  if b % 256 < 128 then ((b % 256 : Nat) : Int) else ((b % 256 : Nat) : Int) - 256

/-- Conversion to `i16` (two's complement wrap). -/
def toI16 (x : Int) : Int := (x + 32768) % 65536 - 32768

/-- Conversion to `u8`. -/
def toU8 (x : Int) : Nat := (x % 256).toNat

/-- Conversion to `u16`. -/
def toU16 (x : Int) : Nat := (x % 65536).toNat

/-- The bits of an `i32` (two's complement), for the bit tests on signed values. -/
def toU32 (x : Int) : Nat := (x % 4294967296).toNat

/-- The macro `CHECK_FLAGS`. -/
def CHECK_FLAGS (args : InstructionArgs) (F : Nat) : Bool :=
  ((args.flag &&& NOT != 0) && (F &&& args.flag == 0)) ||
  ((args.flag &&& NOT == 0) && (F &&& args.flag != 0))

/-- The handler `NOP`. -/
def NOP : Handler := fun args s => .ok (s, args.cycles)

/-- The handler `ILL`. -/
def ILL : Handler := fun _ _ => .error .IllegalInstruction

/-- The handler `HALT`: `cpu.halt()`. -/
def HALT : Handler := fun args s =>
  .ok ({ s with cpu := { s.cpu with halted := true } }, args.cycles)

/-- The handler `STOP`: `cpu.stop()`. -/
def STOP : Handler := fun args s =>
  .ok ({ s with cpu := { s.cpu with on_flag := false } }, args.cycles)

/-- The handler `EI`: `cpu.enable_interrupts(0, true)`, which sets `IME` and ors
the mask 0 into `IE`. -/
def EI : Handler := fun args s =>
  .ok ({ s with cpu := { s.cpu with IME := s.cpu.IME || true } }, args.cycles)

/-- The handler `DI`: `cpu.disable_interrupts(0, true)`, which clears `IME` and
ands the mask `~0` into `IE`. -/
def DI : Handler := fun args s =>
  .ok ({ s with cpu := { s.cpu with IME := s.cpu.IME && !true } }, args.cycles)

/-- The handler `CB`: `cpu.cb()`. -/
def CB : Handler := fun args s =>
  .ok ({ s with cpu := { s.cpu with instruction_set := 1 } }, args.cycles)

/-- The handler `JP<immediate>`. -/
def JP (immediate : Bool) : Handler := fun args s =>
  if args.flag ≠ ANY ∧ CHECK_FLAGS args s.regs.F = false then
    if immediate then
      .ok ({ s with regs := s.regs.set16 .PC (s.regs.PC + 2) }, args.cycles)
    else .ok (s, args.cycles)
  else
    let cycles := if args.flag ≠ ANY then (args.cycles + 4) % 256 else args.cycles
    if immediate then
      match s.mem.read_word s.regs.PC with
      | .error e => .error e
      | .ok w => .ok ({ s with regs := s.regs.set16 .PC w }, cycles)
    else
      .ok ({ s with regs := s.regs.set16 .PC (s.regs.get16 args.src16) }, cycles)

/-- The handler `JR`. -/
def JR : Handler := fun args s =>
  let s := { s with regs := s.regs.set16 .PC (s.regs.PC + 1) }
  if args.flag ≠ ANY ∧ CHECK_FLAGS args s.regs.F = false then
    .ok (s, args.cycles)
  else
    let cycles := if args.flag ≠ ANY then (args.cycles + 4) % 256 else args.cycles
    match s.mem.read_byte (toU16 ((s.regs.PC : Int) - 1)) with
    | .error e => .error e
    | .ok b =>
      .ok ({ s with regs := s.regs.set16 .PC (toU16 ((s.regs.PC : Int) + toI8 b)) }, cycles)

/-- The handler `RST`. -/
def RST : Handler := fun args s =>
  match CPU.push s .PC with
  | .error e => .error e
  | .ok s => .ok ({ s with regs := s.regs.set16 .PC args.data }, args.cycles)

/-- The handler `CALL`. -/
def CALL : Handler := fun args s =>
  let addr := s.regs.PC
  let s := { s with regs := s.regs.set16 .PC (s.regs.PC + 2) }
  if args.flag ≠ ANY ∧ CHECK_FLAGS args s.regs.F = false then
    .ok (s, args.cycles)
  else
    let cycles := if args.flag ≠ ANY then (args.cycles + 12) % 256 else args.cycles
    match CPU.push s .PC with
    | .error e => .error e
    | .ok s =>
      match s.mem.read_word addr with
      | .error e => .error e
      | .ok w => .ok ({ s with regs := s.regs.set16 .PC w }, cycles)

/-- The handler `RET<int_enable>`. -/
def RET (int_enable : Bool) : Handler := fun args s =>
  if args.flag ≠ ANY ∧ CHECK_FLAGS args s.regs.F = false then
    .ok (s, args.cycles)
  else
    let cycles := if args.flag ≠ ANY then (args.cycles + 16) % 256 else args.cycles
    match CPU.pop s .PC with
    | .error e => .error e
    | .ok s =>
      if int_enable then
        .ok ({ s with cpu := { s.cpu with IME := s.cpu.IME || true } }, cycles)
      else .ok (s, cycles)

/-- The handler `MV`. -/
def MV : Handler := fun args s =>
  .ok ({ s with regs := s.regs.set8 args.dst (s.regs.get8 args.src) }, args.cycles)

/-- The handler `LD<indirect, difference>`; `IND(addr)` is a word read. -/
def LD (indirect : Bool) (difference : Int) : Handler := fun args s =>
  let addr : Except Error Nat :=
    if indirect then s.mem.read_word (s.regs.get16 args.src16)
    else .ok (s.regs.get16 args.src16)
  match addr with
  | .error e => .error e
  | .ok addr =>
    match s.mem.read_byte addr with
    | .error e => .error e
    | .ok v =>
      let r := s.regs.set8 args.dst v
      let r := r.set16 args.src16 (toU16 ((r.get16 args.src16 : Int) + difference))
      .ok ({ s with regs := r }, args.cycles)

/-- The handler `ST<indirect, difference>`. -/
def ST (indirect : Bool) (difference : Int) : Handler := fun args s =>
  let addr : Except Error Nat :=
    if indirect then s.mem.read_word (s.regs.get16 args.dst16)
    else .ok (s.regs.get16 args.dst16)
  match addr with
  | .error e => .error e
  | .ok addr =>
    match s.mem.write_byte addr (s.regs.get8 args.src) with
    | .error e => .error e
    | .ok m =>
      let r := s.regs.set16 args.dst16 (toU16 ((s.regs.get16 args.dst16 : Int) + difference))
      .ok ({ s with regs := r, mem := m }, args.cycles)

/-- The handler `LDH<immediate>`; `HIGH` is `0xFF00`. -/
def LDH (immediate : Bool) : Handler := fun args s =>
  let off : Except Error (Nat × RegisterFile) :=
    if immediate then
      match s.mem.read_byte s.regs.PC with
      | .error e => .error e
      | .ok b => .ok (b, s.regs.set16 .PC (s.regs.PC + 1))
    else .ok (s.regs.get8 args.src, s.regs)
  match off with
  | .error e => .error e
  | .ok (off, r) =>
    match s.mem.read_byte ((0xFF00 + off) % 65536) with
    | .error e => .error e
    | .ok v => .ok ({ s with regs := r.set8 args.dst v }, args.cycles)

/-- The handler `STH<immediate>`. -/
def STH (immediate : Bool) : Handler := fun args s =>
  let off : Except Error (Nat × RegisterFile) :=
    if immediate then
      match s.mem.read_byte s.regs.PC with
      | .error e => .error e
      | .ok b => .ok (b, s.regs.set16 .PC (s.regs.PC + 1))
    else .ok (s.regs.get8 args.dst, s.regs)
  match off with
  | .error e => .error e
  | .ok (off, r) =>
    match s.mem.write_byte ((0xFF00 + off) % 65536) (r.get8 args.src) with
    | .error e => .error e
    | .ok m => .ok ({ s with regs := r, mem := m }, args.cycles)

/-- The handler `LET<indirect>`. -/
def LET (indirect : Bool) : Handler := fun args s =>
  match s.mem.read_byte s.regs.PC with
  | .error e => .error e
  | .ok val =>
    let r := s.regs.set16 .PC (s.regs.PC + 1)
    if indirect then
      match s.mem.write_byte (r.get16 args.dst16) val with
      | .error e => .error e
      | .ok m => .ok ({ s with regs := r, mem := m }, args.cycles)
    else
      .ok ({ s with regs := r.set8 args.dst val }, args.cycles)

/-- The handler `MV16`. -/
def MV16 : Handler := fun args s =>
  .ok ({ s with regs := s.regs.set16 args.dst16 (s.regs.get16 args.src16) }, args.cycles)

/-- The handler `LET16`. -/
def LET16 : Handler := fun args s =>
  match s.mem.read_word s.regs.PC with
  | .error e => .error e
  | .ok w =>
    let r := s.regs.set16 args.dst16 w
    .ok ({ s with regs := r.set16 .PC (r.PC + 2) }, args.cycles)

/-- The handler `MVSP`: `HL = SP + memory[PC++].read_byte()`. -/
def MVSP : Handler := fun args s =>
  match s.mem.read_byte s.regs.PC with
  | .error e => .error e
  | .ok b =>
    let r := s.regs.set16 .PC (s.regs.PC + 1)
    .ok ({ s with regs := r.set16 .HL (r.SP + b) }, args.cycles)

/-- The handler `STSP`. -/
def STSP : Handler := fun args s =>
  match s.mem.read_word s.regs.PC with
  | .error e => .error e
  | .ok addr =>
    match s.mem.write_word addr s.regs.SP with
    | .error e => .error e
    | .ok m =>
      .ok ({ s with regs := s.regs.set16 .PC (s.regs.PC + 2), mem := m }, args.cycles)

/-- The handler `POP`. -/
def POP : Handler := fun args s =>
  match CPU.pop s args.dst16 with
  | .error e => .error e
  | .ok s => .ok (s, args.cycles)

/-- The handler `PUSH`. -/
def PUSH : Handler := fun args s =>
  match CPU.push s args.src16 with
  | .error e => .error e
  | .ok s => .ok (s, args.cycles)

/-- The macro `LOAD_U8_OPERAND_B`: the operand `b` comes from memory at `src16`,
from the byte at `PC` (which is then incremented), or from the register `src`. -/
def LOAD_U8_OPERAND_B (indirect immediate : Bool) (args : InstructionArgs) (s : State) :
    Except Error (Nat × State) :=
  if indirect then
    match s.mem.read_byte (s.regs.get16 args.src16) with
    | .error e => .error e
    | .ok b => .ok (b, s)
  else if immediate then
    match s.mem.read_byte s.regs.PC with
    | .error e => .error e
    | .ok b => .ok (b, { s with regs := s.regs.set16 .PC (s.regs.PC + 1) })
  else
    .ok (s.regs.get8 args.src, s)

/-- The handler `ADD<carry, indirect, immediate>`. -/
def ADD (carry indirect immediate : Bool) : Handler := fun args s =>
  match LOAD_U8_OPERAND_B indirect immediate args s with
  | .error e => .error e
  | .ok (b, s) =>
    let c := if carry && (s.regs.F &&& CARRY != 0) then 1 else 0
    let sum := (c + (s.regs.get8 args.dst + b)) % 65536
    let half := (c + ((s.regs.get8 args.dst &&& 0xF) + (b &&& 0xF))) % 256
    let r := { s.regs with F := 0 }
    let r := if half &&& 0x10 ≠ 0 then r.SET_FLAG HALF_CARRY else r
    let r := if sum &&& 0x100 ≠ 0 then r.SET_FLAG CARRY else r
    let r := if sum &&& 0xFF = 0 then r.SET_FLAG ZERO else r
    let r := r.set8 args.dst (sum &&& 0xFF)
    .ok ({ s with regs := r }, args.cycles)

/-- The macro `LOAD_U8_OPERAND_A`: the operand `a` is the byte at `src16` or the
register `dst`. -/
def LOAD_U8_OPERAND_A (indirect : Bool) (args : InstructionArgs) (s : State) :
    Except Error Nat :=
  if indirect then s.mem.read_byte (s.regs.get16 args.src16)
  else .ok (s.regs.get8 args.dst)

/-- The macro `STORE_U8_OPERAND_A`, applied to the register file `r` the handler
has reached: `a` goes to the byte at `src16` or to the register `dst`. -/
def STORE_U8_OPERAND_A (indirect : Bool) (args : InstructionArgs) (s : State)
    (r : RegisterFile) (a : Nat) : Except Error State :=
  if indirect then
    match s.mem.write_byte (r.get16 args.src16) a with
    | .error e => .error e
    | .ok m => .ok { s with regs := r, mem := m }
  else
    .ok { s with regs := r.set8 args.dst a }

/-- The handler `SUB<carry, indirect, immediate>`. The statement
`diff = half = -1` assigns `-1` to the `u8` variable `half` and then the value of
`half`, which is 255, to `diff`. -/
def SUB (carry indirect immediate : Bool) : Handler := fun args s =>
  match LOAD_U8_OPERAND_B indirect immediate args s with
  | .error e => .error e
  | .ok (b, s) =>
    let half0 : Nat := if carry && (s.regs.F &&& CARRY != 0) then toU8 (-1) else 0
    let diff0 : Int := toI16 half0
    let diff : Int := toI16 (diff0 + ((s.regs.get8 args.dst : Int) - (b : Int)))
    let half : Nat :=
      toU8 ((half0 : Int) +
        (((s.regs.get8 args.dst &&& 0xF0 : Nat) : Int) - ((b &&& 0xF0 : Nat) : Int)))
    let r := { s.regs with F := SUBTRACT }
    let r := if half &&& 0x4 ≠ 0 then r.SET_FLAG HALF_CARRY else r
    let r := if diff < 0 then r.SET_FLAG CARRY else r
    let r := if diff = 0 then r.SET_FLAG ZERO else r
    let r := r.set8 args.dst (toU8 diff)
    .ok ({ s with regs := r }, args.cycles)

/-- The handler `INC<indirect>`. -/
def INC (indirect : Bool) : Handler := fun args s =>
  match LOAD_U8_OPERAND_A indirect args s with
  | .error e => .error e
  | .ok a =>
    let half := ((a &&& 0xF) + 1) % 256
    let a := (a + 1) % 256
    let r := { s.regs with F := s.regs.F &&& CARRY }
    let r := if half &&& 0x10 ≠ 0 then r.SET_FLAG HALF_CARRY else r
    let r := if a = 0 then r.SET_FLAG ZERO else r
    match STORE_U8_OPERAND_A indirect args s r a with
    | .error e => .error e
    | .ok s => .ok (s, args.cycles)

/-- The handler `DEC<indirect>`. -/
def DEC (indirect : Bool) : Handler := fun args s =>
  match LOAD_U8_OPERAND_A indirect args s with
  | .error e => .error e
  | .ok a =>
    let half := toU8 (((a &&& 0x10 : Nat) : Int) - 1)
    let a := toU8 ((a : Int) - 1)
    let r := { s.regs with F := (s.regs.F &&& CARRY) ||| SUBTRACT }
    let r := if half &&& 0x4 ≠ 0 then r.SET_FLAG HALF_CARRY else r
    let r := if a = 0 then r.SET_FLAG ZERO else r
    match STORE_U8_OPERAND_A indirect args s r a with
    | .error e => .error e
    | .ok s => .ok (s, args.cycles)

/-- The handler `ADD16`. `a` and `b` are references: the high bytes are read on
entry, the sum `a += b` reads both registers again after `F` was updated. -/
def ADD16 : Handler := fun args s =>
  let a_hi := (s.regs.get16 args.dst16 >>> 8) % 256
  let b_hi := (s.regs.get16 args.src16 >>> 8) % 256
  let sum_hi := (a_hi + b_hi) % 65536
  let half_hi := ((a_hi &&& 0xF) + (b_hi &&& 0xF)) % 256
  let r := { s.regs with F := s.regs.F &&& ZERO }
  let r := if sum_hi &&& 0x100 ≠ 0 then r.SET_FLAG CARRY else r
  let r := if half_hi &&& 0x10 ≠ 0 then r.SET_FLAG HALF_CARRY else r
  let r := r.set16 args.dst16 (r.get16 args.dst16 + r.get16 args.src16)
  .ok ({ s with regs := r }, args.cycles)

/-- The handler `DAA`. It works on the registers `A` and `F` themselves, not on
the operand descriptor. -/
def DAA : Handler := fun args s =>
  let r := s.regs
  let r :=
    if r.F &&& SUBTRACT ≠ 0 then
      let r := if r.F &&& CARRY ≠ 0 then { r with A := toU8 ((r.A : Int) - 0x60) } else r
      let r := if r.F &&& HALF_CARRY ≠ 0 then { r with A := toU8 ((r.A : Int) - 0x06) } else r
      r
    else
      let r :=
        if r.F &&& CARRY ≠ 0 ∨ r.A > 0x99 then
          ({ r with A := (r.A + 0x60) % 256 } : RegisterFile).SET_FLAG CARRY
        else r
      let r :=
        if r.F &&& HALF_CARRY ≠ 0 ∨ (r.A &&& 0x0F) > 0x09 then
          { r with A := (r.A + 0x06) % 256 }
        else r
      r
  let r := if r.A = 0 then r.SET_FLAG ZERO else r
  let r := r.CLEAR_FLAG HALF_CARRY
  .ok ({ s with regs := r }, args.cycles)

/-- The handler `RR<carry, indirect>`. -/
def RR (carry indirect : Bool) : Handler := fun args s =>
  match LOAD_U8_OPERAND_A indirect args s with
  | .error e => .error e
  | .ok a =>
    let original := a
    let a := a >>> 1
    let a :=
      if carry then (a ||| ((if s.regs.F &&& CARRY ≠ 0 then 1 else 0) <<< 7)) % 256
      else (a ||| ((original &&& 1) <<< 7)) % 256
    let r := { s.regs with F := 0 }
    let r := if a = 0 then r.SET_FLAG ZERO else r
    let r := if original &&& 1 ≠ 0 then r.SET_FLAG CARRY else r
    match STORE_U8_OPERAND_A indirect args s r a with
    | .error e => .error e
    | .ok s => .ok (s, args.cycles)

/-- The handler `RL<carry, indirect>`. -/
def RL (carry indirect : Bool) : Handler := fun args s =>
  match LOAD_U8_OPERAND_A indirect args s with
  | .error e => .error e
  | .ok a =>
    let original := a
    let a := (a <<< 1) % 256
    let a :=
      if carry then (a ||| (if s.regs.F &&& CARRY ≠ 0 then 1 else 0)) % 256
      else (a ||| (if original &&& 0x80 ≠ 0 then 1 else 0)) % 256
    let r := { s.regs with F := 0 }
    let r := if a = 0 then r.SET_FLAG ZERO else r
    let r := if original &&& 0x80 ≠ 0 then r.SET_FLAG CARRY else r
    match STORE_U8_OPERAND_A indirect args s r a with
    | .error e => .error e
    | .ok s => .ok (s, args.cycles)

/-- The handler `INC16`. -/
def INC16 : Handler := fun args s =>
  .ok ({ s with regs := s.regs.set16 args.dst16 (s.regs.get16 args.dst16 + 1) }, args.cycles)

/-- The handler `DEC16`. -/
def DEC16 : Handler := fun args s =>
  .ok ({ s with regs := s.regs.set16 args.dst16 (s.regs.get16 args.dst16 + 65536 - 1) },
    args.cycles)

/-- The handler `ADDS`. It sets flags only: `SP` is copied to the local `a` and
never written. -/
def ADDS : Handler := fun args s =>
  match s.mem.read_byte s.regs.PC with
  | .error e => .error e
  | .ok byte =>
    let r := s.regs.set16 .PC (s.regs.PC + 1)
    let a := s.regs.SP
    let b : Int := toI8 byte
    let sum : Int := (a : Int) + b
    let half : Int := (((a >>> 8) &&& (if b < 0 then 0xF0 else 0xF) : Nat) : Int) + b
    let r := if 0 ≤ sum ∧ toU32 sum &&& 0x10000 ≠ 0 then r.SET_FLAG CARRY else r
    let r :=
      if (b < 0 ∧ toU32 half &&& 0x4 ≠ 0) ∨ (0 ≤ b ∧ toU32 half &&& 0x10 ≠ 0) then
        r.SET_FLAG HALF_CARRY
      else r
    .ok ({ s with regs := r }, args.cycles)

/-- The handler `CPL`. -/
def CPL : Handler := fun args s =>
  let r := s.regs.set8 args.dst (toU8 (-(s.regs.get8 args.dst : Int) - 1))
  .ok ({ s with regs := { r with F := (r.F ||| (SUBTRACT ||| CARRY)) % 256 } }, args.cycles)

/-- The handler `AND<indirect, immediate>`. -/
def AND (indirect immediate : Bool) : Handler := fun args s =>
  match LOAD_U8_OPERAND_B indirect immediate args s with
  | .error e => .error e
  | .ok (b, s) =>
    let r := s.regs.set8 args.dst (s.regs.get8 args.dst &&& b)
    let r := { r with F := HALF_CARRY }
    let r := if r.get8 args.dst = 0 then r.SET_FLAG ZERO else r
    .ok ({ s with regs := r }, args.cycles)

/-- The handler `XOR<indirect, immediate>`. -/
def XOR (indirect immediate : Bool) : Handler := fun args s =>
  match LOAD_U8_OPERAND_B indirect immediate args s with
  | .error e => .error e
  | .ok (b, s) =>
    let r := s.regs.set8 args.dst (s.regs.get8 args.dst ^^^ b)
    let r := { r with F := 0 }
    let r := if r.get8 args.dst = 0 then r.SET_FLAG ZERO else r
    .ok ({ s with regs := r }, args.cycles)

/-- The handler `OR<indirect, immediate>`. -/
def OR (indirect immediate : Bool) : Handler := fun args s =>
  match LOAD_U8_OPERAND_B indirect immediate args s with
  | .error e => .error e
  | .ok (b, s) =>
    let r := s.regs.set8 args.dst (s.regs.get8 args.dst ||| b)
    let r := { r with F := 0 }
    let r := if r.get8 args.dst = 0 then r.SET_FLAG ZERO else r
    .ok ({ s with regs := r }, args.cycles)

/-- The handler `CP<indirect, immediate>`: `SUB<false, indirect, immediate>` with
the destination restored afterwards. -/
def CP (indirect immediate : Bool) : Handler := fun args s =>
  let val := s.regs.get8 args.dst
  match SUB false indirect immediate args s with
  | .error e => .error e
  | .ok (s, _) => .ok ({ s with regs := s.regs.set8 args.dst val }, args.cycles)

/-- The handler `SLA<indirect>`. -/
def SLA (indirect : Bool) : Handler := fun args s =>
  match LOAD_U8_OPERAND_A indirect args s with
  | .error e => .error e
  | .ok a =>
    let r := { s.regs with F := 0 }
    let r := if a &&& 0x40 ≠ 0 then r.SET_FLAG CARRY else r
    let a := (a <<< 1) % 256
    let r := if a = 0 then r.SET_FLAG ZERO else r
    match STORE_U8_OPERAND_A indirect args s r a with
    | .error e => .error e
    | .ok s => .ok (s, args.cycles)

/-- The handler `SRL<indirect>`. -/
def SRL (indirect : Bool) : Handler := fun args s =>
  match LOAD_U8_OPERAND_A indirect args s with
  | .error e => .error e
  | .ok a =>
    let r := { s.regs with F := 0 }
    let r := if a &&& 1 ≠ 0 then r.SET_FLAG CARRY else r
    let a := a >>> 1
    let r := if a = 0 then r.SET_FLAG ZERO else r
    match STORE_U8_OPERAND_A indirect args s r a with
    | .error e => .error e
    | .ok s => .ok (s, args.cycles)

/-- The handler `SRA<indirect>`. -/
def SRA (indirect : Bool) : Handler := fun args s =>
  match LOAD_U8_OPERAND_A indirect args s with
  | .error e => .error e
  | .ok a =>
    let r := { s.regs with F := 0 }
    let r := if a &&& 1 ≠ 0 then r.SET_FLAG CARRY else r
    let a := ((a &&& 0x40) ||| (a >>> 1)) % 256
    let r := if a = 0 then r.SET_FLAG ZERO else r
    match STORE_U8_OPERAND_A indirect args s r a with
    | .error e => .error e
    | .ok s => .ok (s, args.cycles)

/-- The handler `SWAP<indirect>`. -/
def SWAP (indirect : Bool) : Handler := fun args s =>
  match LOAD_U8_OPERAND_A indirect args s with
  | .error e => .error e
  | .ok a =>
    let a := ((a >>> 4) ||| (a <<< 4)) % 256
    let r := { s.regs with F := 0 }
    let r := if a = 0 then r.SET_FLAG ZERO else r
    match STORE_U8_OPERAND_A indirect args s r a with
    | .error e => .error e
    | .ok s => .ok (s, args.cycles)

/-- The handler `BIT<indirect>`. -/
def BIT (indirect : Bool) : Handler := fun args s =>
  match LOAD_U8_OPERAND_A indirect args s with
  | .error e => .error e
  | .ok a =>
    let r := { s.regs with F := s.regs.F &&& CARRY }
    let r := r.SET_FLAG HALF_CARRY
    let r := if a &&& (1 <<< args.data) = 0 then r.SET_FLAG ZERO else r
    match STORE_U8_OPERAND_A indirect args s r a with
    | .error e => .error e
    | .ok s => .ok (s, args.cycles)

/-- The handler `SET<indirect>`. -/
def SET (indirect : Bool) : Handler := fun args s =>
  match LOAD_U8_OPERAND_A indirect args s with
  | .error e => .error e
  | .ok a =>
    match STORE_U8_OPERAND_A indirect args s s.regs ((a ||| (1 <<< args.data)) % 256) with
    | .error e => .error e
    | .ok s => .ok (s, args.cycles)

/-- The handler `RES<indirect>`. -/
def RES (indirect : Bool) : Handler := fun args s =>
  match LOAD_U8_OPERAND_A indirect args s with
  | .error e => .error e
  | .ok a =>
    match STORE_U8_OPERAND_A indirect args s s.regs
        (a &&& (0xFF ^^^ ((1 <<< args.data) % 256))) with
    | .error e => .error e
    | .ok s => .ok (s, args.cycles)

end Instructions

/-! ## Instruction table (`core/mappings.cc`) -/

/-- The function pointer of an `Instruction`: the name of a handler of
`core/instructions.tcc` with its template arguments. -/
inductive Op
  | NOP | ILL | HALT | STOP | EI | DI | CB
  | JP (immediate : Bool)
  | JR | RST | CALL
  | RET (int_enable : Bool)
  | MV
  | LD (indirect : Bool) (difference : Int)
  | ST (indirect : Bool) (difference : Int)
  | LDH (immediate : Bool)
  | STH (immediate : Bool)
  | LET (indirect : Bool)
  | MV16 | LET16 | MVSP | STSP | POP | PUSH | DAA
  | ADD (carry indirect immediate : Bool)
  | SUB (carry indirect immediate : Bool)
  | INC (indirect : Bool)
  | DEC (indirect : Bool)
  | ADD16 | INC16 | DEC16 | ADDS | CPL
  | AND (indirect immediate : Bool)
  | XOR (indirect immediate : Bool)
  | OR (indirect immediate : Bool)
  | CP (indirect immediate : Bool)
  | RR (carry indirect : Bool)
  | RL (carry indirect : Bool)
  | SLA (indirect : Bool)
  | SRL (indirect : Bool)
  | SRA (indirect : Bool)
  | SWAP (indirect : Bool)
  | BIT (indirect : Bool)
  | SET (indirect : Bool)
  | RES (indirect : Bool)

/-- The handler an `Op` names. -/
def Op.handler : Op → Handler
  | .NOP => Instructions.NOP
  | .ILL => Instructions.ILL
  | .HALT => Instructions.HALT
  | .STOP => Instructions.STOP
  | .EI => Instructions.EI
  | .DI => Instructions.DI
  | .CB => Instructions.CB
  | .JP i => Instructions.JP i
  | .JR => Instructions.JR
  | .RST => Instructions.RST
  | .CALL => Instructions.CALL
  | .RET i => Instructions.RET i
  | .MV => Instructions.MV
  | .LD i d => Instructions.LD i d
  | .ST i d => Instructions.ST i d
  | .LDH i => Instructions.LDH i
  | .STH i => Instructions.STH i
  | .LET i => Instructions.LET i
  | .MV16 => Instructions.MV16
  | .LET16 => Instructions.LET16
  | .MVSP => Instructions.MVSP
  | .STSP => Instructions.STSP
  | .POP => Instructions.POP
  | .PUSH => Instructions.PUSH
  | .DAA => Instructions.DAA
  | .ADD c i m => Instructions.ADD c i m
  | .SUB c i m => Instructions.SUB c i m
  | .INC i => Instructions.INC i
  | .DEC i => Instructions.DEC i
  | .ADD16 => Instructions.ADD16
  | .INC16 => Instructions.INC16
  | .DEC16 => Instructions.DEC16
  | .ADDS => Instructions.ADDS
  | .CPL => Instructions.CPL
  | .AND i m => Instructions.AND i m
  | .XOR i m => Instructions.XOR i m
  | .OR i m => Instructions.OR i m
  | .CP i m => Instructions.CP i m
  | .RR c i => Instructions.RR c i
  | .RL c i => Instructions.RL c i
  | .SLA i => Instructions.SLA i
  | .SRL i => Instructions.SRL i
  | .SRA i => Instructions.SRA i
  | .SWAP i => Instructions.SWAP i
  | .BIT i => Instructions.BIT i
  | .SET i => Instructions.SET i
  | .RES i => Instructions.RES i

/-- The struct `Instruction`: a handler with its operand descriptor. -/
structure Instruction where
  fn : Op
  args : InstructionArgs

/-- The call `instr.fn(instr.args)` of `CPU::run`. -/
def Instruction.run (instr : Instruction) (s : State) : Except Error (State × Nat) :=
  instr.fn.handler instr.args s

namespace Mappings

open Flags

/-- The macro `REGISTER(x, y)`. -/
def REGISTER (x y : ByteRegister) : InstructionArgs :=
  ⟨x, y, .unused16, .unused16, 0x00, ANY, 0x04⟩

/-- The macro `INDIRECT(x, y)`. -/
def INDIRECT (x : ByteRegister) (y : WordRegister) : InstructionArgs :=
  ⟨x, .unused, .unused16, y, 0x00, ANY, 0x08⟩

def _HALT (_x : WordRegister) (_y : WordRegister) : Instruction :=
  ⟨.HALT, ⟨.unused, .unused, .unused16, .unused16, 0x00, ANY, 0x04⟩⟩

def _MV (x y : ByteRegister) : Instruction := ⟨.MV, REGISTER x y⟩
def _LD (x : ByteRegister) (y : WordRegister) : Instruction := ⟨.LD false 0, INDIRECT x y⟩
def _ST (x : WordRegister) (y : ByteRegister) : Instruction :=
  ⟨.ST false 0, ⟨.unused, y, x, .unused16, 0x00, ANY, 0x08⟩⟩

def _ADD (x y : ByteRegister) : Instruction := ⟨.ADD false false false, REGISTER x y⟩
def _ADDi (x : ByteRegister) (y : WordRegister) : Instruction :=
  ⟨.ADD false true false, INDIRECT x y⟩
def _ADC (x y : ByteRegister) : Instruction := ⟨.ADD true false false, REGISTER x y⟩
def _ADCi (x : ByteRegister) (y : WordRegister) : Instruction :=
  ⟨.ADD true true false, INDIRECT x y⟩

def _SUB (x y : ByteRegister) : Instruction := ⟨.SUB false false false, REGISTER x y⟩
def _SUBi (x : ByteRegister) (y : WordRegister) : Instruction :=
  ⟨.SUB false true false, INDIRECT x y⟩
def _SBC (x y : ByteRegister) : Instruction := ⟨.SUB true false false, REGISTER x y⟩
def _SBCi (x : ByteRegister) (y : WordRegister) : Instruction :=
  ⟨.SUB true false false, INDIRECT x y⟩

def _AND (x y : ByteRegister) : Instruction := ⟨.AND false false, REGISTER x y⟩
def _ANDi (x : ByteRegister) (y : WordRegister) : Instruction := ⟨.AND true false, INDIRECT x y⟩
def _XOR (x y : ByteRegister) : Instruction := ⟨.XOR false false, REGISTER x y⟩
def _XORi (x : ByteRegister) (y : WordRegister) : Instruction := ⟨.XOR true false, INDIRECT x y⟩
def _OR (x y : ByteRegister) : Instruction := ⟨.OR false false, REGISTER x y⟩
def _ORi (x : ByteRegister) (y : WordRegister) : Instruction := ⟨.OR true false, INDIRECT x y⟩
def _CP (x y : ByteRegister) : Instruction := ⟨.CP false false, REGISTER x y⟩
def _CPi (x : ByteRegister) (y : WordRegister) : Instruction := ⟨.CP true false, INDIRECT x y⟩

def _RL (x : Bool) (y : ByteRegister) : Instruction :=
  ⟨.RL x false, ⟨y, .unused, .unused16, .unused16, 0x00, ANY, 0x08⟩⟩
def _RLi (x : Bool) (y : WordRegister) : Instruction :=
  ⟨.RL x true, ⟨.unused, .unused, .unused16, y, 0x00, ANY, 0x10⟩⟩
def _RR (x : Bool) (y : ByteRegister) : Instruction :=
  ⟨.RR x false, ⟨y, .unused, .unused16, .unused16, 0x00, ANY, 0x08⟩⟩
def _RRi (x : Bool) (y : WordRegister) : Instruction :=
  ⟨.RR x true, ⟨.unused, .unused, .unused16, y, 0x00, ANY, 0x10⟩⟩
def _SL (_x : Nat) (y : ByteRegister) : Instruction :=
  ⟨.SLA false, ⟨y, .unused, .unused16, .unused16, 0x00, ANY, 0x08⟩⟩
def _SLi (_x : Nat) (y : WordRegister) : Instruction :=
  ⟨.SLA true, ⟨.unused, .unused, .unused16, y, 0x00, ANY, 0x10⟩⟩
def _SRA (_x : Nat) (y : ByteRegister) : Instruction :=
  ⟨.SRA false, ⟨y, .unused, .unused16, .unused16, 0x00, ANY, 0x08⟩⟩
def _SRAi (_x : Nat) (y : WordRegister) : Instruction :=
  ⟨.SRA true, ⟨.unused, .unused, .unused16, y, 0x00, ANY, 0x10⟩⟩
def _SRL (_x : Nat) (y : ByteRegister) : Instruction :=
  ⟨.SRL false, ⟨y, .unused, .unused16, .unused16, 0x00, ANY, 0x08⟩⟩
def _SRLi (_x : Nat) (y : WordRegister) : Instruction :=
  ⟨.SRL true, ⟨.unused, .unused, .unused16, y, 0x00, ANY, 0x10⟩⟩

def _SWAP (_x : Nat) (y : ByteRegister) : Instruction :=
  ⟨.SWAP false, ⟨y, .unused, .unused16, .unused16, 0x00, ANY, 0x08⟩⟩
def _SWAPi (_x : Nat) (y : WordRegister) : Instruction :=
  ⟨.SWAP true, ⟨.unused, .unused, .unused16, y, 0x00, ANY, 0x10⟩⟩

def _BIT (x : Nat) (y : ByteRegister) : Instruction :=
  ⟨.BIT false, ⟨y, .unused, .unused16, .unused16, x, ANY, 0x08⟩⟩
def _BITi (x : Nat) (y : WordRegister) : Instruction :=
  ⟨.BIT true, ⟨.unused, .unused, .unused16, y, x, ANY, 0x10⟩⟩

def _RES (x : Nat) (y : ByteRegister) : Instruction :=
  ⟨.RES false, ⟨y, .unused, .unused16, .unused16, x, ANY, 0x08⟩⟩
def _RESi (x : Nat) (y : WordRegister) : Instruction :=
  ⟨.RES true, ⟨.unused, .unused, .unused16, y, x, ANY, 0x10⟩⟩

def _SET (x : Nat) (y : ByteRegister) : Instruction :=
  ⟨.SET false, ⟨y, .unused, .unused16, .unused16, x, ANY, 0x08⟩⟩
def _SETi (x : Nat) (y : WordRegister) : Instruction :=
  ⟨.SET true, ⟨.unused, .unused, .unused16, y, x, ANY, 0x10⟩⟩

/-- The macro `REPEAT(pattern, pattern7, arg)`: the pattern over the operand
columns `B, C, D, E, H, L, (HL), A`. -/
def REPEAT {α : Type} (pattern : α → ByteRegister → Instruction)
    (pattern7 : α → WordRegister → Instruction) (arg : α) : List Instruction :=
  [pattern arg .B, pattern arg .C, pattern arg .D, pattern arg .E,
   pattern arg .H, pattern arg .L, pattern7 arg .HL, pattern arg .A]

/-- The entries 0x00 to 0x07 of the primary table. -/
def primary_00_07 : List Instruction :=
  [
    ⟨.NOP, ⟨.unused, .unused, .unused16, .unused16, 0x00, ANY, 0x04⟩⟩,
    ⟨.LET16, ⟨.unused, .unused, .BC, .unused16, 0x00, ANY, 0x0C⟩⟩,
    ⟨.ST false 0, ⟨.unused, .A, .BC, .unused16, 0x00, ANY, 0x08⟩⟩,
    ⟨.INC16, ⟨.unused, .unused, .BC, .unused16, 0x00, ANY, 0x08⟩⟩,
    ⟨.INC false, ⟨.B, .unused, .unused16, .unused16, 0x00, ANY, 0x04⟩⟩,
    ⟨.DEC false, ⟨.B, .unused, .unused16, .unused16, 0x00, ANY, 0x04⟩⟩,
    ⟨.LET false, ⟨.B, .unused, .unused16, .unused16, 0x00, ANY, 0x08⟩⟩,
    ⟨.RL false false, ⟨.A, .unused, .unused16, .unused16, 0x00, ANY, 0x04⟩⟩
  ]

/-- The entries 0x08 to 0x0F of the primary table. -/
def primary_08_0F : List Instruction :=
  [
    ⟨.STSP, ⟨.unused, .unused, .unused16, .unused16, 0x00, ANY, 0x14⟩⟩,
    ⟨.ADD16, ⟨.unused, .unused, .HL, .BC, 0x00, ANY, 0x0C⟩⟩,
    ⟨.LD false 0, ⟨.A, .unused, .unused16, .BC, 0x00, ANY, 0x08⟩⟩,
    ⟨.DEC16, ⟨.unused, .unused, .BC, .unused16, 0x00, ANY, 0x08⟩⟩,
    ⟨.INC false, ⟨.C, .unused, .unused16, .unused16, 0x00, ANY, 0x04⟩⟩,
    ⟨.DEC false, ⟨.C, .unused, .unused16, .unused16, 0x00, ANY, 0x04⟩⟩,
    ⟨.LET false, ⟨.C, .unused, .unused16, .unused16, 0x00, ANY, 0x08⟩⟩,
    ⟨.RR false false, ⟨.A, .unused, .unused16, .unused16, 0x00, ANY, 0x04⟩⟩
  ]

/-- The entries 0x10 to 0x17 of the primary table. -/
def primary_10_17 : List Instruction :=
  [
    ⟨.STOP, ⟨.unused, .unused, .unused16, .unused16, 0x00, ANY, 0x04⟩⟩,
    ⟨.LET16, ⟨.unused, .unused, .DE, .unused16, 0x00, ANY, 0x0C⟩⟩,
    ⟨.ST false 0, ⟨.unused, .A, .DE, .unused16, 0x00, ANY, 0x08⟩⟩,
    ⟨.INC16, ⟨.unused, .unused, .DE, .unused16, 0x00, ANY, 0x08⟩⟩,
    ⟨.INC false, ⟨.D, .unused, .unused16, .unused16, 0x00, ANY, 0x04⟩⟩,
    ⟨.DEC false, ⟨.D, .unused, .unused16, .unused16, 0x00, ANY, 0x04⟩⟩,
    ⟨.LET false, ⟨.D, .unused, .unused16, .unused16, 0x00, ANY, 0x08⟩⟩,
    ⟨.RL true false, ⟨.A, .unused, .unused16, .unused16, 0x00, ANY, 0x04⟩⟩
  ]

/-- The entries 0x18 to 0x1F of the primary table. -/
def primary_18_1F : List Instruction :=
  [
    ⟨.JR, ⟨.unused, .unused, .unused16, .unused16, 0x00, ANY, 0x0C⟩⟩,
    ⟨.ADD16, ⟨.unused, .unused, .HL, .DE, 0x00, ANY, 0x0C⟩⟩,
    ⟨.LD false 0, ⟨.A, .unused, .unused16, .DE, 0x00, ANY, 0x08⟩⟩,
    ⟨.DEC16, ⟨.unused, .unused, .DE, .unused16, 0x00, ANY, 0x08⟩⟩,
    ⟨.INC false, ⟨.E, .unused, .unused16, .unused16, 0x00, ANY, 0x04⟩⟩,
    ⟨.DEC false, ⟨.E, .unused, .unused16, .unused16, 0x00, ANY, 0x04⟩⟩,
    ⟨.LET false, ⟨.E, .unused, .unused16, .unused16, 0x00, ANY, 0x08⟩⟩,
    ⟨.RR true false, ⟨.A, .unused, .unused16, .unused16, 0x00, ANY, 0x04⟩⟩
  ]

/-- The entries 0x20 to 0x27 of the primary table. -/
def primary_20_27 : List Instruction :=
  [
    ⟨.JR, ⟨.unused, .unused, .unused16, .unused16, 0x00, NONZERO, 0x08⟩⟩,
    ⟨.LET16, ⟨.unused, .unused, .HL, .unused16, 0x00, ANY, 0x0C⟩⟩,
    ⟨.ST false 1, ⟨.unused, .A, .HL, .unused16, 0x00, ANY, 0x08⟩⟩,
    ⟨.INC16, ⟨.unused, .unused, .HL, .unused16, 0x00, ANY, 0x08⟩⟩,
    ⟨.INC false, ⟨.H, .unused, .unused16, .unused16, 0x00, ANY, 0x04⟩⟩,
    ⟨.DEC false, ⟨.H, .unused, .unused16, .unused16, 0x00, ANY, 0x04⟩⟩,
    ⟨.LET false, ⟨.H, .unused, .unused16, .unused16, 0x00, ANY, 0x08⟩⟩,
    ⟨.DAA, ⟨.A, .unused, .unused16, .unused16, 0x00, ANY, 0x04⟩⟩
  ]

/-- The entries 0x28 to 0x2F of the primary table. -/
def primary_28_2F : List Instruction :=
  [
    ⟨.JR, ⟨.unused, .unused, .unused16, .unused16, 0x00, ZERO, 0x08⟩⟩,
    ⟨.ADD16, ⟨.unused, .unused, .HL, .HL, 0x00, ANY, 0x0C⟩⟩,
    ⟨.LD false 1, ⟨.A, .unused, .unused16, .HL, 0x00, ANY, 0x08⟩⟩,
    ⟨.DEC16, ⟨.unused, .unused, .HL, .unused16, 0x00, ANY, 0x08⟩⟩,
    ⟨.INC false, ⟨.L, .unused, .unused16, .unused16, 0x00, ANY, 0x04⟩⟩,
    ⟨.DEC false, ⟨.L, .unused, .unused16, .unused16, 0x00, ANY, 0x04⟩⟩,
    ⟨.LET false, ⟨.L, .unused, .unused16, .unused16, 0x00, ANY, 0x08⟩⟩,
    ⟨.CPL, ⟨.A, .unused, .unused16, .unused16, 0x00, ANY, 0x04⟩⟩
  ]

/-- The entries 0x30 to 0x37 of the primary table. -/
def primary_30_37 : List Instruction :=
  [
    ⟨.JR, ⟨.unused, .unused, .unused16, .unused16, 0x00, NOCARRY, 0x08⟩⟩,
    ⟨.LET16, ⟨.unused, .unused, .SP, .unused16, 0x00, ANY, 0x0C⟩⟩,
    ⟨.ST false (-1), ⟨.unused, .A, .HL, .unused16, 0x00, ANY, 0x08⟩⟩,
    ⟨.INC16, ⟨.unused, .unused, .SP, .unused16, 0x00, ANY, 0x08⟩⟩,
    ⟨.INC true, ⟨.unused, .unused, .unused16, .HL, 0x00, ANY, 0x0C⟩⟩,
    ⟨.DEC true, ⟨.unused, .unused, .unused16, .HL, 0x00, ANY, 0x0C⟩⟩,
    ⟨.LET true, ⟨.unused, .unused, .HL, .unused16, 0x00, ANY, 0x0C⟩⟩,
    ⟨.SET false, ⟨.F, .unused, .unused16, .unused16, 0x04, ANY, 0x04⟩⟩
  ]

/-- The entries 0x38 to 0x3F of the primary table. -/
def primary_38_3F : List Instruction :=
  [
    ⟨.JR, ⟨.unused, .unused, .unused16, .unused16, 0x00, CARRY, 0x08⟩⟩,
    ⟨.ADD16, ⟨.unused, .unused, .HL, .SP, 0x00, ANY, 0x0C⟩⟩,
    ⟨.LD false (-1), ⟨.A, .unused, .unused16, .HL, 0x00, ANY, 0x08⟩⟩,
    ⟨.DEC16, ⟨.unused, .unused, .SP, .unused16, 0x00, ANY, 0x08⟩⟩,
    ⟨.INC false, ⟨.A, .unused, .unused16, .unused16, 0x00, ANY, 0x04⟩⟩,
    ⟨.DEC false, ⟨.A, .unused, .unused16, .unused16, 0x00, ANY, 0x04⟩⟩,
    ⟨.LET false, ⟨.A, .unused, .unused16, .unused16, 0x00, ANY, 0x08⟩⟩,
    ⟨.RES false, ⟨.F, .unused, .unused16, .unused16, 0x04, ANY, 0x04⟩⟩
  ]

/-- The entries 0xC0 to 0xC7 of the primary table. -/
def primary_C0_C7 : List Instruction :=
  [
    ⟨.RET false, ⟨.unused, .unused, .unused16, .unused16, 0x00, NONZERO, 0x08⟩⟩,
    ⟨.POP, ⟨.unused, .unused, .BC, .unused16, 0x00, ANY, 0x0C⟩⟩,
    ⟨.JP true, ⟨.unused, .unused, .unused16, .unused16, 0x00, NONZERO, 0x0C⟩⟩,
    ⟨.JP true, ⟨.unused, .unused, .unused16, .unused16, 0x00, ANY, 0x10⟩⟩,
    ⟨.CALL, ⟨.unused, .unused, .unused16, .unused16, 0x00, NONZERO, 0x0C⟩⟩,
    ⟨.PUSH, ⟨.unused, .unused, .unused16, .BC, 0x00, ANY, 0x10⟩⟩,
    ⟨.ADD false false true, ⟨.A, .unused, .unused16, .unused16, 0x00, ANY, 0x08⟩⟩,
    ⟨.RST, ⟨.unused, .unused, .unused16, .unused16, 0x00, ANY, 0x10⟩⟩
  ]

/-- The entries 0xC8 to 0xCF of the primary table. -/
def primary_C8_CF : List Instruction :=
  [
    ⟨.RET false, ⟨.unused, .unused, .unused16, .unused16, 0x00, ZERO, 0x08⟩⟩,
    ⟨.RET false, ⟨.unused, .unused, .unused16, .unused16, 0x00, ANY, 0x10⟩⟩,
    ⟨.JP true, ⟨.unused, .unused, .unused16, .unused16, 0x00, ZERO, 0x0C⟩⟩,
    ⟨.CB, ⟨.unused, .unused, .unused16, .unused16, 0x00, ANY, 0x00⟩⟩,
    ⟨.CALL, ⟨.unused, .unused, .unused16, .unused16, 0x00, ZERO, 0x0C⟩⟩,
    ⟨.CALL, ⟨.unused, .unused, .unused16, .unused16, 0x00, ANY, 0x18⟩⟩,
    ⟨.ADD true false true, ⟨.A, .unused, .unused16, .unused16, 0x00, ANY, 0x08⟩⟩,
    ⟨.RST, ⟨.unused, .unused, .unused16, .unused16, 0x08, ANY, 0x10⟩⟩
  ]

/-- The entries 0xD0 to 0xD7 of the primary table. -/
def primary_D0_D7 : List Instruction :=
  [
    ⟨.RET false, ⟨.unused, .unused, .unused16, .unused16, 0x00, NOCARRY, 0x08⟩⟩,
    ⟨.POP, ⟨.unused, .unused, .DE, .unused16, 0x00, ANY, 0x0C⟩⟩,
    ⟨.JP true, ⟨.unused, .unused, .unused16, .unused16, 0x00, NOCARRY, 0x0C⟩⟩,
    ⟨.ILL, ⟨.unused, .unused, .unused16, .unused16, 0x00, ANY, 0x04⟩⟩,
    ⟨.CALL, ⟨.unused, .unused, .unused16, .unused16, 0x00, NOCARRY, 0x0C⟩⟩,
    ⟨.PUSH, ⟨.unused, .unused, .unused16, .DE, 0x00, ANY, 0x10⟩⟩,
    ⟨.SUB false false true, ⟨.A, .unused, .unused16, .unused16, 0x00, ANY, 0x08⟩⟩,
    ⟨.RST, ⟨.unused, .unused, .unused16, .unused16, 0x10, ANY, 0x10⟩⟩
  ]

/-- The entries 0xD8 to 0xDF of the primary table. -/
def primary_D8_DF : List Instruction :=
  [
    ⟨.RET false, ⟨.unused, .unused, .unused16, .unused16, 0x00, CARRY, 0x08⟩⟩,
    ⟨.RET true, ⟨.unused, .unused, .unused16, .unused16, 0x00, ANY, 0x10⟩⟩,
    ⟨.JP true, ⟨.unused, .unused, .unused16, .unused16, 0x00, CARRY, 0x0C⟩⟩,
    ⟨.ILL, ⟨.unused, .unused, .unused16, .unused16, 0x00, ANY, 0x04⟩⟩,
    ⟨.CALL, ⟨.unused, .unused, .unused16, .unused16, 0x00, CARRY, 0x0C⟩⟩,
    ⟨.ILL, ⟨.unused, .unused, .unused16, .unused16, 0x00, ANY, 0x04⟩⟩,
    ⟨.SUB true false true, ⟨.A, .unused, .unused16, .unused16, 0x00, ANY, 0x08⟩⟩,
    ⟨.RST, ⟨.unused, .unused, .unused16, .unused16, 0x18, ANY, 0x10⟩⟩
  ]

/-- The entries 0xE0 to 0xE7 of the primary table. -/
def primary_E0_E7 : List Instruction :=
  [
    ⟨.STH true, ⟨.unused, .A, .unused16, .unused16, 0x00, ANY, 0x0C⟩⟩,
    ⟨.POP, ⟨.unused, .unused, .HL, .unused16, 0x00, ANY, 0x0C⟩⟩,
    ⟨.STH false, ⟨.C, .A, .unused16, .unused16, 0x00, ANY, 0x08⟩⟩,
    ⟨.ILL, ⟨.unused, .unused, .unused16, .unused16, 0x00, ANY, 0x04⟩⟩,
    ⟨.ILL, ⟨.unused, .unused, .unused16, .unused16, 0x00, ANY, 0x04⟩⟩,
    ⟨.PUSH, ⟨.unused, .unused, .unused16, .HL, 0x00, ANY, 0x10⟩⟩,
    ⟨.AND false true, ⟨.A, .unused, .unused16, .unused16, 0x00, ANY, 0x08⟩⟩,
    ⟨.RST, ⟨.unused, .unused, .unused16, .unused16, 0x20, ANY, 0x10⟩⟩
  ]

/-- The entries 0xE8 to 0xEF of the primary table. -/
def primary_E8_EF : List Instruction :=
  [
    ⟨.ADDS, ⟨.unused, .unused, .SP, .unused16, 0x00, ANY, 0x10⟩⟩,
    ⟨.JP false, ⟨.unused, .unused, .unused16, .HL, 0x00, ANY, 0x0C⟩⟩,
    ⟨.ST true 2, ⟨.unused, .A, .PC, .unused16, 0x00, ANY, 0x10⟩⟩,
    ⟨.ILL, ⟨.unused, .unused, .unused16, .unused16, 0x00, ANY, 0x04⟩⟩,
    ⟨.ILL, ⟨.unused, .unused, .unused16, .unused16, 0x00, ANY, 0x04⟩⟩,
    ⟨.ILL, ⟨.unused, .unused, .unused16, .unused16, 0x00, ANY, 0x04⟩⟩,
    ⟨.XOR false true, ⟨.A, .unused, .unused16, .unused16, 0x00, ANY, 0x08⟩⟩,
    ⟨.RST, ⟨.unused, .unused, .unused16, .unused16, 0x28, ANY, 0x10⟩⟩
  ]

/-- The entries 0xF0 to 0xF7 of the primary table. -/
def primary_F0_F7 : List Instruction :=
  [
    ⟨.LDH true, ⟨.A, .unused, .unused16, .unused16, 0x00, ANY, 0x0C⟩⟩,
    ⟨.POP, ⟨.unused, .unused, .AF, .unused16, 0x00, ANY, 0x0C⟩⟩,
    ⟨.LDH false, ⟨.A, .C, .unused16, .unused16, 0x00, ANY, 0x08⟩⟩,
    ⟨.DI, ⟨.unused, .unused, .unused16, .unused16, 0x00, ANY, 0x04⟩⟩,
    ⟨.ILL, ⟨.unused, .unused, .unused16, .unused16, 0x00, ANY, 0x04⟩⟩,
    ⟨.PUSH, ⟨.unused, .unused, .unused16, .AF, 0x00, ANY, 0x10⟩⟩,
    ⟨.OR false true, ⟨.A, .unused, .unused16, .unused16, 0x00, ANY, 0x08⟩⟩,
    ⟨.RST, ⟨.unused, .unused, .unused16, .unused16, 0x30, ANY, 0x10⟩⟩
  ]

/-- The entries 0xF8 to 0xFF of the primary table. -/
def primary_F8_FF : List Instruction :=
  [
    ⟨.MVSP, ⟨.unused, .unused, .SP, .unused16, 0x00, ANY, 0x0C⟩⟩,
    ⟨.MV16, ⟨.unused, .unused, .SP, .HL, 0x00, ANY, 0x08⟩⟩,
    ⟨.LD true 2, ⟨.A, .unused, .unused16, .PC, 0x00, ANY, 0x10⟩⟩,
    ⟨.EI, ⟨.unused, .unused, .unused16, .unused16, 0x00, ANY, 0x04⟩⟩,
    ⟨.ILL, ⟨.unused, .unused, .unused16, .unused16, 0x00, ANY, 0x04⟩⟩,
    ⟨.ILL, ⟨.unused, .unused, .unused16, .unused16, 0x00, ANY, 0x04⟩⟩,
    ⟨.CP false true, ⟨.A, .unused, .unused16, .unused16, 0x00, ANY, 0x08⟩⟩,
    ⟨.RST, ⟨.unused, .unused, .unused16, .unused16, 0x38, ANY, 0x10⟩⟩
  ]

/-- The primary table `instruction_table[0]`. -/
def primary_table : List Instruction :=
  List.flatten [
    primary_00_07, primary_08_0F, primary_10_17, primary_18_1F,
    primary_20_27, primary_28_2F, primary_30_37, primary_38_3F,
    REPEAT _MV _LD .B, REPEAT _MV _LD .C,
    REPEAT _MV _LD .D, REPEAT _MV _LD .E,
    REPEAT _MV _LD .H, REPEAT _MV _LD .L,
    REPEAT _ST _HALT .HL, REPEAT _MV _LD .A,
    REPEAT _ADD _ADDi .A, REPEAT _ADC _ADCi .A,
    REPEAT _SUB _SUBi .A, REPEAT _SBC _SBCi .A,
    REPEAT _AND _ANDi .A, REPEAT _XOR _XORi .A,
    REPEAT _OR _ORi .A, REPEAT _CP _CPi .A,
    primary_C0_C7, primary_C8_CF, primary_D0_D7, primary_D8_DF,
    primary_E0_E7, primary_E8_EF, primary_F0_F7, primary_F8_FF]

/-- The table `instruction_table[1]` of the opcodes after the `CB` prefix. -/
def cb_table : List Instruction :=
  List.flatten [
    REPEAT _RL _RLi false, REPEAT _RR _RRi false,
    REPEAT _RL _RLi true, REPEAT _RR _RRi true,
    REPEAT _SL _SLi 0, REPEAT _SRA _SRAi 0,
    REPEAT _SWAP _SWAPi 0, REPEAT _SRL _SRLi 0,
    REPEAT _BIT _BITi 0, REPEAT _BIT _BITi 1,
    REPEAT _BIT _BITi 2, REPEAT _BIT _BITi 3,
    REPEAT _BIT _BITi 4, REPEAT _BIT _BITi 5,
    REPEAT _BIT _BITi 6, REPEAT _BIT _BITi 7,
    REPEAT _RES _RESi 0, REPEAT _RES _RESi 1,
    REPEAT _RES _RESi 2, REPEAT _RES _RESi 3,
    REPEAT _RES _RESi 4, REPEAT _RES _RESi 5,
    REPEAT _RES _RESi 6, REPEAT _RES _RESi 7,
    REPEAT _SET _SETi 0, REPEAT _SET _SETi 1,
    REPEAT _SET _SETi 2, REPEAT _SET _SETi 3,
    REPEAT _SET _SETi 4, REPEAT _SET _SETi 5,
    REPEAT _SET _SETi 6, REPEAT _SET _SETi 7]

/-- The array `instruction_table[2][256]`. -/
def instruction_table : List (List Instruction) := [primary_table, cb_table]

/-- The entry `instruction_table[set][opcode]`. -/
def entry (set opcode : Nat) : Option Instruction :=
  match instruction_table[set]? with
  | none => none
  | some t => t[opcode]?

/-- The column of `REPEAT` at which a byte register stands: `B, C, D, E, H, L` are
columns 0 to 5 and `A` is column 7 (column 6 is `(HL)`). -/
def operand_column : ByteRegister → Option Nat
  | .B => some 0
  | .C => some 1
  | .D => some 2
  | .E => some 3
  | .H => some 4
  | .L => some 5
  | .A => some 7
  | _ => none

end Mappings

/-- Whether the function pointer is the handler `ILL`. -/
def Op.isILL : Op → Bool
  | .ILL => true
  | _ => false

/-! ## The processor (`core/cpu.cc`) -/

namespace CPU

/-- The member `IF`: the byte the I/O slot 0x0F points to. -/
def IF (s : State) : Nat := (s.mem.registers 0x0F).ptr

/-- The member `IE`: the byte the I/O slot 0x80 points to. -/
def IE (s : State) : Nat := (s.mem.registers 0x80).ptr

/-- An assignment to the member `IF` (a `u8`). -/
def set_IF (s : State) (v : Nat) : State :=
  let registers := fun j =>
    if j = 0x0F then { s.mem.registers 0x0F with ptr := v % 256 } else s.mem.registers j
  { s with mem := { s.mem with registers := registers } }

/-- The body of the loop of `CPU::handle_interrupts` for one value of `i`. -/
def service (s : State) (i : Nat) : Except Error State :=
  if IF s &&& IE s &&& (1 <<< i) ≠ 0 then
    match push s .PC with
    | .error e => .error e
    | .ok s =>
      let s := { s with regs := s.regs.set16 .PC (0x40 + 8 * i) }
      let s := set_IF s (IF s ^^^ (1 <<< i))
      .ok { s with cpu := { s.cpu with IME := false } }
  else .ok s

/-- The loop `for (u8 i = 0; i < 5; i++)` of `CPU::handle_interrupts` over the
values of `i` still to come. The body has no `break` and no `return`. -/
def service_all (s : State) : List Nat → Except Error State
  | [] => .ok s
  | i :: rest =>
    match service s i with
    | .error e => .error e
    | .ok s => service_all s rest

/-- The method `CPU::handle_interrupts`. -/
def handle_interrupts (s : State) : Except Error State :=
  if IF s = 0 then .ok s
  else if !s.cpu.halted && !s.cpu.IME then .ok s
  else service_all { s with cpu := { s.cpu with halted := false } } [0, 1, 2, 3, 4]

/-- One iteration of the loop of `CPU::run`, with the cycle count it passes to the
clock (`clk += ...`). The subscribers of the clock (timer, graphics) are not part
of `State`; the assertion on the guard word is compiled only under `SANITY`. -/
def step (s : State) : Except Error (State × Nat) :=
  match handle_interrupts s with
  | .error e => .error e
  | .ok s =>
    if s.cpu.halted then .ok (s, 4)
    else
      match s.mem.read_byte s.regs.PC with
      | .error e => .error e
      | .ok opcode =>
        let s := { s with regs := s.regs.set16 .PC (s.regs.PC + 1) }
        match Mappings.entry s.cpu.instruction_set opcode with
        | none => .error .TableIndexOutOfRange
        | some instr => instr.run { s with cpu := { s.cpu with instruction_set := 0 } }

end CPU

/-- Every byte register holds a `u8` and every word register a `u16`. -/
def RegisterFile.wf (r : RegisterFile) : Prop :=
  r.A < 256 ∧ r.F < 256 ∧ r.B < 256 ∧ r.C < 256 ∧ r.D < 256 ∧ r.E < 256 ∧
  r.H < 256 ∧ r.L < 256 ∧ r.SP < 65536 ∧ r.PC < 65536 ∧ r.guard_register < 65536

/-! ## Start-up state (`memory.hh`, `core/cpu.hh`, `main.cc`) -/

/-- The constructor `Memory::Memory()`: no I/O register is registered, the bank
controller throws, the debug flag is off. The array is zero (static storage). -/
def Memory.init : Memory where
  memory := fun _ => 0
  bankctl := fun _ _ _ => .error .IllegalRomWrite
  registers := fun _ => ⟨false, false, fun _ _ _ => .ok 0, 0⟩
  debug := false

/-- The constructor `CPU::CPU()`. -/
def CPU.init : CPU where
  IME := true
  on_flag := true
  halted := false
  instruction_set := 0

/-- The registers as `init()` of `main.cc` sets them, with the guard word. -/
def RegisterFile.init : RegisterFile where
  A := 0x01
  F := 0xB0
  B := 0x00
  C := 0x13
  D := 0x00
  E := 0xDE
  H := 0x01
  L := 0x4D
  SP := 0xFFFE
  PC := 0x0000
  guard_register := GUARD_REGISTER_VALUE

/-- A machine with the start-up registers, memory and processor. -/
def State.init : State where
  regs := RegisterFile.init
  mem := Memory.init
  cpu := CPU.init

/-- The state with the I/O slots 0x0F and 0x80 registered as the constructor
`CPU::CPU()` does (`init_register(0x0F, IF)`, `init_register(0x80, IE)`) and the
members `IF` and `IE` holding the given values. -/
def State.with_interrupts (s : State) (vIF vIE : Nat) : State :=
  let registers := fun j =>
    if j = 0x0F then { s.mem.registers 0x0F with initialized := true, ptr := vIF }
    else if j = 0x80 then { s.mem.registers 0x80 with initialized := true, ptr := vIE }
    else s.mem.registers j
  { s with mem := { s.mem with registers := registers } }

/-! ## Reading a result -/

/-- The register file a handler leaves, or `none` when it throws. -/
def regs_after (r : Except Error (State × Nat)) : Option RegisterFile :=
  match r with
  | .ok (s, _) => some s.regs
  | .error _ => none

/-- Run `instr` on the state a previous handler left. -/
def and_then (r : Except Error (State × Nat)) (instr : Instruction) :
    Except Error (State × Nat) :=
  match r with
  | .ok (s, _) => instr.run s
  | .error e => .error e

/-! ## Packed BCD and the carry-in, as the claims word them -/

/-- The carry-in of `ADD`/`ADC`: 1 iff the handler is the one with carry and the
carry flag is set on entry. -/
def carryIn (carry : Bool) (F : Nat) : Nat :=
  if carry = true ∧ F &&& Flags.CARRY ≠ 0 then 1 else 0

/-- A packed-BCD byte: each nibble is at most 9. -/
def isBCD (x : Nat) : Prop := x / 16 ≤ 9 ∧ x % 16 ≤ 9

instance (x : Nat) : Decidable (isBCD x) := by unfold isBCD; infer_instance

/-- The decimal value 0..99 of a packed-BCD byte. -/
def fromBCD (x : Nat) : Nat := 10 * (x / 16) + x % 16

/-- The packed-BCD encoding of a decimal value 0..99. -/
def toBCD (n : Nat) : Nat := 16 * (n / 10) + n % 10

/-- The value `DAA` leaves in `A` after an addition (N clear), from bit 5 (`h`) and
bit 4 (`c`) of `F` and the value `A` on entry. -/
def daa_add (h c A : Nat) : Nat :=
  if h = 1 ∨ (if c = 1 ∨ A > 0x99 then (A + 0x60) % 256 else A) % 16 > 9 then
    ((if c = 1 ∨ A > 0x99 then (A + 0x60) % 256 else A) + 6) % 256
  else (if c = 1 ∨ A > 0x99 then (A + 0x60) % 256 else A)

/-! ## The pixel FIFO (`graphics/pixel_fifo.hh`) -/

/-- The enum `FetchState`. -/
inductive FetchState
  | TILENO | DATALO | DATAHI | PUSH
  deriving DecidableEq

/-- The data members of the class `PixelFIFO`: the fetch state and the circular
buffer `pixels[16]` with its size and the position of its head. -/
structure PixelFIFO where
  state : FetchState
  pixels : Nat → Nat
  fifo_size : Nat
  fifo_pos : Nat

namespace PixelFIFO

/-- The method `clear`. -/
def clear (f : PixelFIFO) : PixelFIFO :=
  { f with state := .TILENO, fifo_size := 0, fifo_pos := 0 }

/-- The method `reset`. -/
def reset (f : PixelFIFO) : PixelFIFO :=
  { f.clear with state := .TILENO }

/-- The method `top`. -/
def top (f : PixelFIFO) : Nat := f.pixels f.fifo_pos

/-- The method `pop`: the head is read, then an empty FIFO throws, otherwise
`fifo_size--` and `fifo_pos = ++fifo_pos % 16` (both `u8`). -/
def pop (f : PixelFIFO) : Except Error (Nat × PixelFIFO) :=
  let pixel := f.pixels f.fifo_pos
  if f.fifo_size = 0 then .error .PixelFifoEmpty
  else
    .ok (pixel, { f with fifo_size := (f.fifo_size + 256 - 1) % 256
                         fifo_pos := (f.fifo_pos + 1) % 256 % 16 })

/-- The method `push`: `pixels[(fifo_pos + fifo_size++) % 16] = pixel` unless the
FIFO holds 16 entries. -/
def push (f : PixelFIFO) (pixel : Nat) : PixelFIFO :=
  if f.fifo_size = 16 then f
  else
    let slot := (f.fifo_pos + f.fifo_size) % 16
    { f with pixels := fun i => if i = slot then pixel else f.pixels i
             fifo_size := (f.fifo_size + 1) % 256 }

/-- The method `size`. -/
def size (f : PixelFIFO) : Nat := f.fifo_size

/-- The method `has_pixels`. -/
def has_pixels (f : PixelFIFO) : Bool := decide (f.fifo_size > 8)

/-- The entries the FIFO holds, the oldest first: the `fifo_size` slots of the
circular buffer from `fifo_pos` on. -/
def contents (f : PixelFIFO) : List Nat :=
  (List.range f.fifo_size).map (fun i => f.pixels ((f.fifo_pos + i) % 16))

end PixelFIFO

/-- A call of `push` or of `pop` on a FIFO. -/
inductive FifoCall
  | push (pixel : Nat)
  | pop

/-- A sequence of calls on a pixel FIFO, with what each `pop` returned or threw. A
`pop` that throws leaves the object as it was; the sequence goes on from there. -/
def PixelFIFO.run (f : PixelFIFO) : List FifoCall → List (Except Error Nat) × PixelFIFO
  | [] => ([], f)
  | .push pixel :: rest => PixelFIFO.run (f.push pixel) rest
  | .pop :: rest =>
    match f.pop with
    | .error e => ((.error e :: (PixelFIFO.run f rest).1), (PixelFIFO.run f rest).2)
    | .ok (v, f') => ((.ok v :: (PixelFIFO.run f' rest).1), (PixelFIFO.run f' rest).2)

/-! ### The bounded queue of the specification -/

/-- Written from the specification: `push` on a first-in-first-out queue of capacity
16 appends at the tail, and is dropped when the queue is full. -/
def BoundedQueue.push (q : List Nat) (pixel : Nat) : List Nat :=
  if q.length < 16 then q ++ [pixel] else q

/-- Written from the specification: `pop` returns the oldest entry, and fails with
`PixelFifoEmpty` on an empty queue. -/
def BoundedQueue.pop : List Nat → Except Error (Nat × List Nat)
  | [] => .error .PixelFifoEmpty
  | v :: rest => .ok (v, rest)

/-- Written from the specification: a sequence of calls on the bounded queue. -/
def BoundedQueue.run (q : List Nat) : List FifoCall → List (Except Error Nat) × List Nat
  | [] => ([], q)
  | .push pixel :: rest => BoundedQueue.run (BoundedQueue.push q pixel) rest
  | .pop :: rest =>
    match BoundedQueue.pop q with
    | .error e => ((.error e :: (BoundedQueue.run q rest).1), (BoundedQueue.run q rest).2)
    | .ok (v, q') => ((.ok v :: (BoundedQueue.run q' rest).1), (BoundedQueue.run q' rest).2)

/-! ## Registering and raising (`memory.hh`, `interrupt.hh`) -/

/-- The method `init_register(u8 r, u8 &ptr)`: the slot `r` becomes a direct slot
pointing to a byte that holds `v`. -/
def Memory.init_register (m : Memory) (r v : Nat) : Except Error Memory :=
  if r ≥ 0x81 then .error .InvalidRegisterNumber
  else
    .ok { m with registers := fun j =>
            if j = r then { m.registers r with initialized := true, ptr := v }
            else m.registers j }

/-- An assignment to the byte the direct slot `r` points to (a `u8` member of the
object that registered the slot). -/
def Memory.set_ptr (m : Memory) (r v : Nat) : Memory :=
  { m with registers := fun j =>
      if j = r then { m.registers r with ptr := v % 256 } else m.registers j }

/-- The function `interrupt(i)`: `memory[0xFF0F].write_byte(memory.read_byte() | i)`,
with `memory[0xFF0F]` evaluated before the argument. -/
def interrupt (m : Memory) (i : Nat) : Except Error Memory :=
  match m.read_byte 0xFF0F with
  | .error e => .error e
  | .ok b => m.write_byte 0xFF0F ((b ||| i) % 256)

/-- The enumerators of `Interrupt::InterruptType`. -/
def Interrupt.VBLANK : Nat := 0x01
def Interrupt.LCDSTAT : Nat := 0x02
def Interrupt.TIMER : Nat := 0x04
def Interrupt.SERIAL : Nat := 0x08
def Interrupt.JOYPAD : Nat := 0x10

/-! ## The timer (`core/timer.hh`) -/

/-- The members `clock` and `clock_prev` of the class `Timer`. The members `DIV`,
`TIMA`, `TMA`, `TAC` are the bytes the I/O slots 0x04 to 0x07 point to: they are
the `ptr` of these slots in `Memory.registers`. The member `clock_hi` is the high
byte of `clock` (the union is read on a little-endian machine). -/
structure Timer where
  clock : Nat
  clock_prev : Nat

namespace Timer

def DIV (m : Memory) : Nat := (m.registers 0x04).ptr
def TIMA (m : Memory) : Nat := (m.registers 0x05).ptr
def TMA (m : Memory) : Nat := (m.registers 0x06).ptr
def TAC (m : Memory) : Nat := (m.registers 0x07).ptr

/-- The member `clock_hi`. -/
def clock_hi (t : Timer) : Nat := t.clock / 256 % 256

/-- The macro `FALLING_EDGE(x)`: `(!(clock & x) && (clock_prev & x))`. -/
def FALLING_EDGE (t : Timer) (x : Nat) : Bool :=
  (t.clock &&& x == 0) && (t.clock_prev &&& x != 0)

/-- The method `Timer::operator+=`. -/
def tick (t : Timer) (m : Memory) (cycles : Nat) : Except Error (Timer × Memory) :=
  if DIV m ≠ t.clock_hi then
    .ok ({ clock := 0, clock_prev := 0 }, m.set_ptr 0x04 0)
  else
    let t : Timer := { clock_prev := t.clock, clock := (t.clock + cycles) % 65536 }
    let m := m.set_ptr 0x04 t.clock_hi
    if TAC m &&& 4 = 0 then .ok (t, m)
    else
      let edge :=
        match TAC m &&& 3 with
        | 0 => t.FALLING_EDGE 1024
        | 1 => t.FALLING_EDGE 16
        | 2 => t.FALLING_EDGE 64
        | _ => t.FALLING_EDGE 256
      if edge then .ok (t, m)
      else
        let old := TIMA m
        let m := m.set_ptr 0x05 (old + 1)
        if old ≠ 0 then .ok (t, m)
        else
          let m := m.set_ptr 0x05 (TMA m)
          match interrupt m Interrupt.TIMER with
          | .error e => .error e
          | .ok m => .ok (t, m)

/-- A sequence of calls of `Timer::operator+=`. -/
def ticks (t : Timer) (m : Memory) : List Nat → Except Error (Timer × Memory)
  | [] => .ok (t, m)
  | c :: rest =>
    match tick t m c with
    | .error e => .error e
    | .ok (t, m) => ticks t m rest

/-- The constructor `Timer::Timer()`. -/
def init : Timer := { clock := 0, clock_prev := 0 }

/-- The start-up memory after `Timer::Timer()` registered the slots 0x04 to 0x07 and
`CPU::CPU()` the slot 0x0F, with the bytes `DIV`, `TIMA`, `TMA`, `TAC` and `IF`
holding the given values. -/
def start_memory (vDIV vTIMA vTMA vTAC vIF : Nat) : Memory :=
  { Memory.init with registers := fun j =>
      if j = 0x04 then ⟨true, false, fun _ _ _ => .ok 0, vDIV⟩
      else if j = 0x05 then ⟨true, false, fun _ _ _ => .ok 0, vTIMA⟩
      else if j = 0x06 then ⟨true, false, fun _ _ _ => .ok 0, vTMA⟩
      else if j = 0x07 then ⟨true, false, fun _ _ _ => .ok 0, vTAC⟩
      else if j = 0x0F then ⟨true, false, fun _ _ _ => .ok 0, vIF⟩
      else Memory.init.registers j }

end Timer

/-! ## The background fetcher (`graphics/background_fifo.hh`, `.cc`) -/

/-- The byte a direct I/O slot points to: a `u8` member of the object that
registered the slot. -/
def Memory.reg (m : Memory) (r : Nat) : Nat := (m.registers r).ptr

/-- The members of `Graphics` that the constructor registers as direct slots
(`graphics/graphics.hh`), read through their slots. -/
def LCDC (m : Memory) : Nat := m.reg 0x40
def STAT (m : Memory) : Nat := m.reg 0x41
def SCY (m : Memory) : Nat := m.reg 0x42
def SCX (m : Memory) : Nat := m.reg 0x43
def LY (m : Memory) : Nat := m.reg 0x44
def LYC (m : Memory) : Nat := m.reg 0x45
def BGP (m : Memory) : Nat := m.reg 0x47
def OBP0 (m : Memory) : Nat := m.reg 0x48
def OBP1 (m : Memory) : Nat := m.reg 0x49
def WY (m : Memory) : Nat := m.reg 0x4A
def WX (m : Memory) : Nat := m.reg 0x4B

/-- The transition of `PixelFIFO::operator++` after `run` returned true. -/
def FetchState.next : FetchState → FetchState
  | .TILENO => .DATALO
  | .DATALO => .DATAHI
  | .DATAHI => .PUSH
  | .PUSH => .TILENO

/-- The masks of the loop `for (u8 mask = 0x80; mask; mask >>= 1)`. -/
def row_masks : List Nat := [0x80, 0x40, 0x20, 0x10, 0x08, 0x04, 0x02, 0x01]

/-- The loop over the masks in the case `PUSH` of both fetchers: a pixel is skipped
while `discard` is not 0, otherwise the two bit planes give its value, or-ed with
`extra` (0 for the background), and it is pushed as a `u8`. -/
def push_row (hi lo extra : Nat) (discard : Nat) (fifo : PixelFIFO) :
    List Nat → Nat × PixelFIFO
  | [] => (discard, fifo)
  | mask :: rest =>
    if discard ≠ 0 then push_row hi lo extra ((discard + 256 - 1) % 256) fifo rest
    else
      let data := ((if hi &&& mask ≠ 0 then 1 else 0) <<< 1) |||
        (if lo &&& mask ≠ 0 then 1 else 0) ||| extra
      push_row hi lo extra discard (fifo.push (data % 256)) rest

/-- The data members of the class `BackgroundFIFO`, with those of its base
`PixelFIFO` in `fifo`. -/
structure BackgroundFIFO where
  fifo : PixelFIFO
  map_base : Nat
  map_index : Nat
  tile_no : Int
  tile_base : Nat
  tile_data_lo : Nat
  tile_data_hi : Nat
  column : Nat
  discard : Nat
  win_enabled : Nat
  offset_x : Nat
  offset_y : Nat

namespace BackgroundFIFO

/-- The method `BackgroundFIFO::run`. -/
def run (b : BackgroundFIFO) (m : Memory) (state : FetchState) :
    Except Error (Bool × BackgroundFIFO) :=
  match state with
  | .TILENO =>
    let map_base :=
      if LCDC m &&& (if b.win_enabled ≠ 0 then 0x30 else 0x08) ≠ 0 then 0x9C00 else 0x9800
    let offset_x := (b.column + SCX m) % 0xFF
    let offset_y := (LY m + SCY m) % 0xFF
    let discard := if b.column = 0 then SCX m else b.discard
    let map_index := ((offset_y >>> 3) <<< 5) + (offset_x >>> 3)
    match m.read_byte ((map_base + map_index) % 65536) with
    | .error e => .error e
    | .ok byte =>
      .ok (true, { b with map_base := map_base, offset_x := offset_x, offset_y := offset_y
                          discard := discard, map_index := map_index, tile_no := byte })
  | .DATALO =>
    let tile_base := if LCDC m &&& 0x10 = 0 then 0x8800 else 0x8000
    let tile_no := if LCDC m &&& 0x10 = 0 then Instructions.toI8 (Instructions.toU8 b.tile_no)
      else b.tile_no
    let tile_no := Instructions.toI16 (tile_no * 16 + (((b.offset_y % 8) <<< 1 : Nat) : Int))
    match m.read_byte (Instructions.toU16 ((tile_base : Int) + tile_no)) with
    | .error e => .error e
    | .ok byte =>
      .ok (true, { b with tile_base := tile_base, tile_no := tile_no, tile_data_lo := byte })
  | .DATAHI =>
    match m.read_byte (Instructions.toU16 ((b.tile_base : Int) + b.tile_no + 1)) with
    | .error e => .error e
    | .ok byte => .ok (true, { b with tile_data_hi := byte })
  | .PUSH =>
    if b.fifo.size > 8 then .ok (false, b)
    else
      let r := push_row b.tile_data_hi b.tile_data_lo 0 b.discard b.fifo row_masks
      .ok (true, { b with discard := r.1, fifo := r.2
                          column := (b.column + 8) % 256
                          map_index := (b.map_index + 1) % 65536 })

/-- The method `BackgroundFIFO::reset`. -/
def reset (b : BackgroundFIFO) (column : Nat) (win_enabled : Bool) : BackgroundFIFO :=
  { b with fifo := b.fifo.reset, win_enabled := if win_enabled then 1 else 0
           column := column }

/-- The call `bgfifo++`: `PixelFIFO::operator++` with the `run` of this class. -/
def advance (b : BackgroundFIFO) (m : Memory) : Except Error BackgroundFIFO :=
  match b.run m b.fifo.state with
  | .error e => .error e
  | .ok (false, b) => .ok b
  | .ok (true, b) => .ok { b with fifo := { b.fifo with state := b.fifo.state.next } }

end BackgroundFIFO

/-! ## The sprite fetcher (`graphics/sprite.hh`, `graphics/sprite_fifo.hh`, `.cc`) -/

/-- The struct `oam_entry`. -/
structure oam_entry where
  y : Nat
  x : Nat
  tile : Nat
  attr : Nat

/-- The data members of the class `SpriteFIFO`, with those of its base `PixelFIFO`
in `fifo` and the function-local static `tile_addr` of `run`. -/
structure SpriteFIFO where
  fifo : PixelFIFO
  entries : Nat → oam_entry
  index : Nat
  size : Nat
  scan_index : Nat
  tile_data_lo : Nat
  tile_data_hi : Nat
  column : Nat
  discard : Nat
  next_priority : Bool
  next_palette : Nat
  tile_addr : Nat

namespace SpriteFIFO

/-- The method `SpriteFIFO::run`. In the case `TILENO` the loop over `i` increments
`column` and leaves when `column < entries[index].x`, and otherwise returns false at
`i == 7`. -/
def run (sp : SpriteFIFO) (m : Memory) (state : FetchState) :
    Except Error (Bool × SpriteFIFO) :=
  if LCDC m &&& 0x02 = 0 then .ok (false, sp)
  else if sp.size = 0 ∨ sp.index = sp.size ∨ sp.column ≥ 160 then .ok (false, sp)
  else
    match state with
    | .TILENO =>
      if sp.column < (sp.entries sp.index).x then
        let column := (sp.column + 1) % 256
        let discard :=
          if (sp.entries sp.index).x < 8 then 8 - (sp.entries sp.index).x else sp.discard
        let tile_addr := Instructions.toU16
          (0x8000 + (((sp.entries sp.index).tile <<< 4 : Nat) : Int) +
            (((LY m : Nat) : Int) - ((((sp.entries sp.index).y : Nat) : Int) - 16)) * 2)
        .ok (true, { sp with column := column, discard := discard, tile_addr := tile_addr })
      else .ok (false, sp)
    | .DATALO =>
      match m.read_byte sp.tile_addr with
      | .error e => .error e
      | .ok byte => .ok (true, { sp with tile_data_lo := byte })
    | .DATAHI =>
      match m.read_byte ((sp.tile_addr + 1) % 65536) with
      | .error e => .error e
      | .ok byte => .ok (true, { sp with tile_data_hi := byte })
    | .PUSH =>
      if sp.fifo.size > 8 then .ok (false, sp)
      else
        let extra := ((sp.entries sp.index).attr &&& 0x80) ||| (sp.index <<< 4)
        let r := push_row sp.tile_data_hi sp.tile_data_lo extra sp.discard sp.fifo row_masks
        .ok (true, { sp with discard := r.1, fifo := r.2
                             index := (sp.index + 1) % 256
                             column := (sp.column + 8 + 256 - r.1) % 256 })

/-- The insertion loop of `scan`: the entry takes the place of the first stored
entry whose `x` is not smaller, and so on with the entry taken out. -/
def insert (entries : Nat → oam_entry) (entry : oam_entry) :
    List Nat → (Nat → oam_entry) × oam_entry
  | [] => (entries, entry)
  | i :: rest =>
    if (entries i).x < entry.x then insert entries entry rest
    else insert (fun j => if j = i then entry else entries j) (entries i) rest

/-- The method `SpriteFIFO::scan`. -/
def scan (sp : SpriteFIFO) (m : Memory) : Except Error SpriteFIFO :=
  if sp.scan_index ≥ 1 then .ok sp
  else if LCDC m &&& 0x02 = 0 then .ok sp
  else if sp.scan_index ≥ 40 then .ok sp
  else if sp.size ≥ 10 then .ok sp
  else
    let index := (sp.scan_index <<< 2) % 256
    let sp := { sp with scan_index := (sp.scan_index + 1) % 256 }
    match m.read_byte (0xFE00 + index), m.read_byte (0xFE00 + index + 1),
        m.read_byte (0xFE00 + index + 2), m.read_byte (0xFE00 + index + 3) with
    | .ok y, .ok x, .ok tile, .ok attr =>
      let entry : oam_entry := ⟨y, x, tile, attr⟩
      if entry.y = 0 ∨ entry.y ≥ 160 then .ok sp
      else if entry.x = 0 ∨ entry.x ≥ 168 then .ok sp
      else if entry.y < 16 ∧ LY m ≥ 16 - entry.y then .ok sp
      else if ((LY m : Nat) : Int) < (entry.y : Int) - 16 then .ok sp
      else if ((LY m : Nat) : Int) ≥
          ((entry.y : Int) - 16) + (if LCDC m &&& 0x04 ≠ 0 then 16 else 8) then .ok sp
      else if sp.size ≠ 0 ∧ (sp.entries (sp.size - 1)).x < entry.x then
        .ok { sp with entries := fun j => if j = sp.size then entry else sp.entries j
                      size := (sp.size + 1) % 256 }
      else
        let r := insert sp.entries entry (List.range sp.size)
        .ok { sp with entries := fun j => if j = sp.size then r.2 else r.1 j
                      size := (sp.size + 1) % 256 }
    | .error e, _, _, _ => .error e
    | _, .error e, _, _ => .error e
    | _, _, .error e, _ => .error e
    | _, _, _, .error e => .error e

/-- The method `SpriteFIFO::has_priority`. -/
def has_priority (sp : SpriteFIFO) : Bool := sp.next_priority

/-- The method `SpriteFIFO::get_palette`. -/
def get_palette (sp : SpriteFIFO) : Nat := sp.next_palette

/-- The method `SpriteFIFO::has_pixels(u8 x)`, which also sets `next_priority` and
`next_palette`. -/
def has_pixels (sp : SpriteFIFO) (x : Nat) : Bool × SpriteFIFO :=
  if sp.size = 0 then (false, sp)
  else
    let pixel := sp.fifo.top
    let index := (pixel >>> 4) &&& 7
    let pos := (sp.entries index).x
    let sp := { sp with next_priority := decide (pixel &&& 0x80 = 0)
                        next_palette := if (sp.entries index).attr &&& 0x10 ≠ 0 then 1 else 0 }
    (decide ((pos : Int) - 8 ≤ (x : Int) ∧ x < pos), sp)

/-- The method `SpriteFIFO::pop`: `PixelFIFO::pop() & 0x0F`. -/
def pop (sp : SpriteFIFO) : Except Error (Nat × SpriteFIFO) :=
  match sp.fifo.pop with
  | .error e => .error e
  | .ok (pixel, fifo) => .ok (pixel &&& 0x0F, { sp with fifo := fifo })

/-- The method `SpriteFIFO::reset`. -/
def reset (sp : SpriteFIFO) : SpriteFIFO :=
  { sp with fifo := sp.fifo.reset, scan_index := 0, discard := 0, column := 0
            index := 0, size := 0 }

/-- The call `spfifo++`: `PixelFIFO::operator++` with the `run` of this class. -/
def advance (sp : SpriteFIFO) (m : Memory) : Except Error SpriteFIFO :=
  match sp.run m sp.fifo.state with
  | .error e => .error e
  | .ok (false, sp) => .ok sp
  | .ok (true, sp) => .ok { sp with fifo := { sp.fifo with state := sp.fifo.state.next } }

end SpriteFIFO

/-! ## The stream texture (`graphics/sdl/stream_texture.hh`, `.cc`) -/

/-- The members of `StreamTexture` the display controller acts on: `pitch`, which
SDL supplies, and the pixels written since the last `render` (the member `index` is
their number). The calls into SDL are outside the model. -/
structure StreamTexture where
  pitch : Nat
  pixels : List Nat

/-- The method `StreamTexture::operator<<`. -/
def StreamTexture.write (t : StreamTexture) (pixel : Nat) : StreamTexture :=
  if t.pixels.length ≥ t.pitch then t else { t with pixels := t.pixels ++ [pixel] }

/-- The method `StreamTexture::render`: the buffer is handed to SDL and `index` is
reset. -/
def StreamTexture.render (t : StreamTexture) : StreamTexture := { t with pixels := [] }

/-! ## The display controller (`graphics/graphics.hh`, `graphics/graphics.cc`) -/

/-- The macro `repeat (times)` around a body that may throw. -/
def repeat_times {σ : Type} (f : σ → Except Error σ) : Nat → σ → Except Error σ
  | 0, s => .ok s
  | n + 1, s =>
    match f s with
    | .error e => .error e
    | .ok s => repeat_times f n s

/-- The method `Memory::copy(u16 dst_addr, u16 src_addr)`. -/
def Memory.copy (m : Memory) (dst_addr src_addr : Nat) : Memory :=
  { m with memory := fun a => if a = dst_addr then m.memory src_addr else m.memory a }

/-- The data members of the class `Graphics` that are not registered as I/O slots,
with the function-local statics `win_enabled` and `win_active` of `operator+=`. The
registered members (`LCDC`, `STAT`, `LY`, ...) are the `ptr` of their slots. -/
structure Graphics where
  texture : StreamTexture
  clock : Nat
  cursor_x : Nat
  cursor_y : Nat
  dma_active : Nat
  dma_counter : Nat
  dma_source : Nat
  bgfifo : BackgroundFIFO
  spfifo : SpriteFIFO
  colour_palette : Nat → Nat
  background_palette : Nat → Nat
  sprite_palette : Nat → Nat → Nat
  win_enabled : Bool
  win_active : Bool

namespace Graphics

/-- The enumerators of `VMode` as the `u8` they are cast to. -/
def HBLANK : Nat := 0
def VBLANK : Nat := 1
def OAM : Nat := 2
def DRAW : Nat := 3

/-- The masks `m` of the loops of `reset_palettes`: `m = 3`, then `m <<= 2`. -/
def palette_mask (i : Nat) : Nat := (3 <<< (2 * i)) % 256

/-- The method `Graphics::reset_palettes`. -/
def reset_palettes (g : Graphics) (m : Memory) : Graphics :=
  { g with
    background_palette := fun i => if i < 4 then BGP m &&& palette_mask i
      else g.background_palette i
    sprite_palette := fun p i =>
      if p = 0 ∧ i < 4 then OBP0 m &&& palette_mask i
      else if p = 1 ∧ i < 4 then OBP1 m &&& palette_mask i
      else g.sprite_palette p i }

/-- The method `Graphics::set_mode`. -/
def set_mode (m : Memory) (mode : Nat) : Except Error Memory :=
  let m := m.set_ptr 0x41 ((STAT m &&& 0xFC) ||| mode)
  if STAT m &&& (1 <<< (mode + 3)) ≠ 0 then interrupt m Interrupt.LCDSTAT else .ok m

/-- The callback `Graphics::Graphics()` registers for the slot 0x46. -/
def dma_callback (g : Graphics) (_addr byte : Nat) (write : Bool) :
    Except Error (Nat × Graphics) :=
  if write = false then .error .AssertionFailed
  else if ¬ byte ≤ 0xF1 then .error .AssertionFailed
  else
    .ok (0, { g with dma_counter := 0, dma_active := 1, dma_source := (byte <<< 8) % 65536 })

/-- The call `memory[0xFF46].write_byte(v)` once `Graphics::Graphics()` has
registered its callback: `write_byte` calls the callback and stores nothing. -/
def write_FF46 (g : Graphics) (m : Memory) (v : Nat) : Except Error (Graphics × Memory) :=
  match dma_callback g 0xFF46 v true with
  | .error e => .error e
  | .ok (_, g) => .ok (g, m)

/-- The body of the loop `repeat (cycles)` of `operator+=`: one byte of the DMA. -/
def dma_step (s : Graphics × Memory) : Except Error (Graphics × Memory) :=
  if s.1.dma_active ≠ 0 then
    let m := s.2.copy ((0xFE00 + s.1.dma_counter) % 65536)
      ((s.1.dma_source + s.1.dma_counter) % 65536)
    let counter := (s.1.dma_counter + 1) % 256
    .ok ({ s.1 with dma_counter := counter, dma_active := counter % 0xA0 % 256 }, m)
  else .ok s

/-- The body of the loop `repeat (2)` of the case `DRAW`; the result is false when
the body leaves the loop by `break`. -/
def draw_pixel (m : Memory) (g : Graphics) : Except Error (Bool × Graphics) :=
  let g :=
    if g.win_enabled then
      if (g.cursor_x : Int) ≤ (WX m : Int) - 7 ∧ g.cursor_x ≤ WX m + 160 ∧ g.win_active = false
      then { g with bgfifo := g.bgfifo.reset g.cursor_x true, win_active := true }
      else if g.win_active then
        { g with bgfifo := g.bgfifo.reset g.cursor_x false, win_active := false }
      else g
    else g
  if g.cursor_x ≥ 160 ∨ g.bgfifo.fifo.has_pixels = false then .ok (false, g)
  else
    match g.bgfifo.fifo.pop with
    | .error e => .error e
    | .ok (pixel, fifo) =>
      let g := { g with bgfifo := { g.bgfifo with fifo := fifo } }
      let sprite : Except Error (Nat × SpriteFIFO) :=
        if LCDC m &&& 0x02 ≠ 0 then
          if (g.spfifo.has_pixels g.cursor_x).1 then
            match (g.spfifo.has_pixels g.cursor_x).2.pop with
            | .error e => .error e
            | .ok (sppixel, sp) =>
              if sppixel ≠ 0 ∧ (pixel = 0 ∨ sp.has_priority) then
                .ok (g.sprite_palette sp.get_palette sppixel, sp)
              else .ok (pixel, sp)
          else .ok (pixel, (g.spfifo.has_pixels g.cursor_x).2)
        else .ok (pixel, g.spfifo)
      match sprite with
      | .error e => .error e
      | .ok (pixel, sp) =>
        .ok (true, { g with spfifo := sp, texture := g.texture.write (g.colour_palette pixel)
                            cursor_x := (g.cursor_x + 1) % 256 })

/-- The body of the loop `repeat (cycles << 1)` of the case `DRAW`. -/
def draw_step (m : Memory) (g : Graphics) : Except Error Graphics :=
  match g.bgfifo.advance m with
  | .error e => .error e
  | .ok bg =>
    match g.spfifo.advance m with
    | .error e => .error e
    | .ok sp =>
      match draw_pixel m { g with bgfifo := bg, spfifo := sp } with
      | .error e => .error e
      | .ok (false, g) => .ok g
      | .ok (true, g) =>
        match draw_pixel m g with
        | .error e => .error e
        | .ok (_, g) => .ok g

/-- The body of the loops `repeat (...) spfifo.scan()`. -/
def scan_step (m : Memory) (g : Graphics) : Except Error Graphics :=
  match g.spfifo.scan m with
  | .error e => .error e
  | .ok sp => .ok { g with spfifo := sp }

end Graphics

namespace Graphics

/-- The case 2 (`OAM`) of the switch of `operator+=`. -/
def oam_case (g : Graphics) (m : Memory) (cycles : Nat) : Except Error (Graphics × Memory) :=
  match repeat_times (scan_step m) (cycles <<< 1) g with
  | .error e => .error e
  | .ok g =>
    if g.clock < 20 then .ok (g, m)
    else
      match set_mode m DRAW with
      | .error e => .error e
      | .ok m => .ok ({ g with clock := g.clock - 20 }, m)

/-- The case 3 (`DRAW`) of the switch of `operator+=`. -/
def draw_case (g : Graphics) (m : Memory) (cycles : Nat) : Except Error (Graphics × Memory) :=
  match repeat_times (draw_step m) (cycles <<< 1) g with
  | .error e => .error e
  | .ok g =>
    if g.cursor_x < 160 then .ok (g, m)
    else if g.clock < 43 then .ok (g, m)
    else
      match set_mode m HBLANK with
      | .error e => .error e
      | .ok m => .ok ({ g with clock := g.clock - 43 }, m)

/-- The case 0 (`HBLANK`) of the switch of `operator+=`. -/
def hblank_case (g : Graphics) (m : Memory) : Except Error (Graphics × Memory) :=
  if g.clock < 51 then .ok (g, m)
  else
    let g := { g with clock := g.clock - 51 }
    let m := m.set_ptr 0x41 (STAT m &&& 0xFC)
    let lyc : Except Error Memory :=
      if STAT m &&& 0x20 ≠ 0 ∧ LY m = LYC m then
        interrupt (m.set_ptr 0x41 (STAT m ||| 4)) Interrupt.LCDSTAT
      else .ok m
    match lyc with
    | .error e => .error e
    | .ok m =>
      if LY m ≥ 144 then
        match set_mode m VBLANK with
        | .error e => .error e
        | .ok m =>
          match interrupt m Interrupt.VBLANK with
          | .error e => .error e
          | .ok m => .ok (g, m)
      else
        let g := { g with
          win_enabled := decide (LCDC m &&& 0x20 ≠ 0 ∧ LY m ≤ WY m ∧ LY m ≤ WY m + 144)
          win_active := false
          bgfifo := g.bgfifo.reset 0 false
          spfifo := g.spfifo.reset
          cursor_x := 0 }
        let m := m.set_ptr 0x44 (LY m + 1)
        let g := g.reset_palettes m
        match set_mode m OAM with
        | .error e => .error e
        | .ok m =>
          match repeat_times (scan_step m) (g.clock <<< 1) g with
          | .error e => .error e
          | .ok g => .ok (g, m)

/-- The case 1 (`VBLANK`) of the switch of `operator+=`. -/
def vblank_case (g : Graphics) (m : Memory) : Except Error (Graphics × Memory) :=
  if g.clock < 114 then .ok (g, m)
  else
    let g := { g with clock := g.clock - 114 }
    let m := m.set_ptr 0x44 (LY m + 1)
    if LY m < 154 then .ok (g, m)
    else
      let g := { g with texture := g.texture.render }
      let m := m.set_ptr 0x44 0
      match set_mode m OAM with
      | .error e => .error e
      | .ok m => .ok (g, m)

/-- The method `Graphics::operator+=`. -/
def tick (g : Graphics) (m : Memory) (cycles : Nat) : Except Error (Graphics × Memory) :=
  if LCDC m &&& 0x80 = 0 then .ok (g, m)
  else
    let g := { g with clock := (g.clock + cycles) % 65536 }
    match repeat_times dma_step cycles (g, m) with
    | .error e => .error e
    | .ok (g, m) =>
      match STAT m &&& 3 with
      | 2 => oam_case g m cycles
      | 3 => draw_case g m cycles
      | 0 => hblank_case g m
      | _ => vblank_case g m

/-- A sequence of calls of `Graphics::operator+=`. -/
def ticks (g : Graphics) (m : Memory) : List Nat → Except Error (Graphics × Memory)
  | [] => .ok (g, m)
  | c :: rest =>
    match tick g m c with
    | .error e => .error e
    | .ok (g, m) => ticks g m rest

end Graphics

/-! ## Start-up state of the display controller -/

/-- The constructor `PixelFIFO::PixelFIFO`, which calls `reset()`, on zeroed
storage. -/
def PixelFIFO.init : PixelFIFO := ⟨.TILENO, fun _ => 0, 0, 0⟩

/-- The constructor `BackgroundFIFO::BackgroundFIFO`, on zeroed storage. -/
def BackgroundFIFO.init : BackgroundFIFO := ⟨PixelFIFO.init, 0, 0, 0, 0, 0, 0, 0, 0, 0, 0, 0⟩

/-- The constructor `SpriteFIFO::SpriteFIFO`, on zeroed storage. -/
def SpriteFIFO.init : SpriteFIFO :=
  ⟨PixelFIFO.init, fun _ => ⟨0, 0, 0, 0⟩, 0, 0, 0, 0, 0, 0, 0, false, 0, 0⟩

/-- The constructor `Graphics::Graphics()` on the zeroed storage of the global
`graphics`, with the `pitch` SDL gives the texture. -/
def Graphics.init (pitch : Nat) : Graphics where
  texture := ⟨pitch, []⟩
  clock := 0
  cursor_x := 0
  cursor_y := 0
  dma_active := 0
  dma_counter := 0
  dma_source := 0
  bgfifo := BackgroundFIFO.init
  spfifo := SpriteFIFO.init
  colour_palette := fun i =>
    if i = 0 then 0x7FFF else if i = 1 then 0x4210 else if i = 2 then 0x2108 else 0x0000
  background_palette := fun _ => 0
  sprite_palette := fun _ _ => 0
  win_enabled := false
  win_active := false

/-- The slot numbers `Graphics::Graphics()` registers as direct slots. -/
def Graphics.ioregs : List Nat :=
  [0x40, 0x41, 0x44, 0x45, 0x42, 0x43, 0x47, 0x48, 0x49, 0x4A, 0x4B, 0x68, 0x69, 0x6A, 0x6B,
   0x51, 0x52, 0x53, 0x54, 0x55, 0x4F]

/-- The start-up memory after `CPU::CPU()` registered the slot 0x0F and
`Graphics::Graphics()` its direct slots, all holding 0, and the callback of the slot
0x46 (modelled in `Memory` by what it returns or throws), with the array holding
`memory`. -/
def Graphics.start_memory (memory : Nat → Nat) : Memory :=
  { Memory.init with
    memory := memory
    registers := fun j =>
      if j = 0x0F ∨ j ∈ Graphics.ioregs then ⟨true, false, fun _ _ _ => .ok 0, 0⟩
      else if j = 0x46 then
        ⟨true, true, fun _ byte write =>
          if write = false ∨ ¬ byte ≤ 0xF1 then .error .AssertionFailed else .ok 0, 0⟩
      else Memory.init.registers j }

/-- The members of `Graphics` the DMA and the mode switch read and the pixel
pipeline leaves alone. -/
def Graphics.same_control (g g' : Graphics) : Prop :=
  g'.clock = g.clock ∧ g'.dma_active = g.dma_active ∧ g'.dma_counter = g.dma_counter ∧
  g'.dma_source = g.dma_source

/-- What the mode switch of `Graphics::operator+=` leaves of the memory: the array
and every register slot other than `IF` (0x0F), `STAT` (0x41) and `LY` (0x44). -/
def Memory.ppu_frame (m m' : Memory) : Prop :=
  m'.memory = m.memory ∧
  ∀ j, j ≠ 0x0F → j ≠ 0x41 → j ≠ 0x44 → m'.registers j = m.registers j

/-- The progress of a DMA with source `src` over the array `orig` after `k` bytes:
the first `k` bytes of the sprite table are copies, every other byte is as in
`orig`, and the transfer is active until `k` is 0xA0. -/
def Graphics.dma_progress (orig : Nat → Nat) (src k : Nat) (s : Graphics × Memory) : Prop :=
  s.1.dma_source = src ∧ s.1.dma_counter = k ∧ (s.1.dma_active = 0 ↔ k = 0xA0) ∧
  (∀ i, i < k → s.2.memory (0xFE00 + i) = orig (src + i)) ∧
  (∀ a, a < 0xFE00 ∨ 0xFE00 + k ≤ a → s.2.memory a = orig a)

/-- The slot `i` is a direct slot: registered with `init_register(u8, u8 &)`, so
that reads and writes go to the byte it points to. -/
def Memory.direct (m : Memory) (i : Nat) : Prop :=
  (m.registers i).initialized = true ∧ (m.registers i).callable = false

/-- What an update of `STAT` with a possible `LCDSTAT` request changes: the slot 0x0F
stays direct, bit 0 of `IF` and every slot other than 0x0F and 0x41 are as before. -/
def Memory.stat_update (m m' : Memory) : Prop :=
  m'.direct 0x0F ∧ m'.reg 0x0F &&& 1 = m.reg 0x0F &&& 1 ∧
  ∀ j, j ≠ 0x0F → j ≠ 0x41 → m'.registers j = m.registers j

/-! ## Write targets of the handlers -/

/-- Whether the handler an `Op` names assigns through the byte reference `dst` (by
`dst = ...` or by the register branch of `STORE_U8_OPERAND_A`). -/
def Op.writes_dst : Op → Bool
  | .MV | .LD _ _ | .LDH _ | .CPL => true
  | .LET indirect => !indirect
  | .ADD _ _ _ | .SUB _ _ _ | .AND _ _ | .XOR _ _ | .OR _ _ | .CP _ _ => true
  | .INC indirect | .DEC indirect | .RR _ indirect | .RL _ indirect | .SLA indirect
  | .SRL indirect | .SRA indirect | .SWAP indirect | .BIT indirect | .SET indirect
  | .RES indirect => !indirect
  | _ => false

/-- Whether the handler an `Op` names assigns through the word reference `dst16`. -/
def Op.writes_dst16 : Op → Bool
  | .ST _ _ | .MV16 | .LET16 | .POP | .ADD16 | .INC16 | .DEC16 => true
  | _ => false

/-- Whether the handler an `Op` names assigns through the word reference `src16`
(`LD` adds `difference` to it). -/
def Op.writes_src16 : Op → Bool
  | .LD _ _ => true
  | _ => false

/-- The operand descriptor of the entry names a real register wherever its handler
assigns through a reference. -/
def Instruction.guard_safe (instr : Instruction) : Bool :=
  (!instr.fn.writes_dst || decide (instr.args.dst ≠ .unused)) &&
  (!instr.fn.writes_dst16 || decide (instr.args.dst16 ≠ .unused16)) &&
  (!instr.fn.writes_src16 || decide (instr.args.src16 ≠ .unused16))

/-! # Theorems -/

/-! ## Bit tests as arithmetic -/

theorem and_two_pow_ne_zero (x i : Nat) : (x &&& 2 ^ i ≠ 0) ↔ x / 2 ^ i % 2 = 1 := by
  rw [Nat.and_two_pow, Nat.testBit_to_div_mod]
  by_cases h : x / 2 ^ i % 2 = 1 <;> simp [h]

theorem and_0x01_ne_zero (x : Nat) : (x &&& 1 ≠ 0) ↔ x % 2 = 1 := by
  have h := and_two_pow_ne_zero x 0
  rw [pow_zero, Nat.div_one] at h
  exact h

theorem and_0x04_ne_zero (x : Nat) : (x &&& 0x4 ≠ 0) ↔ x / 4 % 2 = 1 :=
  and_two_pow_ne_zero x 2

theorem and_0x10_ne_zero (x : Nat) : (x &&& 0x10 ≠ 0) ↔ x / 16 % 2 = 1 :=
  and_two_pow_ne_zero x 4

theorem and_0x20_ne_zero (x : Nat) : (x &&& 0x20 ≠ 0) ↔ x / 32 % 2 = 1 :=
  and_two_pow_ne_zero x 5

theorem and_0x40_ne_zero (x : Nat) : (x &&& 0x40 ≠ 0) ↔ x / 64 % 2 = 1 :=
  and_two_pow_ne_zero x 6

theorem and_0x80_ne_zero (x : Nat) : (x &&& 0x80 ≠ 0) ↔ x / 128 % 2 = 1 :=
  and_two_pow_ne_zero x 7

theorem and_0x100_ne_zero (x : Nat) : (x &&& 0x100 ≠ 0) ↔ x / 256 % 2 = 1 :=
  and_two_pow_ne_zero x 8

theorem and_0xFF (x : Nat) : x &&& 0xFF = x % 256 := Nat.and_pow_two_sub_one_eq_mod x 8

theorem and_0xF (x : Nat) : x &&& 0xF = x % 16 := Nat.and_pow_two_sub_one_eq_mod x 4

theorem and_0x20_eq_zero (x : Nat) : x &&& 0x20 = 0 ↔ x / 32 % 2 = 0 := by
  have h := and_0x20_ne_zero x
  constructor
  · intro h0
    have : ¬ x / 32 % 2 = 1 := fun h1 => (h.mpr h1) h0
    omega
  · intro h0
    by_contra h1
    have := h.mp h1
    omega

theorem and_0x40_eq_zero (x : Nat) : x &&& 0x40 = 0 ↔ x / 64 % 2 = 0 := by
  have h := and_0x40_ne_zero x
  constructor
  · intro h0
    have : ¬ x / 64 % 2 = 1 := fun h1 => (h.mpr h1) h0
    omega
  · intro h0
    by_contra h1
    have := h.mp h1
    omega

open Instructions Flags Mappings

/-! ## The instruction table -/

set_option maxRecDepth 8192 in
theorem instruction_table_sizes :
    instruction_table.length = 2 ∧ primary_table.length = 256 ∧ cb_table.length = 256 :=
  ⟨rfl, rfl, rfl⟩

/-! ## `ADD` -/

theorem LOAD_U8_OPERAND_B_regs (indirect immediate : Bool) (args : InstructionArgs)
    (s s1 : State) (b : Nat)
    (h : LOAD_U8_OPERAND_B indirect immediate args s = .ok (b, s1)) :
    s1.regs.A = s.regs.A ∧ s1.regs.F = s.regs.F := by
  unfold LOAD_U8_OPERAND_B at h
  split at h
  · split at h
    · cases h
    · cases h; exact ⟨rfl, rfl⟩
  · split at h
    · split at h
      · cases h
      · cases h; exact ⟨rfl, rfl⟩
    · cases h; exact ⟨rfl, rfl⟩

theorem carryIn_le (carry : Bool) (F : Nat) : carryIn carry F ≤ 1 := by
  unfold carryIn; split <;> omega

theorem carryIn_eq (carry : Bool) (F : Nat) :
    (if (carry && (F &&& CARRY != 0)) = true then 1 else 0) = carryIn carry F := by
  unfold carryIn
  by_cases h1 : carry = true <;> by_cases h2 : F &&& CARRY = 0 <;> simp [h1, h2]

/-- What `ADD` leaves in `A` and `F` when the destination is `A`, the flag bits
written as arithmetic on `F`. -/
theorem ADD_spec (carry indirect immediate : Bool) (args : InstructionArgs)
    (s s1 : State) (b : Nat)
    (hdst : args.dst = ByteRegister.A) (ha : s.regs.A < 256) (hb : b < 256)
    (hload : LOAD_U8_OPERAND_B indirect immediate args s = .ok (b, s1)) :
    ∃ s', ADD carry indirect immediate args s = .ok (s', args.cycles) ∧
      s'.regs.A = (s.regs.A + b + carryIn carry s.regs.F) % 256 ∧
      s'.regs.F < 256 ∧
      (s'.regs.F / 128 % 2 = 1 ↔ (s.regs.A + b + carryIn carry s.regs.F) % 256 = 0) ∧
      s'.regs.F / 64 % 2 = 0 ∧
      (s'.regs.F / 32 % 2 = 1 ↔ s.regs.A % 16 + b % 16 + carryIn carry s.regs.F > 15) ∧
      (s'.regs.F / 16 % 2 = 1 ↔ s.regs.A + b + carryIn carry s.regs.F > 255) ∧
      s'.regs.F % 16 = 0 := by
  obtain ⟨hA1, hF1⟩ := LOAD_U8_OPERAND_B_regs indirect immediate args s s1 b hload
  have hc1 := carryIn_le carry s.regs.F
  simp only [ADD, hload, hdst, RegisterFile.get8, carryIn_eq, hA1, hF1]
  generalize carryIn carry s.regs.F = c at hc1 ⊢
  generalize s.regs.A = a at ha ⊢
  refine ⟨_, rfl, ?_⟩
  have hs : (c + (a + b)) % 65536 = a + b + c := by omega
  have hh : (c + (a % 16 + b % 16)) % 256 = a % 16 + b % 16 + c := by omega
  simp only [HALF_CARRY, CARRY, ZERO, and_0xF, and_0xFF, and_0x10_ne_zero,
    and_0x100_ne_zero, hs, hh]
  have e1 : (a % 16 + b % 16 + c) / 16 % 2 = 1 ↔ a % 16 + b % 16 + c > 15 := by omega
  have e2 : (a + b + c) / 256 % 2 = 1 ↔ a + b + c > 255 := by omega
  simp only [e1, e2]
  by_cases h1 : a % 16 + b % 16 + c > 15 <;>
  by_cases h2 : a + b + c > 255 <;>
  by_cases h3 : (a + b + c) % 256 = 0 <;>
  simp only [h1, h2, h3, if_true, if_false, RegisterFile.SET_FLAG, RegisterFile.set8] <;>
  exact ⟨by first | trivial | omega, by decide⟩

/-- C1. For every `a` in `A`, every 8-bit operand `b` (from a register, from memory
at `src16`, or immediate) and every incoming `F`, `ADD` (no carry-in) and `ADC`
(carry-in 1 iff the carry flag is set on entry) leave `A = (a + b + cin) mod 256`,
Z set iff that result is 0, N clear, H set iff `(a & 0xF) + (b & 0xF) + cin > 0xF`,
C set iff `a + b + cin > 0xFF`, and the low nibble of `F` zero. -/
theorem ADD_flags (carry indirect immediate : Bool) (args : InstructionArgs)
    (s s1 : State) (a b : Nat)
    (hdst : args.dst = ByteRegister.A) (hA : s.regs.A = a) (ha : a < 256) (hb : b < 256)
    (hload : LOAD_U8_OPERAND_B indirect immediate args s = .ok (b, s1)) :
    ∃ s', ADD carry indirect immediate args s = .ok (s', args.cycles) ∧
      s'.regs.A = (a + b + carryIn carry s.regs.F) % 256 ∧
      (s'.regs.F &&& ZERO ≠ 0 ↔ (a + b + carryIn carry s.regs.F) % 256 = 0) ∧
      s'.regs.F &&& SUBTRACT = 0 ∧
      (s'.regs.F &&& HALF_CARRY ≠ 0 ↔
        (a &&& 0xF) + (b &&& 0xF) + carryIn carry s.regs.F > 0xF) ∧
      (s'.regs.F &&& CARRY ≠ 0 ↔ a + b + carryIn carry s.regs.F > 0xFF) ∧
      s'.regs.F &&& 0x0F = 0 := by
  subst hA
  obtain ⟨s', h, hA', _, hZ, hN, hH, hC, hlow⟩ :=
    ADD_spec carry indirect immediate args s s1 b hdst ha hb hload
  refine ⟨s', h, hA', ?_, ?_, ?_, ?_, ?_⟩
  · rw [ZERO, and_0x80_ne_zero]; exact hZ
  · rw [SUBTRACT, and_0x40_eq_zero]; exact hN
  · rw [HALF_CARRY, and_0x20_ne_zero, and_0xF, and_0xF]; exact hH
  · rw [CARRY, and_0x10_ne_zero]; exact hC
  · rw [and_0xF]; exact hlow

/-- Witness of C1, the spec's scenario 7: with `A = 0x3A`, `add a, 0x06` (opcode
0xC6, the immediate at `PC`) leaves `A = 0x40` with H set and Z, N, C clear. -/
theorem ADD_flags_witness :
    ∃ s', ADD false false true ⟨.A, .unused, .unused16, .unused16, 0x00, ANY, 0x08⟩
        { State.init with
          regs := { RegisterFile.init with A := 0x3A, PC := 0xC000 }
          mem := { Memory.init with memory := fun _ => 0x06 } } = .ok (s', 0x08) ∧
      s'.regs.A = 0x40 ∧ s'.regs.F &&& ZERO = 0 ∧ s'.regs.F &&& SUBTRACT = 0 ∧
      s'.regs.F &&& HALF_CARRY ≠ 0 ∧ s'.regs.F &&& CARRY = 0 := by
  obtain ⟨s', h, hA, hZ, hN, hH, hC, _⟩ :=
    ADD_flags false false true ⟨.A, .unused, .unused16, .unused16, 0x00, ANY, 0x08⟩
      { State.init with
        regs := { RegisterFile.init with A := 0x3A, PC := 0xC000 }
        mem := { Memory.init with memory := fun _ => 0x06 } }
      _ 0x3A 0x06 rfl rfl (by decide) (by decide) rfl
  refine ⟨s', h, hA, ?_, hN, hH.mpr (by decide), ?_⟩
  · by_contra h0
    exact absurd (hZ.mp h0) (by decide)
  · by_contra h0
    exact absurd (hC.mp h0) (by decide)

/-! ## `SUB` -/

/-- C2. For every `a` in `A` and every 8-bit operand `b`, `SUB` without carry-in
leaves `A = (a - b) mod 256`, N set, Z set iff `a = b`, and C set iff `a < b`. -/
theorem SUB_flags (indirect immediate : Bool) (args : InstructionArgs)
    (s s1 : State) (a b : Nat)
    (hdst : args.dst = ByteRegister.A) (hA : s.regs.A = a) (ha : a < 256) (hb : b < 256)
    (hload : LOAD_U8_OPERAND_B indirect immediate args s = .ok (b, s1)) :
    ∃ s', SUB false indirect immediate args s = .ok (s', args.cycles) ∧
      (s'.regs.A : Int) = ((a : Int) - (b : Int)) % 256 ∧
      s'.regs.F &&& SUBTRACT ≠ 0 ∧
      (s'.regs.F &&& ZERO ≠ 0 ↔ a = b) ∧
      (s'.regs.F &&& CARRY ≠ 0 ↔ a < b) := by
  subst hA
  obtain ⟨hA1, _⟩ := LOAD_U8_OPERAND_B_regs indirect immediate args s s1 b hload
  simp only [SUB, hload, hdst, RegisterFile.get8, hA1, Bool.false_and, Bool.false_eq_true,
    if_false]
  generalize s.regs.A = a at ha ⊢
  refine ⟨_, rfl, ?_⟩
  have hd : toI16 (toI16 ((0 : Nat) : Int) + ((a : Int) - (b : Int))) = (a : Int) - (b : Int) := by
    unfold toI16; omega
  have hu : ((toU8 ((a : Int) - (b : Int)) % 256 : Nat) : Int) = ((a : Int) - (b : Int)) % 256 := by
    unfold toU8; omega
  simp only [hd, SUBTRACT, HALF_CARRY, CARRY, ZERO, and_0x80_ne_zero, and_0x40_ne_zero,
    and_0x10_ne_zero]
  have e1 : (a : Int) - (b : Int) < 0 ↔ a < b := by omega
  have e2 : (a : Int) - (b : Int) = 0 ↔ a = b := by omega
  simp only [e1, e2]
  refine ⟨by simp only [RegisterFile.set8]; exact hu, ?_⟩
  split_ifs <;>
  simp only [RegisterFile.SET_FLAG, RegisterFile.set8] <;>
  refine ⟨by decide, ?_, ?_⟩ <;>
  first
    | exact iff_of_true (by decide) ‹_›
    | exact iff_of_false (by decide) ‹_›

/-- Witness of C2: `sub a, b` (opcode 0x90) with `A = 0x10`, `B = 0x20` leaves
`A = 0xF0` with N and C set and Z clear. -/
theorem SUB_flags_witness :
    ∃ s', SUB false false false (REGISTER .A .B)
        { State.init with regs := { RegisterFile.init with A := 0x10, B := 0x20 } }
          = .ok (s', 0x04) ∧
      s'.regs.A = 0xF0 ∧ s'.regs.F &&& SUBTRACT ≠ 0 ∧ s'.regs.F &&& ZERO = 0 ∧
      s'.regs.F &&& CARRY ≠ 0 := by
  obtain ⟨s', h, hA, hN, hZ, hC⟩ :=
    SUB_flags false false (REGISTER .A .B)
      { State.init with regs := { RegisterFile.init with A := 0x10, B := 0x20 } }
      _ 0x10 0x20 rfl rfl (by decide) (by decide) rfl
  refine ⟨s', h, by omega, hN, ?_, hC.mpr (by decide)⟩
  by_contra h0
  exact absurd (hZ.mp h0) (by decide)

set_option maxRecDepth 8192 in
/-- C3 (the code diverges). With `A = 0x10` and `B = 0x01`, `sub a, b` (opcode 0x90)
leaves `A = 0x0F` and the half-carry flag clear, although
`(0x10 & 0xF) < (0x01 & 0xF)`: the handler takes the difference of the high
nibbles (`& 0xF0`) and tests bit 2 of it, which is never set without carry-in. -/
theorem SUB_half_carry_low_nibble_borrow :
    ∃ i r, entry 0 0x90 = some i ∧ i.fn = Op.SUB false false false ∧
      regs_after (i.run
        { State.init with regs := { RegisterFile.init with A := 0x10, F := 0x00, B := 0x01 } })
        = some r ∧
      r.A = 0x0F ∧ r.F &&& HALF_CARRY = 0 ∧ (0x10 &&& 0xF) < (0x01 &&& 0xF) :=
  ⟨_, _, rfl, rfl, rfl, rfl, by decide, by decide⟩

set_option maxRecDepth 8192 in
/-- C4 (the code diverges). `sbc a, b` (opcode 0x98) with the carry flag set on entry:
with `A = 0x05`, `B = 0x04` it leaves `A = 0x00` but Z clear; with `A = 0x00`,
`B = 0x00` it leaves `A = 0xFF` but C clear, although `0 - 0 - 1 < 0`. The
statement `diff = half = -1` gives `diff` the value 255, so `diff` is
`a - b + 255`, never negative and zero only for `a = 0`, `b = 0xFF`. -/
theorem SBC_carry_in_flags :
    ∃ i r1 r2, entry 0 0x98 = some i ∧ i.fn = Op.SUB true false false ∧
      regs_after (i.run
        { State.init with regs := { RegisterFile.init with A := 0x05, F := 0x10, B := 0x04 } })
        = some r1 ∧
      r1.A = 0x00 ∧ r1.F &&& ZERO = 0 ∧
      regs_after (i.run
        { State.init with regs := { RegisterFile.init with A := 0x00, F := 0x10, B := 0x00 } })
        = some r2 ∧
      r2.A = 0xFF ∧ r2.F &&& CARRY = 0 ∧ ((0 : Int) - 0 - 1 < 0) :=
  ⟨_, _, _, rfl, rfl, rfl, rfl, by decide, rfl, rfl, by decide, by decide⟩

/-! ## `DEC` -/

set_option maxRecDepth 8192 in
/-- C5 (the code diverges). With `B = 0x01`, `dec b` (opcode 0x05) leaves `B = 0x00`
and the half-carry flag set, although `0x01 & 0xF` is not 0: `half` is
`(a & 0x10) - 1` as a `u8`, that is 0xFF or 0x0F, and bit 2 of both is set. -/
theorem DEC_half_carry_always_set :
    ∃ i r, entry 0 0x05 = some i ∧ i.fn = Op.DEC false ∧
      regs_after (i.run
        { State.init with regs := { RegisterFile.init with F := 0x00, B := 0x01 } })
        = some r ∧
      r.B = 0x00 ∧ r.F &&& HALF_CARRY ≠ 0 ∧ (0x01 &&& 0xF) ≠ 0 :=
  ⟨_, _, rfl, rfl, rfl, rfl, by decide, by decide⟩

/-! ## `ADD16` -/

set_option maxRecDepth 8192 in
/-- C6 (the code diverges). With `HL = 0xFFFF` and `BC = 0x0001`, `add hl, bc`
(opcode 0x09) leaves `HL = 0x0000` with H and C clear, although
`(0xFFFF & 0x0FFF) + (0x0001 & 0x0FFF) > 0x0FFF` and `0xFFFF + 0x0001 > 0xFFFF`:
the flags are computed from the sum of the high bytes alone, without the carry
out of the low bytes. -/
theorem ADD16_ignores_low_byte_carry :
    ∃ i r, entry 0 0x09 = some i ∧ i.fn = Op.ADD16 ∧
      regs_after (i.run
        { State.init with
          regs := { RegisterFile.init with
            F := 0x00, H := 0xFF, L := 0xFF, B := 0x00, C := 0x01 } })
        = some r ∧
      r.get16 .HL = 0x0000 ∧ r.F &&& HALF_CARRY = 0 ∧ r.F &&& CARRY = 0 ∧
      (0xFFFF &&& 0x0FFF) + (0x0001 &&& 0x0FFF) > 0x0FFF ∧ 0xFFFF + 0x0001 > 0xFFFF :=
  ⟨_, _, rfl, rfl, rfl, rfl, by decide, by decide, by decide, by decide⟩

/-! ## `DAA` -/

set_option maxRecDepth 100000 in
/-- The flag bits after the updates of `F` that `DAA` can make: `SET_FLAG(CARRY)`,
`SET_FLAG(ZERO)`, then `CLEAR_FLAG(HALF_CARRY)`. -/
theorem DAA_F_bits : ∀ F < 256,
    ((F &&& (0xFF ^^^ 0x20)) < 256 ∧ (F &&& (0xFF ^^^ 0x20)) / 128 % 2 = F / 128 % 2 ∧
      (F &&& (0xFF ^^^ 0x20)) / 64 % 2 = F / 64 % 2 ∧ (F &&& (0xFF ^^^ 0x20)) / 32 % 2 = 0 ∧
      (F &&& (0xFF ^^^ 0x20)) / 16 % 2 = F / 16 % 2) ∧
    (((F ||| 0x80) % 256 &&& (0xFF ^^^ 0x20)) < 256 ∧
      ((F ||| 0x80) % 256 &&& (0xFF ^^^ 0x20)) / 128 % 2 = 1 ∧
      ((F ||| 0x80) % 256 &&& (0xFF ^^^ 0x20)) / 64 % 2 = F / 64 % 2 ∧
      ((F ||| 0x80) % 256 &&& (0xFF ^^^ 0x20)) / 32 % 2 = 0 ∧
      ((F ||| 0x80) % 256 &&& (0xFF ^^^ 0x20)) / 16 % 2 = F / 16 % 2) ∧
    (((F ||| 0x10) % 256 &&& (0xFF ^^^ 0x20)) < 256 ∧
      ((F ||| 0x10) % 256 &&& (0xFF ^^^ 0x20)) / 128 % 2 = F / 128 % 2 ∧
      ((F ||| 0x10) % 256 &&& (0xFF ^^^ 0x20)) / 64 % 2 = F / 64 % 2 ∧
      ((F ||| 0x10) % 256 &&& (0xFF ^^^ 0x20)) / 32 % 2 = 0 ∧
      ((F ||| 0x10) % 256 &&& (0xFF ^^^ 0x20)) / 16 % 2 = 1) ∧
    ((((F ||| 0x10) % 256 ||| 0x80) % 256 &&& (0xFF ^^^ 0x20)) < 256 ∧
      (((F ||| 0x10) % 256 ||| 0x80) % 256 &&& (0xFF ^^^ 0x20)) / 128 % 2 = 1 ∧
      (((F ||| 0x10) % 256 ||| 0x80) % 256 &&& (0xFF ^^^ 0x20)) / 64 % 2 = F / 64 % 2 ∧
      (((F ||| 0x10) % 256 ||| 0x80) % 256 &&& (0xFF ^^^ 0x20)) / 32 % 2 = 0 ∧
      (((F ||| 0x10) % 256 ||| 0x80) % 256 &&& (0xFF ^^^ 0x20)) / 16 % 2 = 1) ∧
    (F ||| 0x10) % 256 / 32 % 2 = F / 32 % 2 := by
  decide

/-- What `DAA` leaves in `A` and `F` when N is clear on entry. -/
theorem DAA_spec (args : InstructionArgs) (s : State)
    (hA : s.regs.A < 256) (hF : s.regs.F < 256) (hN : s.regs.F / 64 % 2 = 0) :
    ∃ s', DAA args s = .ok (s', args.cycles) ∧
      s'.regs.A = daa_add (s.regs.F / 32 % 2) (s.regs.F / 16 % 2) s.regs.A ∧
      s'.regs.F < 256 ∧
      (s'.regs.F / 128 % 2 = 1 ↔ s.regs.F / 128 % 2 = 1 ∨ s'.regs.A = 0) ∧
      s'.regs.F / 64 % 2 = 0 ∧
      s'.regs.F / 32 % 2 = 0 ∧
      (s'.regs.F / 16 % 2 = 1 ↔ s.regs.F / 16 % 2 = 1 ∨ s.regs.A > 0x99) := by
  rcases s with ⟨⟨A, F, B, C, D, E, H, L, SP, PC, g⟩, mem, cpu⟩
  simp only at hA hF hN
  refine ⟨_, rfl, ?_⟩
  have hN' : ¬ (F / 64 % 2 = 1) := by omega
  simp only [SUBTRACT, CARRY, HALF_CARRY, ZERO, and_0x40_ne_zero, and_0x10_ne_zero,
    and_0x20_ne_zero, and_0xF, hN', if_false, daa_add]
  obtain ⟨b1, b2, b3, b4, g5⟩ := DAA_F_bits F hF
  by_cases c1 : F / 16 % 2 = 1 ∨ A > 0x99
  · simp only [c1, if_true, RegisterFile.SET_FLAG, g5]
    by_cases c2 : F / 32 % 2 = 1 ∨ (A + 0x60) % 256 % 16 > 9
    · simp only [c2, if_true]
      by_cases z : ((A + 0x60) % 256 + 6) % 256 = 0 <;>
      simp only [z, if_true, if_false, RegisterFile.CLEAR_FLAG, iff_iff_and_or_not_and_not,
        true_and, and_true, or_true, true_or, not_true_eq_false, and_false, false_and,
        or_false, false_or, not_false_eq_true] <;>
      omega
    · simp only [c2, if_false]
      by_cases z : (A + 0x60) % 256 = 0 <;>
      simp only [z, if_true, if_false, RegisterFile.CLEAR_FLAG, iff_iff_and_or_not_and_not,
        true_and, and_true, or_true, true_or, not_true_eq_false, and_false, false_and,
        or_false, false_or, not_false_eq_true] <;>
      omega
  · simp only [c1, if_false]
    by_cases c2 : F / 32 % 2 = 1 ∨ A % 16 > 9
    · simp only [c2, if_true]
      by_cases z : (A + 6) % 256 = 0 <;>
      simp only [z, if_true, if_false, RegisterFile.SET_FLAG, RegisterFile.CLEAR_FLAG,
        iff_iff_and_or_not_and_not, true_and, and_true, or_true, true_or, not_true_eq_false,
        and_false, false_and, or_false, false_or, not_false_eq_true] <;>
      omega
    · simp only [c2, if_false]
      by_cases z : A = 0 <;>
      simp only [z, if_true, if_false, RegisterFile.SET_FLAG, RegisterFile.CLEAR_FLAG,
        iff_iff_and_or_not_and_not, true_and, and_true, or_true, true_or, not_true_eq_false,
        and_false, false_and, or_false, false_or, not_false_eq_true] <;>
      omega

theorem carryIn_false (F : Nat) : carryIn false F = 0 := by
  simp [carryIn]

set_option maxRecDepth 100000 in
/-- The correction of `DAA` on the sum of two packed-BCD bytes, by the sum `sh` of
the high digits and the sum `sl` of the low digits. -/
theorem daa_add_digit_sums : ∀ sh < 19, ∀ sl < 19,
    daa_add (if sl > 15 then 1 else 0) (if 16 * sh + sl > 255 then 1 else 0)
        ((16 * sh + sl) % 256) = toBCD ((10 * sh + sl) % 100) ∧
      ((16 * sh + sl > 255 ∨ (16 * sh + sl) % 256 > 0x99) ↔ 10 * sh + sl ≥ 100) := by
  decide

/-- C7. `DAA` performs the BCD correction after an addition: for packed-BCD bytes
`a` and `b`, `ADD a, b` followed by `DAA` leaves in `A` the packed-BCD encoding of
`(da + db) mod 100`, with the carry flag set iff `da + db >= 100`. -/
theorem DAA_after_ADD_packed_bcd (indirect immediate : Bool) (args dargs : InstructionArgs)
    (s s1 : State) (a b : Nat)
    (hdst : args.dst = ByteRegister.A) (hA : s.regs.A = a) (ha : isBCD a) (hb : isBCD b)
    (hload : LOAD_U8_OPERAND_B indirect immediate args s = .ok (b, s1)) :
    ∃ s2 s3, ADD false indirect immediate args s = .ok (s2, args.cycles) ∧
      DAA dargs s2 = .ok (s3, dargs.cycles) ∧
      s3.regs.A = toBCD ((fromBCD a + fromBCD b) % 100) ∧
      (s3.regs.F &&& CARRY ≠ 0 ↔ fromBCD a + fromBCD b ≥ 100) := by
  subst hA
  unfold isBCD at ha hb
  obtain ⟨s2, h2, hA2, hF2, -, hN2, hH2, hC2, -⟩ :=
    ADD_spec false indirect immediate args s s1 b hdst (by omega) (by omega) hload
  rw [carryIn_false] at hA2 hH2 hC2
  obtain ⟨s3, h3, hA3, -, -, -, -, hC3⟩ := DAA_spec dargs s2 (by omega) hF2 hN2
  obtain ⟨k1, k2⟩ := daa_add_digit_sums (s.regs.A / 16 + b / 16) (by omega)
    (s.regs.A % 16 + b % 16) (by omega)
  have e0 : 16 * (s.regs.A / 16 + b / 16) + (s.regs.A % 16 + b % 16) = s.regs.A + b + 0 := by
    omega
  have e1 : 10 * (s.regs.A / 16 + b / 16) + (s.regs.A % 16 + b % 16)
      = fromBCD s.regs.A + fromBCD b := by
    unfold fromBCD; omega
  have e2 : s2.regs.F / 32 % 2 = if s.regs.A % 16 + b % 16 > 15 then 1 else 0 := by
    split_ifs with h
    · exact hH2.mpr (by omega)
    · have := mt hH2.mp (by omega); omega
  have e3 : s2.regs.F / 16 % 2 = if s.regs.A + b + 0 > 255 then 1 else 0 := by
    split_ifs with h
    · exact hC2.mpr h
    · have := mt hC2.mp h; omega
  rw [e0, e1] at k1 k2
  refine ⟨s2, s3, h2, h3, ?_, ?_⟩
  · rw [hA3, hA2, e2, e3]; exact k1
  · rw [CARRY, and_0x10_ne_zero, hC3, hA2, ← k2]
    constructor
    · rintro (h | h)
      · exact Or.inl (hC2.mp h)
      · exact Or.inr h
    · rintro (h | h)
      · exact Or.inl (hC2.mpr h)
      · exact Or.inr h

/-- Witness of C7: `0x45 + 0x38` then `DAA` leaves `A = 0x83`, carry clear
(45 + 38 = 83). -/
theorem DAA_after_ADD_packed_bcd_witness :
    ∃ s2 s3,
      ADD false false false (REGISTER .A .B)
        { State.init with regs := { RegisterFile.init with A := 0x45, B := 0x38 } }
          = .ok (s2, 0x04) ∧
      DAA ⟨.A, .unused, .unused16, .unused16, 0x00, ANY, 0x04⟩ s2 = .ok (s3, 0x04) ∧
      s3.regs.A = 0x83 ∧ s3.regs.F &&& CARRY = 0 := by
  obtain ⟨s2, s3, h2, h3, hA, hC⟩ :=
    DAA_after_ADD_packed_bcd false false (REGISTER .A .B)
      ⟨.A, .unused, .unused16, .unused16, 0x00, ANY, 0x04⟩
      { State.init with regs := { RegisterFile.init with A := 0x45, B := 0x38 } }
      _ 0x45 0x38 rfl rfl (by decide) (by decide) rfl
  refine ⟨s2, s3, h2, h3, hA, ?_⟩
  by_contra h0
  exact absurd (hC.mp h0) (by decide)

set_option maxRecDepth 8192 in
/-- C8 (the code diverges). `add a, b` (opcode 0x80) with `A = 0x99`, `B = 0x67` leaves
`A = 0x00` and `F = 0xB0` (Z, H, C); the following `daa` (opcode 0x27) leaves
`A = 0x66` and `F = 0x90`: H is cleared, but Z is still set although the result is
not 0. `DAA` only ever sets Z (`if (!A) SET_FLAG(ZERO)`), it never clears it. -/
theorem DAA_keeps_stale_zero_flag :
    ∃ i j r1 r2, entry 0 0x80 = some i ∧ i.fn = Op.ADD false false false ∧
      entry 0 0x27 = some j ∧ j.fn = Op.DAA ∧
      regs_after (i.run
        { State.init with regs := { RegisterFile.init with A := 0x99, F := 0x00, B := 0x67 } })
        = some r1 ∧
      r1.A = 0x00 ∧ r1.F = 0xB0 ∧
      regs_after (and_then (i.run
        { State.init with regs := { RegisterFile.init with A := 0x99, F := 0x00, B := 0x67 } }) j)
        = some r2 ∧
      r2.A = 0x66 ∧ r2.F = 0x90 ∧ r2.F &&& ZERO ≠ 0 ∧ r2.F &&& HALF_CARRY = 0 :=
  ⟨_, _, _, _, rfl, rfl, rfl, rfl, rfl, rfl, rfl, rfl, rfl, rfl, by decide, by decide⟩

set_option maxRecDepth 8192 in
/-- C9 (counterexample). After `add a, b` (opcode 0x80) with `A = 0x50`, `B = 0x50`,
one `daa` (opcode 0x27) leaves `A = 0x00` with the carry flag set, and a second
`daa` leaves `A = 0x60`: `DAA` is not idempotent there. -/
theorem DAA_twice_differs :
    ∃ i j r1 r2, entry 0 0x80 = some i ∧ i.fn = Op.ADD false false false ∧
      entry 0 0x27 = some j ∧ j.fn = Op.DAA ∧
      regs_after (and_then (i.run
        { State.init with regs := { RegisterFile.init with A := 0x50, F := 0x00, B := 0x50 } }) j)
        = some r1 ∧
      regs_after (and_then (and_then (i.run
        { State.init with
          regs := { RegisterFile.init with A := 0x50, F := 0x00, B := 0x50 } }) j) j)
        = some r2 ∧
      r1.A = 0x00 ∧ r2.A = 0x60 ∧ r2.A ≠ r1.A :=
  ⟨_, _, _, _, rfl, rfl, rfl, rfl, rfl, rfl, rfl, rfl, by decide⟩

theorem and_0x10_eq_zero (x : Nat) : x &&& 0x10 = 0 ↔ x / 16 % 2 = 0 := by
  have h := and_0x10_ne_zero x
  constructor
  · intro h0
    have : ¬ x / 16 % 2 = 1 := fun h1 => (h.mpr h1) h0
    omega
  · intro h0
    by_contra h1
    have := h.mp h1
    omega

/-- C9 (amended). For all bytes `a`, `b`: after `ADD a, b`, a second `DAA` leaves `A`
as the first `DAA` left it if and only if the first `DAA` left the carry flag clear
and a packed-BCD byte in `A`. -/
theorem DAA_twice_after_ADD (indirect immediate : Bool) (args dargs : InstructionArgs)
    (s s1 : State) (a b : Nat)
    (hdst : args.dst = ByteRegister.A) (hA : s.regs.A = a) (ha : a < 256) (hb : b < 256)
    (hload : LOAD_U8_OPERAND_B indirect immediate args s = .ok (b, s1)) :
    ∃ s2 s3 s4, ADD false indirect immediate args s = .ok (s2, args.cycles) ∧
      DAA dargs s2 = .ok (s3, dargs.cycles) ∧
      DAA dargs s3 = .ok (s4, dargs.cycles) ∧
      (s4.regs.A = s3.regs.A ↔ (s3.regs.F &&& CARRY = 0 ∧ isBCD s3.regs.A)) := by
  subst hA
  obtain ⟨s2, h2, hA2, hF2, -, hN2, -, -, -⟩ :=
    ADD_spec false indirect immediate args s s1 b hdst ha hb hload
  obtain ⟨s3, h3, hA3, hF3, -, hN3, hH3, -⟩ := DAA_spec dargs s2 (by omega) hF2 hN2
  have hA3' : s3.regs.A < 256 := by
    rw [hA3]; unfold daa_add; split_ifs <;> omega
  obtain ⟨s4, h4, hA4, -, -, -, -, -⟩ := DAA_spec dargs s3 hA3' hF3 hN3
  refine ⟨s2, s3, s4, h2, h3, h4, ?_⟩
  rw [hA4, hH3, CARRY, and_0x10_eq_zero]
  unfold daa_add isBCD
  generalize s3.regs.A = A3 at hA3' ⊢
  by_cases c1 : s3.regs.F / 16 % 2 = 1 ∨ A3 > 0x99 <;>
  simp only [c1, if_true, if_false, Nat.zero_ne_one, false_or] <;>
  split_ifs <;> constructor <;> intro hh <;> omega

/-- Witness of C9 (amended): the statement at `A = 0x45`, `B = 0x38`, `add a, b`. -/
theorem DAA_twice_after_ADD_witness :
    ∃ s2 s3 s4,
      ADD false false false (REGISTER .A .B)
        { State.init with regs := { RegisterFile.init with A := 0x45, B := 0x38 } }
          = .ok (s2, 0x04) ∧
      DAA ⟨.A, .unused, .unused16, .unused16, 0x00, ANY, 0x04⟩ s2 = .ok (s3, 0x04) ∧
      DAA ⟨.A, .unused, .unused16, .unused16, 0x00, ANY, 0x04⟩ s3 = .ok (s4, 0x04) ∧
      (s4.regs.A = s3.regs.A ↔ (s3.regs.F &&& CARRY = 0 ∧ isBCD s3.regs.A)) :=
  DAA_twice_after_ADD false false (REGISTER .A .B)
    ⟨.A, .unused, .unused16, .unused16, 0x00, ANY, 0x04⟩
    { State.init with regs := { RegisterFile.init with A := 0x45, B := 0x38 } }
    _ 0x45 0x38 rfl rfl (by decide) (by decide) rfl

/-! ## The rotates of `A` in the primary table -/

set_option maxRecDepth 8192 in
/-- C10 (counterexample). The rotates of `A` set Z when the result is 0: `rlca`
(0x07) and `rrca` (0x0F) with `A = 0x00`, `rla` (0x17) with `A = 0x80` and `rra`
(0x1F) with `A = 0x01`, carry clear on entry, all leave `A = 0x00` with Z set. -/
theorem A_rotates_set_zero_flag :
    ∃ i1 i2 i3 i4 r1 r2 r3 r4,
      entry 0 0x07 = some i1 ∧ entry 0 0x0F = some i2 ∧
      entry 0 0x17 = some i3 ∧ entry 0 0x1F = some i4 ∧
      regs_after (i1.run
        { State.init with regs := { RegisterFile.init with A := 0x00, F := 0x00 } }) = some r1 ∧
      regs_after (i2.run
        { State.init with regs := { RegisterFile.init with A := 0x00, F := 0x00 } }) = some r2 ∧
      regs_after (i3.run
        { State.init with regs := { RegisterFile.init with A := 0x80, F := 0x00 } }) = some r3 ∧
      regs_after (i4.run
        { State.init with regs := { RegisterFile.init with A := 0x01, F := 0x00 } }) = some r4 ∧
      (r1.A = 0x00 ∧ r1.F &&& ZERO ≠ 0) ∧ (r2.A = 0x00 ∧ r2.F &&& ZERO ≠ 0) ∧
      (r3.A = 0x00 ∧ r3.F &&& ZERO ≠ 0) ∧ (r4.A = 0x00 ∧ r4.F &&& ZERO ≠ 0) :=
  ⟨_, _, _, _, _, _, _, _, rfl, rfl, rfl, rfl, rfl, rfl, rfl, rfl,
    ⟨rfl, by decide⟩, ⟨rfl, by decide⟩, ⟨rfl, by decide⟩, ⟨rfl, by decide⟩⟩

/-- What `RL<carry, false>` with destination `A` leaves in `F`. -/
theorem RL_flags (carry : Bool) (args : InstructionArgs) (s : State)
    (hdst : args.dst = ByteRegister.A) :
    ∃ s', RL carry false args s = .ok (s', args.cycles) ∧
      (s'.regs.F &&& ZERO ≠ 0 ↔ s'.regs.A = 0) ∧ s'.regs.F &&& SUBTRACT = 0 ∧
      s'.regs.F &&& HALF_CARRY = 0 ∧ (s'.regs.F &&& CARRY ≠ 0 ↔ s.regs.A &&& 0x80 ≠ 0) := by
  refine ⟨_, rfl, ?_⟩
  simp only [hdst, RegisterFile.get8, STORE_U8_OPERAND_A, LOAD_U8_OPERAND_A, Bool.false_eq_true,
    if_false]
  split_ifs <;>
  simp only [RegisterFile.SET_FLAG, RegisterFile.set8, Nat.mod_mod] <;>
  refine ⟨?_, by decide, by decide, ?_⟩ <;>
  first
    | exact iff_of_true (by decide) ‹_›
    | exact iff_of_false (by decide) ‹_›

/-- What `RR<carry, false>` with destination `A` leaves in `F`. -/
theorem RR_flags (carry : Bool) (args : InstructionArgs) (s : State)
    (hdst : args.dst = ByteRegister.A) :
    ∃ s', RR carry false args s = .ok (s', args.cycles) ∧
      (s'.regs.F &&& ZERO ≠ 0 ↔ s'.regs.A = 0) ∧ s'.regs.F &&& SUBTRACT = 0 ∧
      s'.regs.F &&& HALF_CARRY = 0 ∧ (s'.regs.F &&& CARRY ≠ 0 ↔ s.regs.A &&& 0x01 ≠ 0) := by
  refine ⟨_, rfl, ?_⟩
  simp only [hdst, RegisterFile.get8, STORE_U8_OPERAND_A, LOAD_U8_OPERAND_A, Bool.false_eq_true,
    if_false]
  split_ifs <;>
  simp only [RegisterFile.SET_FLAG, RegisterFile.set8, Nat.mod_mod] <;>
  refine ⟨?_, by decide, by decide, ?_⟩ <;>
  first
    | exact iff_of_true (by decide) ‹_›
    | exact iff_of_false (by decide) ‹_›

set_option maxRecDepth 8192 in
/-- C10 (amended). For every `A` and every incoming `F`, each rotate of `A` of the
primary table, RLCA (0x07), RRCA (0x0F), RLA (0x17), RRA (0x1F), takes 4 cycles and
leaves Z set iff the rotated result left in `A` is 0, N and H clear, and C equal to
the bit rotated out of `A` (bit 7 for the left rotates, bit 0 for the right ones). -/
theorem A_rotates_flags (op : Nat) (s : State)
    (hop : op = 0x07 ∨ op = 0x0F ∨ op = 0x17 ∨ op = 0x1F) :
    ∃ i s', entry 0 op = some i ∧ i.run s = .ok (s', 0x04) ∧
      (s'.regs.F &&& ZERO ≠ 0 ↔ s'.regs.A = 0) ∧
      s'.regs.F &&& SUBTRACT = 0 ∧
      s'.regs.F &&& HALF_CARRY = 0 ∧
      (s'.regs.F &&& CARRY ≠ 0 ↔
        s.regs.A &&& (if op = 0x07 ∨ op = 0x17 then 0x80 else 0x01) ≠ 0) := by
  rcases hop with rfl | rfl | rfl | rfl
  · obtain ⟨s', h, hz, hn, hh, hc⟩ :=
      RL_flags false ⟨.A, .unused, .unused16, .unused16, 0x00, ANY, 0x04⟩ s rfl
    exact ⟨_, s', rfl, h, hz, hn, hh, hc⟩
  · obtain ⟨s', h, hz, hn, hh, hc⟩ :=
      RR_flags false ⟨.A, .unused, .unused16, .unused16, 0x00, ANY, 0x04⟩ s rfl
    exact ⟨_, s', rfl, h, hz, hn, hh, hc⟩
  · obtain ⟨s', h, hz, hn, hh, hc⟩ :=
      RL_flags true ⟨.A, .unused, .unused16, .unused16, 0x00, ANY, 0x04⟩ s rfl
    exact ⟨_, s', rfl, h, hz, hn, hh, hc⟩
  · obtain ⟨s', h, hz, hn, hh, hc⟩ :=
      RR_flags true ⟨.A, .unused, .unused16, .unused16, 0x00, ANY, 0x04⟩ s rfl
    exact ⟨_, s', rfl, h, hz, hn, hh, hc⟩

set_option maxRecDepth 8192 in
/-- Witness of C10 (amended): `rlca` (0x07) with `A = 0x85` leaves C set (bit 7 of
0x85 is rotated out) and Z clear (the result is not 0). -/
theorem A_rotates_flags_witness :
    ∃ i s', entry 0 0x07 = some i ∧
      i.run { State.init with regs := { RegisterFile.init with A := 0x85, F := 0x00 } }
        = .ok (s', 0x04) ∧
      s'.regs.A ≠ 0 ∧ s'.regs.F &&& ZERO = 0 ∧ s'.regs.F &&& CARRY ≠ 0 := by
  obtain ⟨i, s', he, h, hz, -, -, hc⟩ :=
    A_rotates_flags 0x07
      { State.init with regs := { RegisterFile.init with A := 0x85, F := 0x00 } }
      (Or.inl rfl)
  have hs : s'.regs.A = 0x0B := by
    cases he
    cases h
    rfl
  refine ⟨i, s', he, h, by omega, ?_, hc.mpr (by decide)⟩
  by_contra h0
  have := hz.mp h0
  omega

/-! ## `SLA` -/

set_option maxRecDepth 8192 in
/-- C11 (the code diverges). With `B = 0x80`, `sla b` (opcode CB 0x20) leaves
`B = 0x00` with Z set and the carry flag clear, although bit 7 of `0x80` is
shifted out; with `B = 0x40` it leaves `B = 0x80` with the carry flag set, although
bit 7 of `0x40` is 0. The handler tests `a & 0x40`, bit 6, where the rotate `RL`
tests `original & 0x80`. -/
theorem SLA_carry_from_bit_6 :
    ∃ i r1 r2, entry 1 0x20 = some i ∧ i.fn = Op.SLA false ∧
      regs_after (i.run
        { State.init with regs := { RegisterFile.init with F := 0x00, B := 0x80 } })
        = some r1 ∧
      r1.B = 0x00 ∧ r1.F &&& CARRY = 0 ∧ 0x80 &&& 0x80 ≠ 0 ∧
      regs_after (i.run
        { State.init with regs := { RegisterFile.init with F := 0x00, B := 0x40 } })
        = some r2 ∧
      r2.B = 0x80 ∧ r2.F &&& CARRY ≠ 0 ∧ 0x40 &&& 0x80 = 0 :=
  ⟨_, _, _, rfl, rfl, rfl, rfl, by decide, by decide, rfl, rfl, by decide, by decide⟩

/-! ## `POP AF` -/

set_option maxRecDepth 8192 in
/-- C16 (the code diverges). With `F = 0x00`, `SP = 0xC000` and the bytes `0xFF`,
`0x12` at `0xC000`, `0xC001`, `pop af` (opcode 0xF1) leaves `A = 0x12`,
`F = 0xFF`: the low nibble of `F` is `0xF`. `CPU::pop` stores the word it reads
without a mask, where `CPU::push` masks `AF` with `0xFFF0`. -/
theorem POP_AF_low_nibble :
    ∃ i r, entry 0 0xF1 = some i ∧ i.fn = Op.POP ∧ i.args.dst16 = WordRegister.AF ∧
      regs_after (i.run
        { State.init with
          regs := { RegisterFile.init with F := 0x00, SP := 0xC000 }
          mem := { Memory.init with
            memory := fun a => if a = 0xC000 then 0xFF else if a = 0xC001 then 0x12 else 0 } })
        = some r ∧
      r.A = 0x12 ∧ r.F = 0xFF ∧ r.F &&& 0x0F ≠ 0 ∧ (0x00 : Nat) &&& 0x0F = 0 :=
  ⟨_, _, rfl, rfl, rfl, rfl, rfl, rfl, by decide, by decide⟩

/-! ## `ADDS` -/

set_option maxRecDepth 8192 in
/-- C20 (the code diverges). With `SP = 0x1000`, `PC = 0xC000` and the immediate
`0x01` at `0xC000`, the handler of opcode 0xE8 (`add sp, xx`) leaves `SP = 0x1000`
where `SP + 1` is `0x1001`: it computes the sum in a local variable and never
writes `SP`. `PC` is advanced past the immediate. -/
theorem ADDS_leaves_SP :
    ∃ i r, entry 0 0xE8 = some i ∧ i.fn = Op.ADDS ∧
      regs_after (i.run
        { State.init with
          regs := { RegisterFile.init with F := 0x00, SP := 0x1000, PC := 0xC000 }
          mem := { Memory.init with memory := fun a => if a = 0xC000 then 0x01 else 0 } })
        = some r ∧
      r.SP = 0x1000 ∧ r.PC = 0xC001 ∧ (0x1000 + 0x01) % 65536 ≠ r.SP :=
  ⟨_, _, rfl, rfl, rfl, rfl, rfl, by decide⟩

/-! ## `CPU::handle_interrupts` -/

/-- C18 (the code diverges). With `IF = IE = 0x03`, `IME` set, `PC = 0x1234` and
`SP = 0xD000`, `handle_interrupts` services both interrupts: it pushes `0x1234`,
then pushes the vector `0x0040` (`SP = 0xCFFC`), leaves `PC = 0x48`, the vector of
bit 1, and clears both bits of `IF`. The loop body has no `return`, so every
pending enabled interrupt is serviced, the lowest one first and the highest one
last, against the comment `Lower bit has highest priority`. -/
theorem handle_interrupts_services_all :
    ∃ s', CPU.handle_interrupts
        ({ State.init with
          regs := { RegisterFile.init with PC := 0x1234, SP := 0xD000 } }.with_interrupts
            0x03 0x03) = .ok s' ∧
      s'.regs.SP = 0xCFFC ∧ s'.regs.PC = 0x48 ∧ CPU.IF s' = 0x00 ∧
      s'.mem.memory 0xCFFE = 0x34 ∧ s'.mem.memory 0xCFFF = 0x12 ∧
      s'.mem.memory 0xCFFC = 0x40 ∧ s'.mem.memory 0xCFFD = 0x00 ∧
      s'.regs.SP ≠ (0xD000 + 65536 - 2) % 65536 ∧ s'.regs.PC ≠ 0x40 ∧ CPU.IF s' ≠ 0x02 :=
  ⟨_, rfl, rfl, rfl, rfl, rfl, rfl, rfl, rfl, by decide, by decide, by decide⟩

/-! ## Illegal opcodes -/

theorem Op.isILL_iff (f : Op) : f.isILL = true ↔ f = Op.ILL := by
  cases f <;> simp [Op.isILL]

set_option maxRecDepth 100000 in
theorem primary_table_isILL :
    primary_table.map (fun i => i.fn.isILL) = (List.range 256).map (fun op =>
      decide (op ∈ [0xD3, 0xDB, 0xDD, 0xE3, 0xE4, 0xEB, 0xEC, 0xED, 0xF4, 0xFC, 0xFD])) := by
  decide

set_option maxRecDepth 100000 in
theorem cb_table_isILL :
    cb_table.map (fun i => i.fn.isILL) = (List.range 256).map (fun _ => false) := by
  decide

theorem entry_primary (op : Nat) : entry 0 op = primary_table[op]? := rfl

theorem entry_cb (op : Nat) : entry 1 op = cb_table[op]? := rfl

/-- C19. An opcode of the primary table decodes to the handler `ILL`, which fails
with `IllegalInstruction`, iff it is one of 0xD3, 0xDB, 0xDD, 0xE3, 0xE4, 0xEB, 0xEC,
0xED, 0xF4, 0xFC, 0xFD; no entry of the CB table decodes to `ILL`. -/
theorem ILL_opcodes (op : Nat) (hop : op < 256) :
    (∃ i, entry 0 op = some i ∧
      (i.fn = Op.ILL ↔
        op ∈ [0xD3, 0xDB, 0xDD, 0xE3, 0xE4, 0xEB, 0xEC, 0xED, 0xF4, 0xFC, 0xFD])) ∧
    (∃ i, entry 1 op = some i ∧ i.fn ≠ Op.ILL) ∧
    (∀ args s, Op.ILL.handler args s = .error .IllegalInstruction) := by
  refine ⟨?_, ?_, fun _ _ => rfl⟩
  · have h := congrArg (fun l => l[op]?) primary_table_isILL
    simp only [List.getElem?_map, List.getElem?_range hop, Option.map_some'] at h
    rw [entry_primary]
    cases hi : primary_table[op]? with
    | none => rw [hi] at h; cases h
    | some i =>
      rw [hi] at h
      refine ⟨i, rfl, ?_⟩
      rw [← Op.isILL_iff]
      have h' : i.fn.isILL = decide (op ∈
          [0xD3, 0xDB, 0xDD, 0xE3, 0xE4, 0xEB, 0xEC, 0xED, 0xF4, 0xFC, 0xFD]) := by
        simpa using h
      rw [h', decide_eq_true_iff]
  · have h := congrArg (fun l => l[op]?) cb_table_isILL
    simp only [List.getElem?_map, List.getElem?_range hop, Option.map_some'] at h
    rw [entry_cb]
    cases hi : cb_table[op]? with
    | none => rw [hi] at h; cases h
    | some i =>
      rw [hi] at h
      refine ⟨i, rfl, ?_⟩
      intro hf
      have h' : i.fn.isILL = false := by simpa using h
      rw [(Op.isILL_iff i.fn).mpr hf] at h'
      cases h'

set_option maxRecDepth 8192 in
/-- Witness of C19: opcode 0xD3 decodes to `ILL`, which throws. -/
theorem ILL_opcodes_witness :
    ∃ i, entry 0 0xD3 = some i ∧ i.fn = Op.ILL ∧
      i.run State.init = .error .IllegalInstruction := by
  obtain ⟨⟨i, hi, hf⟩, -, -⟩ := ILL_opcodes 0xD3 (by decide)
  have hI : i.fn = Op.ILL := hf.mpr (by decide)
  refine ⟨i, hi, hI, ?_⟩
  unfold Instruction.run
  rw [hI]
  rfl

/-! ## The CB table by rows -/

set_option maxRecDepth 8192 in
theorem entry_BIT (n k : Nat) (r : ByteRegister) (hn : n < 8)
    (hk : operand_column r = some k) :
    entry 1 (0x40 + 8 * n + k) = some (_BIT n r) := by
  interval_cases n <;> cases r <;> cases hk <;> rfl

/-! ## Byte registers -/

theorem get8_set8_self (r : RegisterFile) (x : ByteRegister) (v : Nat) :
    (r.set8 x v).get8 x = v % 256 := by
  cases x <;> simp only [RegisterFile.set8, RegisterFile.get8]
  omega

theorem F_set8 (r : RegisterFile) (x : ByteRegister) (v : Nat) (hx : x ≠ ByteRegister.F) :
    (r.set8 x v).F = r.F := by
  cases x <;> first | rfl | exact absurd rfl hx

theorem operand_column_ne_F (r : ByteRegister) (k : Nat) (hk : operand_column r = some k) :
    r ≠ ByteRegister.F := by
  rintro rfl; cases hk

theorem and_two_pow_cases (x i : Nat) : x &&& 2 ^ i = 0 ∨ x &&& 2 ^ i = 2 ^ i := by
  rw [Nat.and_two_pow]
  cases x.testBit i <;> simp

theorem and_CARRY_cases (F : Nat) : F &&& CARRY = 0 ∨ F &&& CARRY = 0x10 :=
  and_two_pow_cases F 4

/-! ## `BIT` -/

/-- What `BIT<false>` leaves when the operand is a register other than `F`. -/
theorem BIT_spec (args : InstructionArgs) (s : State) (hdst : args.dst ≠ ByteRegister.F)
    (hx : s.regs.get8 args.dst < 256) :
    ∃ s', BIT false args s = .ok (s', args.cycles) ∧
      (s'.regs.F &&& ZERO ≠ 0 ↔ s.regs.get8 args.dst &&& (1 <<< args.data) = 0) ∧
      s'.regs.F &&& SUBTRACT = 0 ∧
      s'.regs.F &&& HALF_CARRY ≠ 0 ∧
      (s'.regs.F &&& CARRY ≠ 0 ↔ s.regs.F &&& CARRY ≠ 0) ∧
      s'.regs.F &&& 0x0F = 0 ∧
      s'.regs.get8 args.dst = s.regs.get8 args.dst := by
  refine ⟨_, rfl, ?_⟩
  simp only [LOAD_U8_OPERAND_A, STORE_U8_OPERAND_A, Bool.false_eq_true, if_false,
    get8_set8_self, F_set8 _ _ _ hdst, Nat.mod_eq_of_lt hx]
  refine ⟨?_, ?_, ?_, ?_, ?_, trivial⟩ <;>
  rcases and_CARRY_cases s.regs.F with hc | hc <;>
  split_ifs <;>
  simp only [RegisterFile.SET_FLAG, hc] <;>
  first
    | decide
    | exact iff_of_true (by decide) ‹_›
    | exact iff_of_false (by decide) ‹_›

/-- C13. For every bit index `n` in 0..7, every register `r` of `B, C, D, E, H, L, A`
holding a byte `x` and every incoming `F`, the entry `BIT n, r` of the CB table
(opcode `0x40 + 8 n + column`) takes 8 cycles, sets Z iff bit `n` of `x` is 0,
clears N, sets H, leaves the carry flag as it was and leaves `x` in `r`. -/
theorem BIT_flags (n k : Nat) (r : ByteRegister) (s : State) (hn : n < 8)
    (hk : operand_column r = some k) (hx : s.regs.get8 r < 256) :
    ∃ i s', entry 1 (0x40 + 8 * n + k) = some i ∧ i.fn = Op.BIT false ∧
      i.run s = .ok (s', 0x08) ∧
      (s'.regs.F &&& ZERO ≠ 0 ↔ s.regs.get8 r &&& (1 <<< n) = 0) ∧
      s'.regs.F &&& SUBTRACT = 0 ∧
      s'.regs.F &&& HALF_CARRY ≠ 0 ∧
      (s'.regs.F &&& CARRY ≠ 0 ↔ s.regs.F &&& CARRY ≠ 0) ∧
      s'.regs.get8 r = s.regs.get8 r := by
  obtain ⟨s', h, hz, hn', hh, hc, -, hr⟩ :=
    BIT_spec (_BIT n r).args s (operand_column_ne_F r k hk) hx
  exact ⟨_, s', entry_BIT n k r hn hk, rfl, h, hz, hn', hh, hc, hr⟩

set_option maxRecDepth 8192 in
/-- Witness of C13, the spec's scenario 6: with `B = 0x08` and `F = 0x10`, `bit 0, b`
(opcode CB 0x40) leaves `F = 0xB0` and `B = 0x08`. -/
theorem BIT_flags_witness :
    ∃ i s', entry 1 0x40 = some i ∧
      i.run { State.init with regs := { RegisterFile.init with F := 0x10, B := 0x08 } }
        = .ok (s', 0x08) ∧
      s'.regs.F = 0xB0 ∧ s'.regs.B = 0x08 := by
  obtain ⟨i, s', he, -, h, -, -, -, -, hr⟩ :=
    BIT_flags 0 0 .B
      { State.init with regs := { RegisterFile.init with F := 0x10, B := 0x08 } }
      (by decide) rfl (by decide)
  refine ⟨i, s', he, h, ?_, hr⟩
  cases he
  cases h
  rfl

/-! ## Rotates of the CB table -/

set_option maxRecDepth 100000 in
theorem shl_or_bit :
    ∀ x, x < 256 → ∀ b, b < 2 → ((x <<< 1) % 256 ||| b) % 256 = (2 * x + b) % 256 := by
  decide

set_option maxRecDepth 100000 in
theorem shr_or_bit :
    ∀ x, x < 256 → ∀ b, b < 2 → ((x >>> 1) ||| (b <<< 7)) % 256 = x / 2 + 128 * b := by
  decide

theorem and_0x80_ne_zero_of_lt (x : Nat) (hx : x < 256) : x &&& 0x80 ≠ 0 ↔ 128 ≤ x := by
  rw [and_0x80_ne_zero]; omega

/-- What `RL<carry, false>` leaves in a register operand other than `F` and in the
carry flag. -/
theorem RL_spec (carry : Bool) (args : InstructionArgs) (s : State)
    (hdst : args.dst ≠ ByteRegister.F) (hx : s.regs.get8 args.dst < 256) :
    ∃ s', RL carry false args s = .ok (s', args.cycles) ∧
      s'.regs.get8 args.dst =
        (2 * s.regs.get8 args.dst +
          (if carry then (if s.regs.F &&& CARRY ≠ 0 then 1 else 0)
           else s.regs.get8 args.dst / 128)) % 256 ∧
      (s'.regs.F &&& CARRY ≠ 0 ↔ 128 ≤ s.regs.get8 args.dst) := by
  refine ⟨_, rfl, ?_⟩
  simp only [LOAD_U8_OPERAND_A, STORE_U8_OPERAND_A, Bool.false_eq_true, if_false,
    get8_set8_self, F_set8 _ _ _ hdst, and_0x80_ne_zero_of_lt _ hx]
  generalize s.regs.get8 args.dst = x at hx
  constructor
  · cases carry
    · simp only [Bool.false_eq_true, if_false]
      by_cases h : 128 ≤ x
      · rw [if_pos h, shl_or_bit x hx 1 (by decide), Nat.mod_mod]; congr 2; omega
      · rw [if_neg h, shl_or_bit x hx 0 (by decide), Nat.mod_mod]; congr 2; omega
    · simp only [if_true]
      by_cases h : s.regs.F &&& CARRY ≠ 0
      · rw [if_pos h, shl_or_bit x hx 1 (by decide), Nat.mod_mod]
      · rw [if_neg h, shl_or_bit x hx 0 (by decide), Nat.mod_mod]
  · split_ifs <;> simp only [RegisterFile.SET_FLAG] <;>
    first
      | exact iff_of_true (by decide) ‹_›
      | exact iff_of_false (by decide) ‹_›

/-- What `RR<carry, false>` leaves in a register operand other than `F` and in the
carry flag. -/
theorem RR_spec (carry : Bool) (args : InstructionArgs) (s : State)
    (hdst : args.dst ≠ ByteRegister.F) (hx : s.regs.get8 args.dst < 256) :
    ∃ s', RR carry false args s = .ok (s', args.cycles) ∧
      s'.regs.get8 args.dst =
        s.regs.get8 args.dst / 2 +
          128 * (if carry then (if s.regs.F &&& CARRY ≠ 0 then 1 else 0)
                 else s.regs.get8 args.dst % 2) ∧
      (s'.regs.F &&& CARRY ≠ 0 ↔ s.regs.get8 args.dst % 2 = 1) := by
  refine ⟨_, rfl, ?_⟩
  simp only [LOAD_U8_OPERAND_A, STORE_U8_OPERAND_A, Bool.false_eq_true, if_false,
    get8_set8_self, F_set8 _ _ _ hdst, Nat.and_one_is_mod]
  generalize s.regs.get8 args.dst = x at hx
  constructor
  · cases carry
    · simp only [Bool.false_eq_true, if_false]
      rw [shr_or_bit x hx (x % 2) (Nat.mod_lt _ (by decide))]; exact Nat.mod_eq_of_lt (by omega)
    · simp only [if_true]
      by_cases h : s.regs.F &&& CARRY ≠ 0
      · rw [if_pos h, shr_or_bit x hx 1 (by decide)]; exact Nat.mod_eq_of_lt (by omega)
      · rw [if_neg h, shr_or_bit x hx 0 (by decide)]; exact Nat.mod_eq_of_lt (by omega)
  · split_ifs <;> simp only [RegisterFile.SET_FLAG] <;>
    first
      | exact iff_of_true (by decide) (by omega)
      | exact iff_of_false (by decide) (by omega)

/-- The rotate left followed by the rotate right of the same kind, on a register
operand other than `F`. -/
theorem RL_RR_round_trip (carry : Bool) (args : InstructionArgs) (s : State)
    (hdst : args.dst ≠ ByteRegister.F) (hx : s.regs.get8 args.dst < 256) :
    ∃ s1 s2, RL carry false args s = .ok (s1, args.cycles) ∧
      RR carry false args s1 = .ok (s2, args.cycles) ∧
      s2.regs.get8 args.dst = s.regs.get8 args.dst ∧
      (carry = true → (s2.regs.F &&& CARRY ≠ 0 ↔ s.regs.F &&& CARRY ≠ 0)) := by
  obtain ⟨s1, h1, hv1, hc1⟩ := RL_spec carry args s hdst hx
  have hx1 : s1.regs.get8 args.dst < 256 := by rw [hv1]; exact Nat.mod_lt _ (by decide)
  obtain ⟨s2, h2, hv2, hc2⟩ := RR_spec carry args s1 hdst hx1
  refine ⟨s1, s2, h1, h2, ?_, ?_⟩
  · rw [hv2]
    clear hv2 hc2 h1 h2
    cases carry
    · simp only [Bool.false_eq_true, if_false] at hv1 ⊢
      by_cases h : 128 ≤ s.regs.get8 args.dst
      · have h' : s.regs.get8 args.dst / 128 = 1 := by omega
        rw [h'] at hv1; omega
      · have h' : s.regs.get8 args.dst / 128 = 0 := by omega
        rw [h'] at hv1; omega
    · simp only [if_true] at hv1 ⊢
      by_cases h : 128 ≤ s.regs.get8 args.dst <;>
      by_cases hc : s.regs.F &&& CARRY ≠ 0
      · rw [if_pos (hc1.mpr h)]; rw [if_pos hc] at hv1; omega
      · rw [if_pos (hc1.mpr h)]; rw [if_neg hc] at hv1; omega
      · rw [if_neg (fun h' => h (hc1.mp h'))]; rw [if_pos hc] at hv1; omega
      · rw [if_neg (fun h' => h (hc1.mp h'))]; rw [if_neg hc] at hv1; omega
  · rintro rfl
    simp only [if_true] at hv1
    rw [hc2, hv1]
    by_cases h : s.regs.F &&& CARRY ≠ 0
    · rw [if_pos h]; exact iff_of_true (by omega) h
    · rw [if_neg h]; exact iff_of_false (by omega) h

set_option maxRecDepth 8192 in
theorem entry_rotates (k : Nat) (r : ByteRegister) (hk : operand_column r = some k) :
    entry 1 k = some (_RL false r) ∧ entry 1 (0x08 + k) = some (_RR false r) ∧
    entry 1 (0x10 + k) = some (_RL true r) ∧ entry 1 (0x18 + k) = some (_RR true r) := by
  cases r <;> cases hk <;> exact ⟨rfl, rfl, rfl, rfl⟩

/-- C12. For every register `r` of `B, C, D, E, H, L, A` holding a byte `x` and every
incoming `F`: the entries RLC `r` (CB 0x00 + column) and then RRC `r` (CB 0x08 +
column) run without error and leave `x` in `r`; the entries RL `r` (CB 0x10 + column)
and then RR `r` (CB 0x18 + column) run without error, leave `x` in `r` and leave the
carry flag as it was before the pair. -/
theorem rotate_round_trips (k : Nat) (r : ByteRegister) (s : State)
    (hk : operand_column r = some k) (hx : s.regs.get8 r < 256) :
    (∃ i j s1 s2, entry 1 k = some i ∧ entry 1 (0x08 + k) = some j ∧
      i.fn = Op.RL false false ∧ j.fn = Op.RR false false ∧
      i.run s = .ok (s1, 0x08) ∧ j.run s1 = .ok (s2, 0x08) ∧
      s2.regs.get8 r = s.regs.get8 r) ∧
    (∃ i j s1 s2, entry 1 (0x10 + k) = some i ∧ entry 1 (0x18 + k) = some j ∧
      i.fn = Op.RL true false ∧ j.fn = Op.RR true false ∧
      i.run s = .ok (s1, 0x08) ∧ j.run s1 = .ok (s2, 0x08) ∧
      s2.regs.get8 r = s.regs.get8 r ∧
      (s2.regs.F &&& CARRY ≠ 0 ↔ s.regs.F &&& CARRY ≠ 0)) := by
  obtain ⟨e1, e2, e3, e4⟩ := entry_rotates k r hk
  have hF := operand_column_ne_F r k hk
  obtain ⟨s1, s2, h1, h2, hv, -⟩ := RL_RR_round_trip false (_RL false r).args s hF hx
  obtain ⟨t1, t2, g1, g2, gv, gc⟩ := RL_RR_round_trip true (_RL true r).args s hF hx
  exact ⟨⟨_, _, s1, s2, e1, e2, rfl, rfl, h1, h2, hv⟩,
    ⟨_, _, t1, t2, e3, e4, rfl, rfl, g1, g2, gv, gc rfl⟩⟩

set_option maxRecDepth 100000 in
/-- Witness of C12: with `B = 0x85` and `F = 0x10`, `rlc b; rrc b` (CB 0x00, CB 0x08)
and `rl b; rr b` (CB 0x10, CB 0x18) both leave `B = 0x85`, the second pair with the
carry flag set as before. -/
theorem rotate_round_trips_witness :
    (∃ i j s1 s2, entry 1 0x00 = some i ∧ entry 1 0x08 = some j ∧
      i.run { State.init with regs := { RegisterFile.init with F := 0x10, B := 0x85 } }
        = .ok (s1, 0x08) ∧ j.run s1 = .ok (s2, 0x08) ∧ s2.regs.B = 0x85) ∧
    (∃ i j s1 s2, entry 1 0x10 = some i ∧ entry 1 0x18 = some j ∧
      i.run { State.init with regs := { RegisterFile.init with F := 0x10, B := 0x85 } }
        = .ok (s1, 0x08) ∧ j.run s1 = .ok (s2, 0x08) ∧ s2.regs.B = 0x85 ∧
      s2.regs.F &&& CARRY ≠ 0) := by
  obtain ⟨⟨i, j, s1, s2, e1, e2, -, -, h1, h2, hv⟩,
      ⟨i', j', t1, t2, e3, e4, -, -, g1, g2, gv, gc⟩⟩ :=
    rotate_round_trips 0 .B
      { State.init with regs := { RegisterFile.init with F := 0x10, B := 0x85 } }
      rfl (by decide)
  exact ⟨⟨i, j, s1, s2, e1, e2, h1, h2, hv⟩,
    ⟨i', j', t1, t2, e3, e4, g1, g2, gv, gc.mpr (by decide)⟩⟩

/-! ## `CPU::push` -/

/-- The stack slot at `a` can be written as a word: `operator[]` accepts the address,
it is outside the I/O bank and it lies at or above 0x8000. -/
theorem write_word_ok (m : Memory) (a w : Nat) (h1 : a ≠ 0xABCD)
    (h2 : a &&& 0xFF80 ≠ 0xFF00) (h3 : a ≠ 0xFFFF) (h4 : a &&& 0x8000 ≠ 0) :
    m.write_word a w = .ok { m with memory := fun x =>
      if x = a then w % 256 else if x = a + 1 then w / 256 % 256 else m.memory x } := by
  simp only [Memory.write_word, Memory.select, if_neg h1, if_neg h2, if_neg h3]
  rw [if_pos]
  simp only [Bool.or_eq_true, bne_iff_ne, ne_eq]
  exact Or.inr h4

theorem read_word_ok (m : Memory) (a : Nat) (h1 : a ≠ 0xABCD)
    (h2 : a &&& 0xFF80 ≠ 0xFF00) (h3 : a ≠ 0xFFFF) :
    m.read_word a = .ok (m.memory a + m.memory (a + 1) * 256) := by
  simp only [Memory.read_word, Memory.select, if_neg h1, if_neg h2, if_neg h3]

/-- The method `CPU::push` as one word write followed by the update of the state. -/
theorem push_eq (s : State) (r : WordRegister) :
    CPU.push s r =
      (s.mem.write_word (s.regs.set16 .SP (s.regs.SP + 65536 - 2)).SP
        (if r = .AF then (s.regs.set16 .SP (s.regs.SP + 65536 - 2)).get16 r &&& 0xFFF0
         else (s.regs.set16 .SP (s.regs.SP + 65536 - 2)).get16 r)).map
        (fun m => { s with regs := s.regs.set16 .SP (s.regs.SP + 65536 - 2), mem := m }) := by
  unfold CPU.push
  dsimp only
  generalize s.mem.write_word (s.regs.set16 .SP (s.regs.SP + 65536 - 2)).SP
        (if r = .AF then (s.regs.set16 .SP (s.regs.SP + 65536 - 2)).get16 r &&& 0xFFF0
         else (s.regs.set16 .SP (s.regs.SP + 65536 - 2)).get16 r) = X
  cases X <;> rfl

theorem SP_set16_SP (r : RegisterFile) (v : Nat) : (r.set16 .SP v).SP = v % 65536 := rfl

theorem get16_PC_set16_SP (r : RegisterFile) (v : Nat) :
    (r.set16 .SP v).get16 .PC = r.PC := rfl

/-- A word write leaves the I/O register slots as they were. -/
theorem write_word_registers (m m1 : Memory) (a w : Nat) (h : m.write_word a w = .ok m1) :
    m1.registers = m.registers := by
  unfold Memory.write_word at h
  split at h
  · cases h
  · cases h
  · split at h
    · cases h; rfl
    · cases h

/-- What `CPU::push` leaves whenever it returns. -/
theorem push_cpu (s s1 : State) (r : WordRegister) (h : CPU.push s r = .ok s1) :
    s1.cpu = s.cpu ∧ s1.mem.registers = s.mem.registers := by
  rw [push_eq] at h
  generalize hX : s.mem.write_word (s.regs.set16 .SP (s.regs.SP + 65536 - 2)).SP
        (if r = .AF then (s.regs.set16 .SP (s.regs.SP + 65536 - 2)).get16 r &&& 0xFFF0
         else (s.regs.set16 .SP (s.regs.SP + 65536 - 2)).get16 r) = X at h
  cases X with
  | error e => cases h
  | ok m =>
    cases h
    exact ⟨rfl, write_word_registers _ _ _ _ hX⟩

/-- What `CPU::push` leaves when the stack slot can be written. -/
theorem push_ok (s : State) (r : WordRegister)
    (h1 : (s.regs.SP + 65536 - 2) % 65536 ≠ 0xABCD)
    (h2 : (s.regs.SP + 65536 - 2) % 65536 &&& 0xFF80 ≠ 0xFF00)
    (h3 : (s.regs.SP + 65536 - 2) % 65536 ≠ 0xFFFF)
    (h4 : (s.regs.SP + 65536 - 2) % 65536 &&& 0x8000 ≠ 0) :
    ∃ s1, CPU.push s r = .ok s1 ∧
      s1.regs = s.regs.set16 .SP (s.regs.SP + 65536 - 2) ∧ s1.cpu = s.cpu ∧
      s1.mem.registers = s.mem.registers ∧
      s1.mem.memory ((s.regs.SP + 65536 - 2) % 65536) =
        (if r = .AF then (s.regs.set16 .SP (s.regs.SP + 65536 - 2)).get16 r &&& 0xFFF0
         else (s.regs.set16 .SP (s.regs.SP + 65536 - 2)).get16 r) % 256 ∧
      s1.mem.memory ((s.regs.SP + 65536 - 2) % 65536 + 1) =
        (if r = .AF then (s.regs.set16 .SP (s.regs.SP + 65536 - 2)).get16 r &&& 0xFFF0
         else (s.regs.set16 .SP (s.regs.SP + 65536 - 2)).get16 r) / 256 % 256 := by
  rw [push_eq, SP_set16_SP, write_word_ok _ _ _ h1 h2 h3 h4]
  refine ⟨_, rfl, rfl, rfl, rfl, ?_, ?_⟩
  · dsimp only
    rw [if_pos rfl]
  · dsimp only
    rw [if_neg (Nat.succ_ne_self _), if_pos rfl]

/-! ## `CPU::handle_interrupts` with one pending enabled interrupt -/

theorem two_pow_and_one_shiftLeft (i j : Nat) :
    2 ^ i &&& (1 <<< j) = if j = i then 2 ^ i else 0 := by
  rw [Nat.one_shiftLeft]
  split_ifs with h
  · subst h; exact Nat.and_self _
  · rw [Nat.and_two_pow, Nat.testBit_two_pow]
    have : decide (i = j) = false := by simpa using fun h' => h h'.symm
    rw [this]; simp

theorem testBit_of_and_eq_two_pow (a b i : Nat) (h : a &&& b = 2 ^ i) :
    a.testBit i = true ∧ b.testBit i = true := by
  have h' := congrArg (fun x => x.testBit i) h
  simpa [Nat.testBit_and, Nat.testBit_two_pow_self] using h'

theorem xor_two_pow_lt (a i : Nat) (ha : a < 256) (hi : i < 8) : a ^^^ 2 ^ i < 256 :=
  Nat.xor_lt_two_pow (n := 8) ha (Nat.pow_lt_pow_right (by decide) hi)

theorem xor_two_pow_and (a b i : Nat) (h : a &&& b = 2 ^ i) : (a ^^^ 2 ^ i) &&& b = 0 := by
  apply Nat.eq_of_testBit_eq
  intro j
  have hj := congrArg (fun x => x.testBit j) h
  simp only [Nat.testBit_and, Nat.testBit_two_pow] at hj
  simp only [Nat.testBit_and, Nat.testBit_xor, Nat.testBit_two_pow, Nat.zero_testBit]
  by_cases e : i = j
  · subst e
    simp only [decide_True, Bool.and_eq_true] at hj
    simp [hj.1, hj.2]
  · simp only [e, decide_False] at hj ⊢
    simpa using hj

theorem xor_two_pow_and_self (a i : Nat) (h : a.testBit i = true) :
    (a ^^^ 2 ^ i) &&& (1 <<< i) = 0 := by
  rw [Nat.one_shiftLeft, Nat.and_two_pow, Nat.testBit_xor, h, Nat.testBit_two_pow_self]
  simp

theorem xor_two_pow_and_other (a i j : Nat) (h : j ≠ i) :
    (a ^^^ 2 ^ i) &&& (1 <<< j) = a &&& (1 <<< j) := by
  rw [Nat.one_shiftLeft, Nat.and_two_pow, Nat.and_two_pow, Nat.testBit_xor,
    Nat.testBit_two_pow]
  have : decide (i = j) = false := by simpa using fun h' => h h'.symm
  rw [this, Bool.xor_false]

theorem service_skip (s : State) (j : Nat) (h : CPU.IF s &&& CPU.IE s &&& (1 <<< j) = 0) :
    CPU.service s j = .ok s := by
  unfold CPU.service
  rw [if_neg (not_not.mpr h)]

theorem service_all_skip (s : State) (j : Nat) (rest : List Nat)
    (h : CPU.IF s &&& CPU.IE s &&& (1 <<< j) = 0) :
    CPU.service_all s (j :: rest) = CPU.service_all s rest := by
  simp only [CPU.service_all, service_skip s j h]

theorem service_all_none (s : State) (l : List Nat) (h : CPU.IF s &&& CPU.IE s = 0) :
    CPU.service_all s l = .ok s := by
  induction l with
  | nil => rfl
  | cons j rest ih => rw [service_all_skip s j rest (by rw [h, Nat.zero_and]), ih]

/-- The state `CPU::handle_interrupts` leaves after the call of the vector `i`, from
the state `s1` the push of `PC` left. -/
theorem service_all_hit (s s1 : State) (i : Nat) (rest : List Nat) (hi : i < 8)
    (hIF : CPU.IF s < 256) (h : CPU.IF s &&& CPU.IE s = 2 ^ i)
    (hpush : CPU.push s .PC = .ok s1) (hregs : s1.mem.registers = s.mem.registers) :
    ∃ s', CPU.service_all s (i :: rest) = .ok s' ∧
      s'.regs = s1.regs.set16 .PC (0x40 + 8 * i) ∧
      s'.mem.memory = s1.mem.memory ∧
      CPU.IF s' = CPU.IF s ^^^ 2 ^ i ∧ CPU.IE s' = CPU.IE s ∧
      s'.cpu = { s1.cpu with IME := false } := by
  have hcond : CPU.IF s &&& CPU.IE s &&& (1 <<< i) ≠ 0 := by
    rw [h, two_pow_and_one_shiftLeft, if_pos rfl]; exact Nat.pos_iff_ne_zero.mp (Nat.two_pow_pos i)
  have hIF1 : CPU.IF s1 = CPU.IF s := by simp only [CPU.IF, hregs]
  have hIE1 : CPU.IE s1 = CPU.IE s := by simp only [CPU.IE, hregs]
  have hmod : (CPU.IF s ^^^ 2 ^ i) % 256 = CPU.IF s ^^^ 2 ^ i :=
    Nat.mod_eq_of_lt (xor_two_pow_lt _ _ hIF hi)
  simp only [CPU.service_all, CPU.service, if_pos hcond, hpush]
  refine ⟨_, service_all_none _ rest ?_, rfl, rfl, ?_, ?_, rfl⟩
  · simp only [CPU.IF, CPU.IE, CPU.set_IF, if_true, Nat.one_shiftLeft]
    simp only [CPU.IF, CPU.IE] at h hIF1 hIE1 hmod
    rw [if_neg (by decide), hIF1, hIE1, hmod]
    exact xor_two_pow_and _ _ _ h
  · simp only [CPU.IF, CPU.set_IF, if_true, Nat.one_shiftLeft]
    simp only [CPU.IF] at hIF1 hmod
    rw [hIF1, hmod]
  · simp only [CPU.IE, CPU.set_IF]
    rw [if_neg (by decide)]
    simp only [CPU.IE] at hIE1
    exact hIE1

theorem service_all_single (s s1 : State) (i : Nat) (l : List Nat) (hl : i ∈ l) (hi : i < 8)
    (hIF : CPU.IF s < 256) (h : CPU.IF s &&& CPU.IE s = 2 ^ i)
    (hpush : CPU.push s .PC = .ok s1) (hregs : s1.mem.registers = s.mem.registers) :
    ∃ s', CPU.service_all s l = .ok s' ∧
      s'.regs = s1.regs.set16 .PC (0x40 + 8 * i) ∧
      s'.mem.memory = s1.mem.memory ∧
      CPU.IF s' = CPU.IF s ^^^ 2 ^ i ∧ CPU.IE s' = CPU.IE s ∧
      s'.cpu = { s1.cpu with IME := false } := by
  induction l with
  | nil => cases hl
  | cons j rest ih =>
    by_cases e : j = i
    · subst e
      exact service_all_hit s s1 j rest hi hIF h hpush hregs
    · rw [service_all_skip s j rest (by rw [h, two_pow_and_one_shiftLeft, if_neg e])]
      exact ih (List.mem_of_ne_of_mem (Ne.symm e) hl)

theorem service_halted (s s' : State) (i : Nat) (h : CPU.service s i = .ok s') :
    s'.cpu.halted = s.cpu.halted := by
  unfold CPU.service at h
  split at h
  · split at h
    · cases h
    · rename_i s1 hp
      cases h
      show s1.cpu.halted = s.cpu.halted
      rw [(push_cpu s s1 .PC hp).1]
  · cases h; rfl

theorem service_all_halted (l : List Nat) (s s' : State) (h : CPU.service_all s l = .ok s') :
    s'.cpu.halted = s.cpu.halted := by
  induction l generalizing s with
  | nil => cases h; rfl
  | cons j rest ih =>
    unfold CPU.service_all at h
    split at h
    · cases h
    · rename_i s1 h1
      rw [ih s1 h, service_halted s s1 j h1]

/-- C17 (amended). The method `handle_interrupts` returns the state unchanged if
`IF = 0`, or if `IME` is clear and the CPU is not halted. Otherwise every state it
returns has
`halted` clear, and when `IF & IE` is exactly the bit `i` (`i < 5`) and the two bytes
below `SP` can be written (the address `SP - 2` is accepted by `operator[]`, is
outside the I/O bank and is at or above 0x8000), it returns with `halted` and `IME`
clear, `SP` decreased by 2, the old `PC` stored little-endian at the new `SP`,
`PC = 0x40 + 8 i`, bit `i` of `IF` clear, every other bit of `IF` as before and `IE`
as before. -/
theorem handle_interrupts_single (s : State) :
    ((CPU.IF s = 0 ∨ (s.cpu.IME = false ∧ s.cpu.halted = false)) →
      CPU.handle_interrupts s = .ok s) ∧
    (CPU.IF s ≠ 0 → (s.cpu.IME = true ∨ s.cpu.halted = true) →
      (∀ s', CPU.handle_interrupts s = .ok s' → s'.cpu.halted = false) ∧
      (∀ i, i < 5 → CPU.IF s < 256 → CPU.IF s &&& CPU.IE s = 2 ^ i →
        (s.regs.SP + 65534) % 65536 ≠ 0xABCD →
        (s.regs.SP + 65534) % 65536 &&& 0xFF80 ≠ 0xFF00 →
        (s.regs.SP + 65534) % 65536 ≠ 0xFFFF →
        (s.regs.SP + 65534) % 65536 &&& 0x8000 ≠ 0 →
        ∃ s', CPU.handle_interrupts s = .ok s' ∧
          s'.cpu.halted = false ∧ s'.cpu.IME = false ∧
          s'.regs.SP = (s.regs.SP + 65534) % 65536 ∧
          s'.mem.memory s'.regs.SP = s.regs.PC % 256 ∧
          s'.mem.memory (s'.regs.SP + 1) = s.regs.PC / 256 % 256 ∧
          s'.regs.PC = 0x40 + 8 * i ∧
          CPU.IF s' &&& (1 <<< i) = 0 ∧
          (∀ j, j ≠ i → CPU.IF s' &&& (1 <<< j) = CPU.IF s &&& (1 <<< j)) ∧
          CPU.IE s' = CPU.IE s)) := by
  refine ⟨?_, ?_⟩
  · rintro (h | ⟨h1, h2⟩)
    · unfold CPU.handle_interrupts
      rw [if_pos h]
    · unfold CPU.handle_interrupts
      rw [h1, h2]
      split_ifs <;> first | rfl | (exfalso; revert ‹¬(!false && !false) = true›; decide)
  · intro h0 hen
    have hcond : ¬ ((!s.cpu.halted && !s.cpu.IME) = true) := by
      rcases hen with h | h <;> rw [h] <;> simp
    have hrun : CPU.handle_interrupts s =
        CPU.service_all { s with cpu := { s.cpu with halted := false } } [0, 1, 2, 3, 4] := by
      unfold CPU.handle_interrupts
      rw [if_neg h0, if_neg hcond]
    refine ⟨fun s' h => ?_, ?_⟩
    · rw [hrun] at h
      exact service_all_halted _ _ _ h
    · intro i hi hIF hbit a1 a2 a3 a4
      have e : s.regs.SP + 65536 - 2 = s.regs.SP + 65534 := by omega
      obtain ⟨s1, hp, hr1, hc1, hg1, hm1, hm2⟩ :=
        push_ok { s with cpu := { s.cpu with halted := false } } .PC
          (by rw [e]; exact a1) (by rw [e]; exact a2) (by rw [e]; exact a3)
          (by rw [e]; exact a4)
      obtain ⟨s', hs, hr, hm, hif, hie, hc⟩ :=
        service_all_single { s with cpu := { s.cpu with halted := false } } s1 i
          [0, 1, 2, 3, 4] (by interval_cases i <;> decide) (by omega) hIF hbit hp hg1
      have hSP : s'.regs.SP = (s.regs.SP + 65534) % 65536 := by
        rw [hr, hr1, ← e]; simp only [RegisterFile.set16]
      have hb := testBit_of_and_eq_two_pow _ _ _ hbit
      refine ⟨s', hrun.trans hs, ?_, ?_, hSP, ?_, ?_, ?_, ?_, ?_, hie⟩
      · rw [hc, hc1]
      · rw [hc]
      · rw [hSP, hm, ← e, hm1, if_neg (by decide), get16_PC_set16_SP]
      · rw [hSP, hm, ← e, hm2, if_neg (by decide), get16_PC_set16_SP]
      · rw [hr, hr1]
        simp only [RegisterFile.set16]
        omega
      · rw [hif]; exact xor_two_pow_and_self _ _ hb.1
      · intro j hj
        rw [hif]; exact xor_two_pow_and_other _ _ _ hj

set_option maxRecDepth 8192 in
/-- C17 (witness). With `IF = IE = 0x04`, `IME` set, `PC = 0x1234`, `SP = 0xD000`,
`handle_interrupts` leaves `PC = 0x50`, `SP = 0xCFFE`, the bytes `0x34`, `0x12` at
`0xCFFE`, `0xCFFF`, `IME` clear and bit 2 of `IF` clear. -/
theorem handle_interrupts_single_witness :
    ∃ s', CPU.handle_interrupts
        ({ State.init with
          regs := { RegisterFile.init with PC := 0x1234, SP := 0xD000 } }.with_interrupts
            0x04 0x04) = .ok s' ∧
      s'.cpu.IME = false ∧ s'.regs.SP = 0xCFFE ∧ s'.mem.memory 0xCFFE = 0x34 ∧
      s'.mem.memory 0xCFFF = 0x12 ∧ s'.regs.PC = 0x50 ∧ CPU.IF s' &&& 0x04 = 0 := by
  obtain ⟨s', h, -, hime, hsp, hm1, hm2, hpc, hif, -, -⟩ :=
    (handle_interrupts_single
      ({ State.init with
        regs := { RegisterFile.init with PC := 0x1234, SP := 0xD000 } }.with_interrupts
          0x04 0x04)).2 (by decide) (Or.inl rfl) |>.2 2 (by decide) (by decide) (by decide)
      (by decide) (by decide) (by decide) (by decide)
  rw [hsp] at hm1 hm2
  exact ⟨s', h, hime, hsp, hm1, hm2, hpc, hif⟩

set_option maxRecDepth 8192 in
/-- C17 (counterexample). With `IF = IE = 0x04` (exactly bit 2 pending), `IME` set and
`PC = 0x1234`, `handle_interrupts` does not return when the push of `PC` throws: with
`SP = 0xABCF` the slot `SP - 2` is the address `0xABCD` that `operator[]` rejects, with
`SP = 0x4002` it lies below 0x8000 (a write to ROM without the debug flag), and with
`SP = 0xFF12` it lies in the I/O bank (no word access). -/
theorem handle_interrupts_push_fails :
    CPU.handle_interrupts
        ({ State.init with
          regs := { RegisterFile.init with PC := 0x1234, SP := 0xABCF } }.with_interrupts
            0x04 0x04) = .error .AssertionFailed ∧
      CPU.handle_interrupts
        ({ State.init with
          regs := { RegisterFile.init with PC := 0x1234, SP := 0x4002 } }.with_interrupts
            0x04 0x04) = .error .IllegalRomWrite ∧
      CPU.handle_interrupts
        ({ State.init with
          regs := { RegisterFile.init with PC := 0x1234, SP := 0xFF12 } }.with_interrupts
            0x04 0x04) = .error .WordOnIoRegister ∧
      CPU.IF ({ State.init with
          regs := { RegisterFile.init with PC := 0x1234, SP := 0xABCF } }.with_interrupts
            0x04 0x04) &&&
        CPU.IE ({ State.init with
          regs := { RegisterFile.init with PC := 0x1234, SP := 0xABCF } }.with_interrupts
            0x04 0x04) = 2 ^ 2 ∧
      State.init.cpu.IME = true :=
  ⟨rfl, rfl, rfl, by decide, rfl⟩

/-! ## `CPU::push` followed by `CPU::pop` -/

/-- What `CPU::pop` leaves when the word at `SP` can be read. -/
theorem pop_ok (s : State) (r : WordRegister) (h1 : s.regs.SP ≠ 0xABCD)
    (h2 : s.regs.SP &&& 0xFF80 ≠ 0xFF00) (h3 : s.regs.SP ≠ 0xFFFF) :
    ∃ s2, CPU.pop s r = .ok s2 ∧
      s2.regs = (s.regs.set16 r
          (s.mem.memory s.regs.SP + s.mem.memory (s.regs.SP + 1) * 256)).set16 .SP
        ((s.regs.set16 r
          (s.mem.memory s.regs.SP + s.mem.memory (s.regs.SP + 1) * 256)).SP + 2) := by
  unfold CPU.pop
  rw [read_word_ok _ _ h1 h2 h3]
  exact ⟨_, rfl, rfl⟩

theorem get16_set16_SP (r0 : RegisterFile) (v : Nat) (r : WordRegister)
    (h : r ≠ WordRegister.SP) : (r0.set16 .SP v).get16 r = r0.get16 r := by
  cases r <;> first | rfl | exact absurd rfl h

theorem get16_set16_pair (r0 : RegisterFile) (r : WordRegister) (w v : Nat)
    (h : r = .AF ∨ r = .BC ∨ r = .DE ∨ r = .HL) :
    ((r0.set16 r w).set16 .SP v).get16 r = w % 65536 / 256 * 256 + w % 256 ∧
    ((r0.set16 r w).set16 .SP v).SP = v % 65536 ∧ (r0.set16 r w).SP = r0.SP := by
  rcases h with h | h | h | h <;> subst h <;> exact ⟨rfl, rfl, rfl⟩

theorem get16_lt (r0 : RegisterFile) (h : r0.wf) (r : WordRegister) : r0.get16 r < 65536 := by
  obtain ⟨hA, hF, hB, hC, hD, hE, hH, hL, hSP, hPC, hG⟩ := h
  cases r <;> simp only [RegisterFile.get16] <;> omega

theorem set16_wf (r0 : RegisterFile) (h : r0.wf) (r : WordRegister) (v : Nat) :
    (r0.set16 r v).wf := by
  obtain ⟨hA, hF, hB, hC, hD, hE, hH, hL, hSP, hPC, hG⟩ := h
  cases r <;> simp only [RegisterFile.set16, RegisterFile.wf] <;>
    refine ⟨?_, ?_, ?_, ?_, ?_, ?_, ?_, ?_, ?_, ?_, ?_⟩ <;> omega

theorem and_0xFFF0 (x : Nat) (hx : x < 65536) : x &&& 0xFFF0 = x / 16 * 16 := by
  have h0 : (x &&& 0xFFF0) % 16 = 0 := by
    have := Nat.and_pow_two_sub_one_eq_mod (x &&& 0xFFF0) 4
    simp only [Nat.reducePow, Nat.reduceSub] at this
    rw [← this, Nat.and_assoc]
    have : (0xFFF0 : Nat) &&& 15 = 0 := by decide
    rw [this, Nat.and_zero]
  have h1 : (x &&& 0xFFF0) / 16 = x / 16 := by
    have e : (x &&& 0xFFF0) >>> 4 = x >>> 4 := by
      apply Nat.eq_of_testBit_eq
      intro j
      simp only [Nat.testBit_shiftRight, Nat.testBit_and]
      by_cases hj : j < 12
      · have : (0xFFF0 : Nat).testBit (4 + j) = true := by interval_cases j <;> decide
        rw [this, Bool.and_true]
      · have h16 : (65536 : Nat) = 2 ^ 16 := by decide
        have : x.testBit (4 + j) = false :=
          Nat.testBit_lt_two_pow (lt_of_lt_of_le (h16 ▸ hx)
            (Nat.pow_le_pow_right (by decide) (by omega)))
        rw [this, Bool.false_and]
    simpa only [Nat.shiftRight_eq_div_pow, Nat.reducePow] using e
  omega

set_option maxRecDepth 100000 in
theorem and_0xF0_nibbles :
    ∀ F, F < 256 → (F / 16 * 16) &&& 0xF0 = F &&& 0xF0 ∧ (F / 16 * 16) &&& 0x0F = 0 ∧
      F / 16 * 16 = F &&& 0xF0 := by
  decide

/-- The round trip `push(r); pop(r)` from a state whose stack slot can be written: the
word pushed is `w`, and `pop` stores it back and restores `SP`. -/
theorem push_pop (s : State) (r : WordRegister) (hwf : s.regs.wf)
    (hr : r = .AF ∨ r = .BC ∨ r = .DE ∨ r = .HL)
    (h1 : (s.regs.SP + 65534) % 65536 ≠ 0xABCD)
    (h2 : (s.regs.SP + 65534) % 65536 &&& 0xFF80 ≠ 0xFF00)
    (h3 : (s.regs.SP + 65534) % 65536 ≠ 0xFFFF)
    (h4 : (s.regs.SP + 65534) % 65536 &&& 0x8000 ≠ 0) :
    ∃ s1 s2 w, CPU.push s r = .ok s1 ∧ CPU.pop s1 r = .ok s2 ∧
      w = (if r = .AF then s.regs.get16 r &&& 0xFFF0 else s.regs.get16 r) ∧
      s1.regs.SP = (s.regs.SP + 65534) % 65536 ∧
      s1.mem.memory s1.regs.SP = w % 256 ∧
      s1.mem.memory (s1.regs.SP + 1) = w / 256 ∧
      s2.regs.get16 r = w ∧ s2.regs.SP = s.regs.SP ∧ s2.regs.wf := by
  have e : s.regs.SP + 65536 - 2 = s.regs.SP + 65534 := by omega
  have hne : r ≠ WordRegister.SP := by
    rcases hr with h | h | h | h <;> rw [h] <;> decide
  obtain ⟨s1, hp, hr1, -, -, hm1, hm2⟩ :=
    push_ok s r (by rw [e]; exact h1) (by rw [e]; exact h2) (by rw [e]; exact h3)
      (by rw [e]; exact h4)
  rw [get16_set16_SP _ _ _ hne, e] at hm1 hm2
  have hSP1 : s1.regs.SP = (s.regs.SP + 65534) % 65536 := by
    rw [hr1, SP_set16_SP, e]
  obtain ⟨s2, hq, hr2⟩ :=
    pop_ok s1 r (by rw [hSP1]; exact h1) (by rw [hSP1]; exact h2) (by rw [hSP1]; exact h3)
  obtain ⟨g1, g2, g3⟩ := get16_set16_pair s1.regs r
    (s1.mem.memory s1.regs.SP + s1.mem.memory (s1.regs.SP + 1) * 256)
    ((s1.regs.set16 r
      (s1.mem.memory s1.regs.SP + s1.mem.memory (s1.regs.SP + 1) * 256)).SP + 2) hr
  rw [← hr2] at g1 g2
  rw [g3] at g2
  rw [← hSP1] at hm1 hm2
  have hw : (if r = .AF then s.regs.get16 r &&& 0xFFF0 else s.regs.get16 r) < 65536 := by
    split_ifs
    · rw [and_0xFFF0 _ (get16_lt _ hwf r)]
      have := get16_lt _ hwf r
      omega
    · exact get16_lt _ hwf r
  have hsp := hwf.2.2.2.2.2.2.2.2.1
  refine ⟨s1, s2, _, hp, hq, rfl, hSP1, hm1, ?_, ?_, ?_, ?_⟩
  · rw [hm2]; omega
  · rw [g1, hm1, hm2]; omega
  · rw [g2, hSP1]; omega
  · rw [hr2]
    exact set16_wf _ (set16_wf _ (hr1 ▸ set16_wf _ hwf _ _) _ _) _ _

/-- C15 (amended). From a state whose registers hold bytes and words and whose stack
slot `SP - 2` is accepted by `operator[]` (it is not `0xABCD`), lies outside the I/O
bank and is at or above 0x8000: for `r` in `BC`, `DE`, `HL`, `push(r)` then `pop(r)`
both return and leave `r` and `SP` unchanged; `push(AF)` then `pop(AF)` both return
and leave `A`, the high nibble of `F` and `SP` unchanged and the low nibble of `F`
zero; `push` stores the low byte of the word at the decremented `SP` and the high
byte above it. -/
theorem push_pop_round_trip (s : State) (hwf : s.regs.wf)
    (h1 : (s.regs.SP + 65534) % 65536 ≠ 0xABCD)
    (h2 : (s.regs.SP + 65534) % 65536 &&& 0xFF80 ≠ 0xFF00)
    (h3 : (s.regs.SP + 65534) % 65536 ≠ 0xFFFF)
    (h4 : (s.regs.SP + 65534) % 65536 &&& 0x8000 ≠ 0) :
    (∀ r, r = WordRegister.BC ∨ r = WordRegister.DE ∨ r = WordRegister.HL →
      ∃ s1 s2, CPU.push s r = .ok s1 ∧ CPU.pop s1 r = .ok s2 ∧
        s1.regs.SP = (s.regs.SP + 65534) % 65536 ∧
        s1.mem.memory s1.regs.SP = s.regs.get16 r % 256 ∧
        s1.mem.memory (s1.regs.SP + 1) = s.regs.get16 r / 256 ∧
        s2.regs.get16 r = s.regs.get16 r ∧ s2.regs.SP = s.regs.SP) ∧
    (∃ s1 s2, CPU.push s .AF = .ok s1 ∧ CPU.pop s1 .AF = .ok s2 ∧
      s1.regs.SP = (s.regs.SP + 65534) % 65536 ∧
      s1.mem.memory s1.regs.SP = s.regs.F &&& 0xF0 ∧
      s1.mem.memory (s1.regs.SP + 1) = s.regs.A ∧
      s2.regs.A = s.regs.A ∧ s2.regs.F &&& 0xF0 = s.regs.F &&& 0xF0 ∧
      s2.regs.F &&& 0x0F = 0 ∧ s2.regs.SP = s.regs.SP) := by
  constructor
  · intro r hr
    have hne : r ≠ WordRegister.AF := by
      rcases hr with h | h | h <;> rw [h] <;> decide
    obtain ⟨s1, s2, w, hp, hq, hw, hSP1, hm1, hm2, hg, hsp, -⟩ :=
      push_pop s r hwf (Or.inr hr) h1 h2 h3 h4
    rw [if_neg hne] at hw
    subst hw
    exact ⟨s1, s2, hp, hq, hSP1, hm1, hm2, hg, hsp⟩
  · obtain ⟨s1, s2, w, hp, hq, hw, hSP1, hm1, hm2, hg, hsp, hwf2⟩ :=
      push_pop s .AF hwf (Or.inl rfl) h1 h2 h3 h4
    rw [if_pos rfl, and_0xFFF0 _ (get16_lt _ hwf _)] at hw
    have hA := hwf.1
    have hF := hwf.2.1
    have hA2 := hwf2.1
    have hF2 := hwf2.2.1
    obtain ⟨n1, n2, n3⟩ := and_0xF0_nibbles s.regs.F hF
    have hg' : s2.regs.A * 256 + s2.regs.F = w := hg
    have hw' : w = (s.regs.A * 256 + s.regs.F) / 16 * 16 := hw
    have eA : s2.regs.A = s.regs.A := by omega
    have eF : s2.regs.F = s.regs.F / 16 * 16 := by omega
    refine ⟨s1, s2, hp, hq, hSP1, ?_, ?_, eA, ?_, ?_, hsp⟩
    · rw [hm1, ← n3]; omega
    · rw [hm2]; omega
    · rw [eF, n1]
    · rw [eF, n2]

set_option maxRecDepth 8192 in
/-- Witness of C15: from the start-up registers with `SP = 0xD000`, `push(BC)` then
`pop(BC)` leaves `BC = 0x0013` and `SP = 0xD000`, and `push(AF)` then `pop(AF)`
leaves `A = 0x01` and `SP = 0xD000`. -/
theorem push_pop_round_trip_witness :
    (∃ s1 s2, CPU.push { State.init with regs := { RegisterFile.init with SP := 0xD000 } }
        .BC = .ok s1 ∧ CPU.pop s1 .BC = .ok s2 ∧
      s2.regs.get16 .BC = 0x0013 ∧ s2.regs.SP = 0xD000) ∧
    (∃ s1 s2, CPU.push { State.init with regs := { RegisterFile.init with SP := 0xD000 } }
        .AF = .ok s1 ∧ CPU.pop s1 .AF = .ok s2 ∧
      s2.regs.A = 0x01 ∧ s2.regs.SP = 0xD000) := by
  obtain ⟨hr, s1, s2, hp, hq, -, -, -, hA, -, -, hsp⟩ :=
    push_pop_round_trip { State.init with regs := { RegisterFile.init with SP := 0xD000 } }
      (by unfold RegisterFile.wf; decide) (by decide) (by decide) (by decide) (by decide)
  obtain ⟨t1, t2, gp, gq, -, -, -, gv, gsp⟩ := hr .BC (Or.inl rfl)
  exact ⟨⟨t1, t2, gp, gq, gv, gsp⟩, ⟨s1, s2, hp, hq, hA, hsp⟩⟩

set_option maxRecDepth 8192 in
/-- C15 (counterexample). With `SP = 0xABCF` the stack slot is `0xABCD`, `0xABCE`:
both addresses are at or above 0x8000 and outside the I/O bank, yet `push(BC)` fails
with the assertion `addr != 0xABCD` of `operator[]`. -/
theorem push_at_guard_address_fails :
    CPU.push { State.init with regs := { RegisterFile.init with SP := 0xABCF } } .BC
      = .error .AssertionFailed ∧
    (0xABCF + 65534) % 65536 = 0xABCD ∧
    0xABCD &&& 0x8000 ≠ 0 ∧ 0xABCD &&& 0xFF80 ≠ 0xFF00 ∧ 0xABCD ≠ 0xFFFF ∧
    0xABCE &&& 0x8000 ≠ 0 ∧ 0xABCE &&& 0xFF80 ≠ 0xFF00 ∧ 0xABCE ≠ 0xFFFF :=
  ⟨rfl, by decide, by decide, by decide, by decide, by decide, by decide, by decide⟩

/-! ## One iteration of `CPU::run` -/

/-- With no interrupt pending and the processor not halted, `CPU::run` fetches the
opcode at `PC`, increments `PC`, resets `instruction_set` and calls the handler of
the entry. -/
theorem step_fetch (s : State) (op : Nat) (instr : Instruction)
    (hIF : CPU.IF s = 0) (hh : s.cpu.halted = false)
    (hfetch : s.mem.read_byte s.regs.PC = .ok op)
    (hentry : entry s.cpu.instruction_set op = some instr) :
    CPU.step s = instr.run
      { s with regs := s.regs.set16 .PC (s.regs.PC + 1)
               cpu := { s.cpu with instruction_set := 0 } } := by
  unfold CPU.step CPU.handle_interrupts
  rw [if_pos hIF]
  simp only [hh, Bool.false_eq_true, if_false, hfetch, hentry]

theorem toU16_pred (q : Nat) (hq : q < 65536) :
    toU16 (((((q + 1) % 65536 : Nat) : Int)) - 1) = q := by
  unfold toU16
  omega

theorem toU16_lt (x : Int) : toU16 x < 65536 := by
  unfold toU16
  omega

theorem toU16_cast (x : Int) : ((toU16 x : Nat) : Int) = x % 65536 := by
  unfold toU16
  omega

theorem PC_set16_PC (r : RegisterFile) (v : Nat) : (r.set16 .PC v).PC = v % 65536 := rfl

theorem F_set16_PC (r : RegisterFile) (v : Nat) : (r.set16 .PC v).F = r.F := rfl

/-- The handler `JR` when the condition of `args.flag` fails. -/
theorem JR_not_taken (args : InstructionArgs) (s : State)
    (h : args.flag ≠ ANY ∧ CHECK_FLAGS args s.regs.F = false) :
    JR args s = .ok ({ s with regs := s.regs.set16 .PC (s.regs.PC + 1) }, args.cycles) := by
  unfold JR
  dsimp only
  rw [F_set16_PC, if_pos h]

/-- The handler `JR` with a condition when the condition holds and the offset can be
read. -/
theorem JR_taken (args : InstructionArgs) (s : State) (b : Nat)
    (hflag : args.flag ≠ ANY) (h : CHECK_FLAGS args s.regs.F = true)
    (hq : s.regs.PC < 65536)
    (hb : s.mem.read_byte s.regs.PC = .ok b) :
    ∃ s', JR args s = .ok (s', (args.cycles + 4) % 256) ∧
      s'.regs = (s.regs.set16 .PC (s.regs.PC + 1)).set16 .PC
        (toU16 ((((s.regs.PC + 1) % 65536 : Nat) : Int) + toI8 b)) ∧
      s'.mem = s.mem ∧ s'.cpu = s.cpu := by
  unfold JR
  dsimp only
  rw [F_set16_PC, if_neg (by rw [h]; exact fun hh => Bool.noConfusion hh.2), PC_set16_PC,
    toU16_pred _ hq, hb, if_pos hflag]
  exact ⟨_, rfl, rfl, rfl, rfl⟩

/-- One iteration of `CPU::run` on an entry `JR` with a condition. -/
theorem JR_step (s : State) (op b : Nat) (args : InstructionArgs)
    (hentry : entry 0 op = some ⟨.JR, args⟩) (hflag : args.flag ≠ ANY)
    (hcyc : args.cycles = 0x08)
    (hIF : CPU.IF s = 0) (hh : s.cpu.halted = false) (hset : s.cpu.instruction_set = 0)
    (hfetch : s.mem.read_byte s.regs.PC = .ok op) :
    (CHECK_FLAGS args s.regs.F = false →
      ∃ s', CPU.step s = .ok (s', 8) ∧ s'.regs.PC = (s.regs.PC + 2) % 65536 ∧
        s'.regs.F = s.regs.F) ∧
    (CHECK_FLAGS args s.regs.F = true →
      s.mem.read_byte ((s.regs.PC + 1) % 65536) = .ok b →
      ∃ s', CPU.step s = .ok (s', 12) ∧
        (s'.regs.PC : Int) = ((s.regs.PC : Int) + 2 + toI8 b) % 65536 ∧
        s'.regs.F = s.regs.F) := by
  have hstep := step_fetch s op ⟨.JR, args⟩ hIF hh hfetch (by rw [hset]; exact hentry)
  constructor
  · intro hc
    have hj := JR_not_taken args
      { s with regs := s.regs.set16 .PC (s.regs.PC + 1)
               cpu := { s.cpu with instruction_set := 0 } } ⟨hflag, hc⟩
    rw [hcyc] at hj
    refine ⟨_, hstep.trans hj, ?_, rfl⟩
    show ((s.regs.set16 .PC (s.regs.PC + 1)).set16 .PC
      ((s.regs.set16 .PC (s.regs.PC + 1)).PC + 1)).PC = _
    rw [PC_set16_PC, PC_set16_PC]
    omega
  · intro hc hb
    obtain ⟨s', hj, hr, -, -⟩ := JR_taken args
      { s with regs := s.regs.set16 .PC (s.regs.PC + 1)
               cpu := { s.cpu with instruction_set := 0 } } b hflag hc
      (Nat.mod_lt _ (by decide)) hb
    rw [hcyc] at hj
    refine ⟨s', hstep.trans hj, ?_, ?_⟩
    · rw [hr, PC_set16_PC, Nat.mod_eq_of_lt (toU16_lt _), toU16_cast]
      show (((((s.regs.PC + 1) % 65536 + 1) % 65536 : Nat) : Int) + toI8 b) % 65536 = _
      omega
    · rw [hr]
      rfl

set_option maxRecDepth 100000 in
theorem CHECK_FLAGS_conditions :
    ∀ F, F < 256 → F &&& 0x0F = 0 →
      (CHECK_FLAGS ⟨.unused, .unused, .unused16, .unused16, 0x00, NONZERO, 0x08⟩ F = true ↔
        F &&& ZERO = 0) ∧
      (CHECK_FLAGS ⟨.unused, .unused, .unused16, .unused16, 0x00, ZERO, 0x08⟩ F = true ↔
        F &&& ZERO ≠ 0) ∧
      (CHECK_FLAGS ⟨.unused, .unused, .unused16, .unused16, 0x00, NOCARRY, 0x08⟩ F = true ↔
        F &&& CARRY = 0) ∧
      (CHECK_FLAGS ⟨.unused, .unused, .unused16, .unused16, 0x00, CARRY, 0x08⟩ F = true ↔
        F &&& CARRY ≠ 0) := by
  decide

set_option maxRecDepth 8192 in
/-- C14 (amended). For each conditional JR opcode (0x20 NZ, 0x28 Z, 0x30 NC, 0x38 C),
every address `p` at which `operator[]` lets the opcode be read (so `p` is not
`0xABCD`) and every `F` whose low nibble is zero, with no interrupt pending and the
processor not halted, one iteration of `CPU::run` at `PC = p` leaves `F` unchanged
and: when the tested condition fails, `PC = (p + 2) mod 65536` with 8 cycles, and the
offset is not read; when it holds and the byte `b` can be read at `(p + 1) mod 65536`
(so `p + 1` is not `0xABCD`), `PC = (p + 2 + e) mod 65536` with 12 cycles, where `e`
is `b` as a signed 8-bit value. -/
theorem JR_conditional (s : State) (op b : Nat)
    (hop : op = 0x20 ∨ op = 0x28 ∨ op = 0x30 ∨ op = 0x38)
    (hIF : CPU.IF s = 0) (hh : s.cpu.halted = false) (hset : s.cpu.instruction_set = 0)
    (hF : s.regs.F < 256) (hlow : s.regs.F &&& 0x0F = 0)
    (hfetch : s.mem.read_byte s.regs.PC = .ok op) :
    (¬ ((op = 0x20 ∧ s.regs.F &&& ZERO = 0) ∨ (op = 0x28 ∧ s.regs.F &&& ZERO ≠ 0) ∨
        (op = 0x30 ∧ s.regs.F &&& CARRY = 0) ∨ (op = 0x38 ∧ s.regs.F &&& CARRY ≠ 0)) →
      ∃ s', CPU.step s = .ok (s', 8) ∧ s'.regs.PC = (s.regs.PC + 2) % 65536 ∧
        s'.regs.F = s.regs.F) ∧
    (((op = 0x20 ∧ s.regs.F &&& ZERO = 0) ∨ (op = 0x28 ∧ s.regs.F &&& ZERO ≠ 0) ∨
        (op = 0x30 ∧ s.regs.F &&& CARRY = 0) ∨ (op = 0x38 ∧ s.regs.F &&& CARRY ≠ 0)) →
      s.mem.read_byte ((s.regs.PC + 1) % 65536) = .ok b →
      ∃ s', CPU.step s = .ok (s', 12) ∧
        (s'.regs.PC : Int) = ((s.regs.PC : Int) + 2 + toI8 b) % 65536 ∧
        s'.regs.F = s.regs.F) := by
  obtain ⟨c20, c28, c30, c38⟩ := CHECK_FLAGS_conditions s.regs.F hF hlow
  rcases hop with h | h | h | h <;> subst h
  · obtain ⟨n, t⟩ := JR_step s 0x20 b _ rfl (by decide) rfl hIF hh hset hfetch
    refine ⟨fun hc => n ?_, fun hc => t ?_⟩
    · rw [Bool.eq_false_iff, Ne, c20]; exact fun h => hc (Or.inl ⟨rfl, h⟩)
    · rcases hc with ⟨-, h⟩ | ⟨h, -⟩ | ⟨h, -⟩ | ⟨h, -⟩
      · exact c20.mpr h
      all_goals exact absurd h (by decide)
  · obtain ⟨n, t⟩ := JR_step s 0x28 b _ rfl (by decide) rfl hIF hh hset hfetch
    refine ⟨fun hc => n ?_, fun hc => t ?_⟩
    · rw [Bool.eq_false_iff, Ne, c28]; exact fun h => hc (Or.inr (Or.inl ⟨rfl, h⟩))
    · rcases hc with ⟨h, -⟩ | ⟨-, h⟩ | ⟨h, -⟩ | ⟨h, -⟩
      · exact absurd h (by decide)
      · exact c28.mpr h
      all_goals exact absurd h (by decide)
  · obtain ⟨n, t⟩ := JR_step s 0x30 b _ rfl (by decide) rfl hIF hh hset hfetch
    refine ⟨fun hc => n ?_, fun hc => t ?_⟩
    · rw [Bool.eq_false_iff, Ne, c30]
      exact fun h => hc (Or.inr (Or.inr (Or.inl ⟨rfl, h⟩)))
    · rcases hc with ⟨h, -⟩ | ⟨h, -⟩ | ⟨-, h⟩ | ⟨h, -⟩
      · exact absurd h (by decide)
      · exact absurd h (by decide)
      · exact c30.mpr h
      · exact absurd h (by decide)
  · obtain ⟨n, t⟩ := JR_step s 0x38 b _ rfl (by decide) rfl hIF hh hset hfetch
    refine ⟨fun hc => n ?_, fun hc => t ?_⟩
    · rw [Bool.eq_false_iff, Ne, c38]
      exact fun h => hc (Or.inr (Or.inr (Or.inr ⟨rfl, h⟩)))
    · rcases hc with ⟨h, -⟩ | ⟨h, -⟩ | ⟨h, -⟩ | ⟨-, h⟩
      · exact absurd h (by decide)
      · exact absurd h (by decide)
      · exact absurd h (by decide)
      · exact c38.mpr h

set_option maxRecDepth 8192 in
/-- Witness of C14, the spec's scenarios 4 and 5: with `PC = 0x2000` and the bytes
`0x28 0x05` (`jr z, +5`) at `0x2000`, one iteration leaves `PC = 0x2002` after 8
cycles when `F = 0x00` and `PC = 0x2007` after 12 cycles when `F = 0x80`. -/
theorem JR_conditional_witness :
    (∃ s', CPU.step
        { State.init with
          regs := { RegisterFile.init with F := 0x00, PC := 0x2000 }
          mem := { Memory.init with
            memory := fun a => if a = 0x2000 then 0x28 else if a = 0x2001 then 0x05 else 0 } }
        = .ok (s', 8) ∧ s'.regs.PC = 0x2002) ∧
    (∃ s', CPU.step
        { State.init with
          regs := { RegisterFile.init with F := 0x80, PC := 0x2000 }
          mem := { Memory.init with
            memory := fun a => if a = 0x2000 then 0x28 else if a = 0x2001 then 0x05 else 0 } }
        = .ok (s', 12) ∧ s'.regs.PC = 0x2007) := by
  constructor
  · obtain ⟨s', h, hpc, -⟩ :=
      (JR_conditional
        { State.init with
          regs := { RegisterFile.init with F := 0x00, PC := 0x2000 }
          mem := { Memory.init with
            memory := fun a => if a = 0x2000 then 0x28 else if a = 0x2001 then 0x05 else 0 } }
        0x28 0x05 (by decide) rfl rfl rfl (by decide) (by decide) rfl).1 (by decide)
    exact ⟨s', h, hpc⟩
  · obtain ⟨s', h, hpc, -⟩ :=
      (JR_conditional
        { State.init with
          regs := { RegisterFile.init with F := 0x80, PC := 0x2000 }
          mem := { Memory.init with
            memory := fun a => if a = 0x2000 then 0x28 else if a = 0x2001 then 0x05 else 0 } }
        0x28 0x05 (by decide) rfl rfl rfl (by decide) (by decide) rfl).2 (by decide) rfl
    refine ⟨s', h, ?_⟩
    have e : ((0x2000 : Nat) : Int) + 2 + toI8 0x05 = 0x2007 := by decide
    have hpc' : (s'.regs.PC : Int) = (((0x2000 : Nat) : Int) + 2 + toI8 0x05) % 65536 := hpc
    rw [e] at hpc'
    omega

set_option maxRecDepth 8192 in
/-- C14 (counterexample). With `PC = 0xABCD`, `F = 0x80`, the bytes `0x28 0x05`
(`jr z, +5`) in the array at `0xABCD`, `0xABCE`, no interrupt pending and the
processor not halted, one iteration of `CPU::run` fails with the assertion
`addr != 0xABCD` of `operator[]` when it fetches the opcode, where the claim gives
`PC = 0xABD4` and 12 cycles. -/
theorem JR_at_guard_address_fails :
    ∃ s : State, s.regs.PC = 0xABCD ∧ s.regs.F = 0x80 ∧ s.regs.F &&& 0x0F = 0 ∧
      s.mem.memory 0xABCD = 0x28 ∧ s.mem.memory 0xABCE = 0x05 ∧
      CPU.IF s = 0 ∧ s.cpu.halted = false ∧
      CPU.step s = .error .AssertionFailed :=
  ⟨{ State.init with
      regs := { RegisterFile.init with F := 0x80, PC := 0xABCD }
      mem := { Memory.init with
        memory := fun a => if a = 0xABCD then 0x28 else if a = 0xABCE then 0x05 else 0 } },
    rfl, rfl, by decide, rfl, rfl, rfl, rfl, rfl⟩

/-! ## `MVSP` -/

set_option maxRecDepth 8192 in
/-- C21 (the code diverges). With `SP = 0x1000`, `PC = 0xC000` and the immediate
`0xFF` at `0xC000`, the handler of opcode 0xF8 leaves `HL = 0x10FF`, `SP = 0x1000`
and `PC = 0xC001`: it adds the byte as the unsigned value 255, where the signed
value of `0xFF` is -1 and `SP - 1` is `0x0FFF`. The handlers `ADDS` and `JR` cast
the byte they read to `i8`; `MVSP` does not. -/
theorem MVSP_adds_unsigned_byte :
    ∃ i r, entry 0 0xF8 = some i ∧ i.fn = Op.MVSP ∧
      regs_after (i.run
        { State.init with
          regs := { RegisterFile.init with SP := 0x1000, PC := 0xC000 }
          mem := { Memory.init with memory := fun a => if a = 0xC000 then 0xFF else 0 } })
        = some r ∧
      r.get16 .HL = 0x10FF ∧ r.SP = 0x1000 ∧ r.PC = 0xC001 ∧
      toI8 0xFF = -1 ∧ toU16 (0x1000 + toI8 0xFF) = 0x0FFF ∧
      r.get16 .HL ≠ toU16 (0x1000 + toI8 0xFF) :=
  ⟨_, _, rfl, rfl, rfl, rfl, rfl, rfl, by decide, by decide, by decide⟩

/-! ## I/O register slots that were never registered -/

theorem io_bank_ne_guard (a : Nat) (ha : a &&& 0xFF80 = 0xFF00 ∨ a = 0xFFFF) :
    a ≠ 0xABCD := by
  rintro rfl
  rcases ha with h | h
  · exact absurd h (by decide)
  · exact absurd h (by decide)

theorem select_io_bank (a : Nat) (ha : a &&& 0xFF80 = 0xFF00 ∨ a = 0xFFFF) :
    Memory.select a = .ok (some (if a = 0xFFFF then 0x80 else a &&& 0xFF)) := by
  unfold Memory.select
  rw [if_neg (io_bank_ne_guard a ha)]
  by_cases h : a &&& 0xFF80 = 0xFF00
  · have hne : a ≠ 0xFFFF := by
      rintro rfl; exact absurd h (by decide)
    rw [if_pos h, if_neg hne]
  · have he : a = 0xFFFF := ha.resolve_left h
    rw [if_neg h, if_pos he, if_pos he]

/-- C22. For every address `a` of the I/O bank (`(a & 0xFF80) == 0xFF00`, or
`a == 0xFFFF`) whose register slot is not initialised, `read_byte` at `a` returns
`0xFF`, and `write_byte` at `a` returns for every `v` and leaves the whole memory,
the array and every register slot, as it was. -/
theorem uninitialised_io_register (m : Memory) (a v : Nat)
    (ha : a &&& 0xFF80 = 0xFF00 ∨ a = 0xFFFF)
    (hreg : (m.registers (if a = 0xFFFF then 0x80 else a &&& 0xFF)).initialized = false) :
    m.read_byte a = .ok 0xFF ∧ m.write_byte a v = .ok m := by
  constructor
  · unfold Memory.read_byte
    rw [select_io_bank a ha]
    simp only [hreg, Bool.not_false, if_true]
  · unfold Memory.write_byte
    rw [select_io_bank a ha]
    simp only [hreg, Bool.not_false, if_true]

set_option maxRecDepth 8192 in
/-- Witness of C22: in the start-up memory no slot is registered; reading `0xFF10`
gives `0xFF` and writing `0x55` there changes nothing. -/
theorem uninitialised_io_register_witness :
    Memory.init.read_byte 0xFF10 = .ok 0xFF ∧
    Memory.init.write_byte 0xFF10 0x55 = .ok Memory.init :=
  uninitialised_io_register Memory.init 0xFF10 0x55 (Or.inl (by decide)) rfl

/-! ## Word accesses next to the I/O bank -/

/-- C23 (counterexample). The word at `0xFEFF` has its second byte at the I/O
address `0xFF00`, and the word at `0xFFFE` has its second byte at `0xFFFF`; yet
`read_word` returns the two bytes of the raw array and `write_word` stores into the
raw array at `0xFF00` and at `0xFFFF`, where the claim gives `WordOnIoRegister`. -/
theorem word_access_straddles_io_bank :
    ({ Memory.init with
        memory := fun a => if a = 0xFEFF then 0x34 else if a = 0xFF00 then 0x12 else 0 }
      ).read_word 0xFEFF = .ok 0x1234 ∧
    (∃ m, Memory.init.write_word 0xFEFF 0xBEEF = .ok m ∧
      m.memory 0xFEFF = 0xEF ∧ m.memory 0xFF00 = 0xBE) ∧
    (∃ m, Memory.init.write_word 0xFFFE 0xBEEF = .ok m ∧
      m.memory 0xFFFE = 0xEF ∧ m.memory 0xFFFF = 0xBE) ∧
    0xFF00 &&& 0xFF80 = 0xFF00 :=
  ⟨rfl, ⟨_, rfl, rfl, rfl⟩, ⟨_, rfl, rfl, rfl⟩, by decide⟩

theorem select_not_io_bank (a : Nat) (h0 : a ≠ 0xABCD)
    (ha : ¬ (a &&& 0xFF80 = 0xFF00 ∨ a = 0xFFFF)) : Memory.select a = .ok none := by
  unfold Memory.select
  rw [if_neg h0, if_neg (fun h => ha (Or.inl h)), if_neg (fun h => ha (Or.inr h))]

/-- C23 (amended). For every address `a` that `operator[]` accepts: `read_word` and
`write_word` at `a` fail with `WordOnIoRegister` when `a` itself lies in the I/O
bank; otherwise `read_word` returns the little-endian word of the raw array at `a`
and `a + 1`, and `write_word`, when the debug flag is set or `a` is at or above
0x8000, stores the word in the raw array at `a` and `a + 1` and leaves every register
slot as it was. The address `a + 1` is not examined. -/
theorem word_access (m : Memory) (a w : Nat) (h0 : a ≠ 0xABCD) :
    ((a &&& 0xFF80 = 0xFF00 ∨ a = 0xFFFF) →
      m.read_word a = .error .WordOnIoRegister ∧
      m.write_word a w = .error .WordOnIoRegister) ∧
    (¬ (a &&& 0xFF80 = 0xFF00 ∨ a = 0xFFFF) →
      m.read_word a = .ok (m.memory a + m.memory (a + 1) * 256) ∧
      (m.debug = true ∨ a &&& 0x8000 ≠ 0 →
        ∃ m', m.write_word a w = .ok m' ∧ m'.memory a = w % 256 ∧
          m'.memory (a + 1) = w / 256 % 256 ∧
          (∀ x, x ≠ a → x ≠ a + 1 → m'.memory x = m.memory x) ∧
          m'.registers = m.registers)) := by
  constructor
  · intro ha
    unfold Memory.read_word Memory.write_word
    rw [select_io_bank a ha]
    exact ⟨rfl, rfl⟩
  · intro ha
    unfold Memory.read_word Memory.write_word
    rw [select_not_io_bank a h0 ha]
    refine ⟨rfl, fun hw => ?_⟩
    have hc : (m.debug || (a &&& 0x8000 != 0)) = true := by
      rcases hw with h | h
      · rw [h]; rfl
      · simp only [Bool.or_eq_true, bne_iff_ne, ne_eq]
        exact Or.inr h
    simp only [hc, if_true]
    refine ⟨_, rfl, ?_, ?_, ?_, rfl⟩
    · simp only [if_true]
    · simp only [Nat.succ_ne_self, if_false, if_true]
    · intro x hx hx'
      simp only [hx, hx', if_false]

/-- Witness of C23: in the start-up memory, the word accesses at `0xFF10` fail with
`WordOnIoRegister`, and the word read at `0xC000` returns the array's word. -/
theorem word_access_witness :
    (Memory.init.read_word 0xFF10 = .error .WordOnIoRegister ∧
      Memory.init.write_word 0xFF10 0x1234 = .error .WordOnIoRegister) ∧
    Memory.init.read_word 0xC000 = .ok 0 :=
  ⟨(word_access Memory.init 0xFF10 0x1234 (by decide)).1 (Or.inl (by decide)),
   ((word_access Memory.init 0xC000 0x1234 (by decide)).2 (by decide)).1⟩

/-! ## The debug flag and `write_byte` -/

/-- C24 (the code diverges). With the debug flag set, `write_byte` of `0x77` at the
ROM address `0x2000` calls the bank controller, whose default throws: the write
fails with `IllegalRomWrite` and a following `read_byte` still returns the old byte
`0x00`. Only `write_word` examines the flag: with the flag set it stores into the
array at `0x2000`. The debugger's `poke` sets the flag and calls `write_byte`. -/
theorem write_byte_ignores_debug_flag :
    ({ Memory.init with debug := true }).write_byte 0x2000 0x77
      = .error .IllegalRomWrite ∧
    ({ Memory.init with debug := true }).read_byte 0x2000 = .ok 0x00 ∧
    (∃ m, ({ Memory.init with debug := true }).write_word 0x2000 0x77 = .ok m ∧
      m.read_byte 0x2000 = .ok 0x77) ∧
    Memory.init.write_byte 0x2000 0x77 = .error .IllegalRomWrite :=
  ⟨rfl, rfl, ⟨_, rfl, rfl⟩, rfl⟩

/-! ## The pixel FIFO as a bounded queue -/

theorem PixelFIFO.contents_length (f : PixelFIFO) : f.contents.length = f.fifo_size := by
  simp only [PixelFIFO.contents, List.length_map, List.length_range]

theorem PixelFIFO.contents_clear (f : PixelFIFO) : f.clear.contents = [] := rfl

theorem PixelFIFO.push_full (f : PixelFIFO) (v : Nat) (h : f.fifo_size = 16) :
    f.push v = f := by
  unfold PixelFIFO.push
  rw [if_pos h]

theorem PixelFIFO.push_not_full (f : PixelFIFO) (v : Nat) (hs : f.fifo_size < 16) :
    (f.push v).contents = f.contents ++ [v] ∧ (f.push v).fifo_size = f.fifo_size + 1 ∧
      (f.push v).fifo_pos = f.fifo_pos := by
  unfold PixelFIFO.push
  rw [if_neg (by omega)]
  have hsz : (f.fifo_size + 1) % 256 = f.fifo_size + 1 := by omega
  refine ⟨?_, hsz, rfl⟩
  simp only [PixelFIFO.contents, hsz, List.range_succ, List.map_append, List.map_cons,
    List.map_nil, if_true]
  congr 1
  apply List.map_congr_left
  intro i hi
  have hi' : i < f.fifo_size := List.mem_range.mp hi
  rw [if_neg (by omega)]

theorem PixelFIFO.pop_empty (f : PixelFIFO) (h : f.fifo_size = 0) :
    f.pop = .error .PixelFifoEmpty := by
  unfold PixelFIFO.pop
  simp only [h, if_true]

theorem PixelFIFO.pop_not_empty (f : PixelFIFO) (hs : f.fifo_size ≠ 0)
    (hs' : f.fifo_size ≤ 16) (hp : f.fifo_pos < 16) :
    ∃ f', f.pop = .ok (f.pixels f.fifo_pos, f') ∧
      f.contents = f.pixels f.fifo_pos :: f'.contents ∧
      f'.fifo_size + 1 = f.fifo_size ∧ f'.fifo_pos < 16 := by
  unfold PixelFIFO.pop
  simp only [if_neg hs]
  refine ⟨_, rfl, ?_, ?_, ?_⟩
  · obtain ⟨n, hn⟩ : ∃ n, f.fifo_size = n + 1 := ⟨f.fifo_size - 1, by omega⟩
    have hsz : (f.fifo_size + 256 - 1) % 256 = n := by omega
    simp only [PixelFIFO.contents, hsz]
    rw [hn, List.range_succ_eq_map, List.map_cons, List.map_map, Nat.add_zero,
      Nat.mod_eq_of_lt hp]
    congr 1
    apply List.map_congr_left
    intro i _
    simp only [Function.comp_apply]
    congr 1
    omega
  · show (f.fifo_size + 256 - 1) % 256 + 1 = f.fifo_size
    omega
  · show (f.fifo_pos + 1) % 256 % 16 < 16
    omega

/-- Simulation: from a FIFO whose members are in range and a queue holding its
entries, every sequence of calls gives the same results on both and leaves them
related in the same way. -/
theorem PixelFIFO.run_simulates (calls : List FifoCall) (f : PixelFIFO) (q : List Nat)
    (hs : f.fifo_size ≤ 16) (hp : f.fifo_pos < 16) (hq : f.contents = q) :
    (f.run calls).1 = (BoundedQueue.run q calls).1 ∧
    (f.run calls).2.contents = (BoundedQueue.run q calls).2 ∧
    (f.run calls).2.fifo_size ≤ 16 ∧ (f.run calls).2.fifo_pos < 16 := by
  induction calls generalizing f q with
  | nil => exact ⟨rfl, hq, hs, hp⟩
  | cons c rest ih =>
    have hlen : q.length = f.fifo_size := by rw [← hq, PixelFIFO.contents_length]
    cases c with
    | push v =>
      simp only [PixelFIFO.run, BoundedQueue.run]
      by_cases hfull : f.fifo_size = 16
      · have hq' : BoundedQueue.push q v = q := by
          unfold BoundedQueue.push
          rw [if_neg (by omega)]
        rw [PixelFIFO.push_full f v hfull, hq']
        exact ih f q hs hp hq
      · obtain ⟨hc, hsz, hpos⟩ := PixelFIFO.push_not_full f v (by omega)
        have hq' : BoundedQueue.push q v = q ++ [v] := by
          unfold BoundedQueue.push
          rw [if_pos (by omega)]
        rw [hq']
        exact ih (f.push v) (q ++ [v]) (by omega) (by omega) (by rw [hc, hq])
    | pop =>
      simp only [PixelFIFO.run, BoundedQueue.run]
      by_cases hempty : f.fifo_size = 0
      · have hq' : q = [] := List.length_eq_zero.mp (by omega)
        subst hq'
        rw [PixelFIFO.pop_empty f hempty]
        simp only [BoundedQueue.pop]
        obtain ⟨h1, h2, h3, h4⟩ := ih f [] hs hp hq
        exact ⟨by rw [h1], h2, h3, h4⟩
      · obtain ⟨f', hpop, hc, hsz, hpos⟩ := PixelFIFO.pop_not_empty f hempty hs hp
        rw [hpop]
        have hq' : q = f.pixels f.fifo_pos :: f'.contents := by rw [← hq, hc]
        subst hq'
        simp only [BoundedQueue.pop]
        obtain ⟨h1, h2, h3, h4⟩ := ih f' f'.contents (by omega) hpos rfl
        exact ⟨by rw [h1], h2, h3, h4⟩

/-- C30. From `clear()`, after every sequence of `push` and `pop` calls the pixel FIFO
and the bounded queue of capacity 16 have returned the same values and failures to
the `pop` calls, the FIFO holds the entries of the queue in the same order, and
`size()` is the length of the queue and at most 16. In the state reached, `push`
appends at the tail when `size() < 16` and changes nothing when `size() = 16`;
`pop` returns the oldest entry when `size()` is not 0, and throws `PixelFifoEmpty`,
before it changes any member, when `size() = 0`. -/
theorem PixelFIFO_refines_queue (f0 : PixelFIFO) (calls : List FifoCall) :
    (f0.clear.run calls).1 = (BoundedQueue.run [] calls).1 ∧
    (f0.clear.run calls).2.contents = (BoundedQueue.run [] calls).2 ∧
    (f0.clear.run calls).2.size = (BoundedQueue.run [] calls).2.length ∧
    (f0.clear.run calls).2.size ≤ 16 ∧
    (∀ v, (f0.clear.run calls).2.size < 16 →
      ((f0.clear.run calls).2.push v).contents = (f0.clear.run calls).2.contents ++ [v] ∧
      ((f0.clear.run calls).2.push v).size = (f0.clear.run calls).2.size + 1) ∧
    (∀ v, (f0.clear.run calls).2.size = 16 →
      (f0.clear.run calls).2.push v = (f0.clear.run calls).2) ∧
    ((f0.clear.run calls).2.size ≠ 0 →
      ∃ v f', (f0.clear.run calls).2.pop = .ok (v, f') ∧
        (f0.clear.run calls).2.contents = v :: f'.contents ∧
        f'.size + 1 = (f0.clear.run calls).2.size) ∧
    ((f0.clear.run calls).2.size = 0 →
      (f0.clear.run calls).2.pop = .error .PixelFifoEmpty) := by
  obtain ⟨h1, h2, h3, h4⟩ :=
    PixelFIFO.run_simulates calls f0.clear [] (Nat.zero_le _) (Nat.zero_lt_succ 15) rfl
  refine ⟨h1, h2, ?_, h3, ?_, ?_, ?_, ?_⟩
  · rw [← h2, PixelFIFO.contents_length]; rfl
  · intro v hv
    obtain ⟨hc, hsz, -⟩ := PixelFIFO.push_not_full _ v hv
    exact ⟨hc, hsz⟩
  · intro v hv
    exact PixelFIFO.push_full _ v hv
  · intro hne
    obtain ⟨f', hpop, hc, hsz, -⟩ := PixelFIFO.pop_not_empty _ hne h3 h4
    exact ⟨_, f', hpop, hc, hsz⟩
  · intro he
    exact PixelFIFO.pop_empty _ he

/-! ## The timer -/

set_option maxRecDepth 8192 in
/-- C25 (the code diverges). With `TAC = 0x05` (enabled, select 1) and `TIMA = 0x10`:
a tick of 4 cycles from `clock = 0` produces no falling edge of bit 3 (nor of any
bit), yet `TIMA` becomes `0x11`; a tick of 4 cycles from `clock = 0x1C` takes the
counter to `0x20`, a falling edge of bit 3, yet `TIMA` stays `0x10`. The handler
returns when `FALLING_EDGE` holds and increments when it does not, and it tests the
masks 1024, 16, 64, 256 (bits 10, 4, 6, 8). With `TAC = 0x01` (disabled) the same
tick leaves `TIMA = 0x10`. -/
theorem timer_increments_without_falling_edge :
    (∃ t m, Timer.tick ⟨0, 0⟩ (Timer.start_memory 0 0x10 0 0x05 0) 4 = .ok (t, m) ∧
      t.clock = 4 ∧ t.clock_prev = 0 ∧ Timer.TIMA m = 0x11 ∧
      ¬ (t.clock_prev &&& 8 ≠ 0 ∧ t.clock &&& 8 = 0)) ∧
    (∃ t m, Timer.tick ⟨0x1C, 0x18⟩ (Timer.start_memory 0 0x10 0 0x05 0) 4 = .ok (t, m) ∧
      t.clock = 0x20 ∧ t.clock_prev = 0x1C ∧ Timer.TIMA m = 0x10 ∧
      (t.clock_prev &&& 8 ≠ 0 ∧ t.clock &&& 8 = 0)) ∧
    (∃ t m, Timer.tick ⟨0, 0⟩ (Timer.start_memory 0 0x10 0 0x01 0) 4 = .ok (t, m) ∧
      Timer.TIMA m = 0x10) :=
  ⟨⟨_, _, rfl, rfl, rfl, rfl, by decide⟩, ⟨_, _, rfl, rfl, rfl, rfl, by decide⟩,
    ⟨_, _, rfl, rfl⟩⟩

set_option maxRecDepth 8192 in
/-- C26 (the code diverges). With `TMA = 0xAB`, `TAC = 0x05`, `IF = 0x00` and
`clock = 0`: a tick of 4 cycles with `TIMA = 0xFF` increments `TIMA` to `0x00` and
returns, without the reload and with `IF = 0x00`; a tick of 4 cycles with
`TIMA = 0x00` leaves `TIMA = 0xAB` and `IF = 0x04`. The test `if (TIMA++)` reads the
value before the increment. Four ticks of 4 cycles from `TIMA = 0xFF` leave
`TIMA = 0xAD`. -/
theorem timer_reloads_after_zero :
    (∃ t m, Timer.tick ⟨0, 0⟩ (Timer.start_memory 0 0xFF 0xAB 0x05 0) 4 = .ok (t, m) ∧
      Timer.TIMA m = 0x00 ∧ CPU.IF ⟨RegisterFile.init, m, CPU.init⟩ = 0x00) ∧
    (∃ t m, Timer.tick ⟨0, 0⟩ (Timer.start_memory 0 0x00 0xAB 0x05 0) 4 = .ok (t, m) ∧
      Timer.TIMA m = 0xAB ∧ CPU.IF ⟨RegisterFile.init, m, CPU.init⟩ = 0x04) ∧
    (∃ t m, Timer.ticks ⟨0, 0⟩ (Timer.start_memory 0 0xFF 0xAB 0x05 0) [4, 4, 4, 4]
        = .ok (t, m) ∧
      Timer.TIMA m = 0xAD ∧ CPU.IF ⟨RegisterFile.init, m, CPU.init⟩ = 0x04) :=
  ⟨⟨_, _, rfl, rfl, rfl⟩, ⟨_, _, rfl, rfl, rfl⟩, ⟨_, _, rfl, rfl, rfl⟩⟩

set_option maxRecDepth 8192 in
/-- C27 (counterexample). With the counter at `0x1234`, so `DIV = 0x12`, a write of
`0x12` to `0xFF04` is not seen: the next tick of 4 cycles takes the counter to
`0x1238` and leaves `DIV = 0x12`. -/
theorem DIV_write_of_same_value_is_missed :
    ∃ m1 t m, (Timer.start_memory 0x12 0 0 0 0).write_byte 0xFF04 0x12 = .ok m1 ∧
      Timer.tick ⟨0x1234, 0x1230⟩ m1 4 = .ok (t, m) ∧
      t.clock = 0x1238 ∧ m.read_byte 0xFF04 = .ok 0x12 :=
  ⟨_, _, _, rfl, rfl, rfl, rfl⟩

theorem write_byte_direct_slot (m : Memory) (a i v : Nat)
    (hsel : Memory.select a = .ok (some i))
    (hinit : (m.registers i).initialized = true)
    (hcall : (m.registers i).callable = false) :
    ∃ m1, m.write_byte a v = .ok m1 ∧ (m1.registers i).ptr = v ∧
      (∀ j, j ≠ i → m1.registers j = m.registers j) ∧ m1.memory = m.memory := by
  unfold Memory.write_byte
  rw [hsel]
  simp only [hinit, hcall, Bool.not_true, Bool.false_eq_true, if_false]
  refine ⟨_, rfl, ?_, ?_, rfl⟩
  · simp only [if_true]
  · intro j hj
    simp only [hj, if_false]

/-- C27 (amended). With the slot 0x04 registered as the timer registers it, for every
counter value and every byte `v` other than the current `DIV` (the high byte of the
counter): after the write of `v` to `0xFF04`, the next timer tick, of any cycle
count, sets the counter, its previous value and `DIV` to 0 and does nothing else, so
`DIV` then reads 0 and `TIMA`, `TMA`, `TAC` are as before. -/
theorem DIV_write_resets_counter (t : Timer) (m : Memory) (v cycles : Nat)
    (hinit : (m.registers 0x04).initialized = true)
    (hcall : (m.registers 0x04).callable = false)
    (hv : v ≠ t.clock_hi) :
    ∃ m1 t2 m2, m.write_byte 0xFF04 v = .ok m1 ∧
      Timer.tick t m1 cycles = .ok (t2, m2) ∧
      t2.clock = 0 ∧ t2.clock_prev = 0 ∧ m2.read_byte 0xFF04 = .ok 0 ∧
      Timer.TIMA m2 = Timer.TIMA m ∧ Timer.TMA m2 = Timer.TMA m ∧
      Timer.TAC m2 = Timer.TAC m ∧ m2.memory = m.memory := by
  obtain ⟨m1, hw, hp, hothers, hmem⟩ :=
    write_byte_direct_slot m 0xFF04 0x04 v rfl hinit hcall
  have hdiv : Timer.DIV m1 ≠ t.clock_hi := by
    unfold Timer.DIV
    rw [hp]; exact hv
  have hi1 : (m1.registers 0x04).initialized = true := by
    unfold Memory.write_byte at hw
    simp only [show Memory.select 0xFF04 = .ok (some 0x04) from rfl, hinit, hcall,
      Bool.not_true, Bool.false_eq_true, if_false] at hw
    cases hw
    simp only [if_true, hinit]
  have hc1 : (m1.registers 0x04).callable = false := by
    unfold Memory.write_byte at hw
    simp only [show Memory.select 0xFF04 = .ok (some 0x04) from rfl, hinit, hcall,
      Bool.not_true, Bool.false_eq_true, if_false] at hw
    cases hw
    simp only [if_true, hcall]
  refine ⟨m1, ⟨0, 0⟩, m1.set_ptr 0x04 0, hw, ?_, rfl, rfl, ?_, ?_, ?_, ?_, ?_⟩
  · unfold Timer.tick
    rw [if_pos hdiv]
  · unfold Memory.read_byte
    simp only [show Memory.select 0xFF04 = .ok (some 0x04) from rfl, Memory.set_ptr, if_true,
      hi1, hc1, Bool.not_true, Bool.false_eq_true, if_false]
  · show ((m1.set_ptr 0x04 0).registers 0x05).ptr = (m.registers 0x05).ptr
    simp only [Memory.set_ptr]
    rw [if_neg (by decide), hothers 0x05 (by decide)]
  · show ((m1.set_ptr 0x04 0).registers 0x06).ptr = (m.registers 0x06).ptr
    simp only [Memory.set_ptr]
    rw [if_neg (by decide), hothers 0x06 (by decide)]
  · show ((m1.set_ptr 0x04 0).registers 0x07).ptr = (m.registers 0x07).ptr
    simp only [Memory.set_ptr]
    rw [if_neg (by decide), hothers 0x07 (by decide)]
  · show m1.memory = m.memory
    exact hmem

set_option maxRecDepth 8192 in
/-- Witness of C27: with the counter at `0x1234` and `DIV = 0x12`, after a write of
`0x55` to `0xFF04` the next tick of 4 cycles leaves the counter 0 and `DIV` reading
0. -/
theorem DIV_write_resets_counter_witness :
    ∃ m1 t2 m2, (Timer.start_memory 0x12 0 0 0 0).write_byte 0xFF04 0x55 = .ok m1 ∧
      Timer.tick ⟨0x1234, 0x1230⟩ m1 4 = .ok (t2, m2) ∧
      t2.clock = 0 ∧ m2.read_byte 0xFF04 = .ok 0 := by
  obtain ⟨m1, t2, m2, h1, h2, h3, -, h5, -⟩ :=
    DIV_write_resets_counter ⟨0x1234, 0x1230⟩ (Timer.start_memory 0x12 0 0 0 0) 0x55 4
      rfl rfl (by decide)
  exact ⟨m1, t2, m2, h1, h2, h3, h5⟩

/-! ## Frames of the display controller -/

/-- What every body of a `repeat` loop keeps, the loop keeps. -/
theorem repeat_times_keeps {σ : Type} (P : σ → Prop) (f : σ → Except Error σ)
    (hf : ∀ s s', f s = .ok s' → P s → P s') :
    ∀ (n : Nat) (s s' : σ), repeat_times f n s = .ok s' → P s → P s' := by
  intro n
  induction n with
  | zero =>
    intro s s' h hP
    cases h
    exact hP
  | succ n ih =>
    intro s s' h hP
    unfold repeat_times at h
    split at h
    · cases h
    · rename_i s1 h1
      exact ih s1 s' h (hf s s1 h1 hP)

theorem Graphics.same_control_refl (g : Graphics) : g.same_control g := ⟨rfl, rfl, rfl, rfl⟩

theorem Graphics.same_control_trans {g g' g'' : Graphics} (h : g.same_control g')
    (h' : g'.same_control g'') : g.same_control g'' :=
  ⟨h'.1.trans h.1, h'.2.1.trans h.2.1, h'.2.2.1.trans h.2.2.1, h'.2.2.2.trans h.2.2.2⟩

theorem Graphics.scan_step_control (m : Memory) (g g' : Graphics)
    (h : Graphics.scan_step m g = .ok g') : g.same_control g' := by
  unfold Graphics.scan_step at h
  split at h
  · cases h
  · cases h
    exact ⟨rfl, rfl, rfl, rfl⟩

theorem Graphics.draw_pixel_control (m : Memory) (g g' : Graphics) (b : Bool)
    (h : Graphics.draw_pixel m g = .ok (b, g')) : g.same_control g' := by
  unfold Graphics.draw_pixel at h
  dsimp only at h
  split_ifs at h <;>
  first
    | (cases h; exact ⟨rfl, rfl, rfl, rfl⟩)
    | (split at h
       · cases h
       · split at h
         · cases h
         · cases h; exact ⟨rfl, rfl, rfl, rfl⟩)

theorem Graphics.draw_step_control (m : Memory) (g g' : Graphics)
    (h : Graphics.draw_step m g = .ok g') : g.same_control g' := by
  unfold Graphics.draw_step at h
  split at h
  · cases h
  · split at h
    · cases h
    · rename_i bg _ sp _
      split at h
      · cases h
      · rename_i g1 h1
        cases h
        have c1 := Graphics.draw_pixel_control m _ _ _ h1
        exact ⟨c1.1, c1.2.1, c1.2.2.1, c1.2.2.2⟩
      · rename_i g1 h1
        have c1 := Graphics.draw_pixel_control m _ _ _ h1
        split at h
        · cases h
        · rename_i b2 g2 h2
          cases h
          have c2 := Graphics.same_control_trans c1 (Graphics.draw_pixel_control m _ _ _ h2)
          exact ⟨c2.1, c2.2.1, c2.2.2.1, c2.2.2.2⟩

theorem Memory.ppu_frame_refl (m : Memory) : m.ppu_frame m := ⟨rfl, fun _ _ _ _ => rfl⟩

theorem Memory.ppu_frame_trans {m m' m'' : Memory} (h : m.ppu_frame m')
    (h' : m'.ppu_frame m'') : m.ppu_frame m'' :=
  ⟨h'.1.trans h.1, fun j h1 h2 h3 => (h'.2 j h1 h2 h3).trans (h.2 j h1 h2 h3)⟩

theorem Memory.set_ptr_frame (m : Memory) (r v : Nat) (hr : r = 0x41 ∨ r = 0x44) :
    m.ppu_frame (m.set_ptr r v) := by
  refine ⟨rfl, fun j h1 h2 h3 => ?_⟩
  unfold Memory.set_ptr
  have : j ≠ r := by rcases hr with h | h <;> rw [h] <;> assumption
  simp only [this, if_false]

theorem write_byte_io_frame (m m' : Memory) (a i v : Nat)
    (hsel : Memory.select a = .ok (some i)) (h : m.write_byte a v = .ok m') :
    m'.memory = m.memory ∧ ∀ j, j ≠ i → m'.registers j = m.registers j := by
  unfold Memory.write_byte at h
  rw [hsel] at h
  dsimp only at h
  split_ifs at h
  · cases h; exact ⟨rfl, fun _ _ => rfl⟩
  · split at h
    · cases h
    · cases h; exact ⟨rfl, fun _ _ => rfl⟩
  · cases h
    refine ⟨rfl, fun j hj => ?_⟩
    simp only [hj, if_false]

theorem interrupt_frame (m m' : Memory) (i : Nat) (h : interrupt m i = .ok m') :
    m.ppu_frame m' := by
  unfold interrupt at h
  split at h
  · cases h
  · obtain ⟨h1, h2⟩ := write_byte_io_frame m m' 0xFF0F 0x0F _ rfl h
    exact ⟨h1, fun j hj _ _ => h2 j hj⟩

theorem Graphics.set_mode_frame (m m' : Memory) (mode : Nat)
    (h : Graphics.set_mode m mode = .ok m') : m.ppu_frame m' := by
  unfold Graphics.set_mode at h
  dsimp only at h
  split_ifs at h
  · exact Memory.ppu_frame_trans (Memory.set_ptr_frame m 0x41 _ (Or.inl rfl))
      (interrupt_frame _ _ _ h)
  · cases h
    exact Memory.set_ptr_frame m 0x41 _ (Or.inl rfl)

theorem LCDC_ppu_frame {m m' : Memory} (h : m.ppu_frame m') : LCDC m' = LCDC m := by
  unfold LCDC Memory.reg
  rw [h.2 0x40 (by decide) (by decide) (by decide)]

theorem Graphics.scan_loop_control (m : Memory) (n : Nat) (g g' : Graphics)
    (h : repeat_times (Graphics.scan_step m) n g = .ok g') : g.same_control g' :=
  repeat_times_keeps (fun x => g.same_control x) (Graphics.scan_step m)
    (fun s s' hs hP => Graphics.same_control_trans hP (Graphics.scan_step_control m s s' hs))
    n g g' h (Graphics.same_control_refl g)

theorem Graphics.draw_loop_control (m : Memory) (n : Nat) (g g' : Graphics)
    (h : repeat_times (Graphics.draw_step m) n g = .ok g') : g.same_control g' :=
  repeat_times_keeps (fun x => g.same_control x) (Graphics.draw_step m)
    (fun s s' hs hP => Graphics.same_control_trans hP (Graphics.draw_step_control m s s' hs))
    n g g' h (Graphics.same_control_refl g)

theorem Graphics.oam_case_frame (g g' : Graphics) (m m' : Memory) (cycles : Nat)
    (h : Graphics.oam_case g m cycles = .ok (g', m')) :
    g'.dma_active = g.dma_active ∧ g'.dma_counter = g.dma_counter ∧
      g'.dma_source = g.dma_source ∧ m.ppu_frame m' := by
  unfold Graphics.oam_case at h
  split at h
  · cases h
  · rename_i g1 h1
    have c := Graphics.scan_loop_control m _ g g1 h1
    split_ifs at h
    · cases h
      exact ⟨c.2.1, c.2.2.1, c.2.2.2, Memory.ppu_frame_refl m⟩
    · split at h
      · cases h
      · rename_i m1 hm
        cases h
        exact ⟨c.2.1, c.2.2.1, c.2.2.2, Graphics.set_mode_frame m m' _ hm⟩

theorem Graphics.draw_case_frame (g g' : Graphics) (m m' : Memory) (cycles : Nat)
    (h : Graphics.draw_case g m cycles = .ok (g', m')) :
    g'.dma_active = g.dma_active ∧ g'.dma_counter = g.dma_counter ∧
      g'.dma_source = g.dma_source ∧ m.ppu_frame m' := by
  unfold Graphics.draw_case at h
  split at h
  · cases h
  · rename_i g1 h1
    have c := Graphics.draw_loop_control m _ g g1 h1
    split_ifs at h
    · cases h
      exact ⟨c.2.1, c.2.2.1, c.2.2.2, Memory.ppu_frame_refl m⟩
    · cases h
      exact ⟨c.2.1, c.2.2.1, c.2.2.2, Memory.ppu_frame_refl m⟩
    · split at h
      · cases h
      · rename_i m1 hm
        cases h
        exact ⟨c.2.1, c.2.2.1, c.2.2.2, Graphics.set_mode_frame m m' _ hm⟩

theorem Graphics.hblank_case_frame (g g' : Graphics) (m m' : Memory)
    (h : Graphics.hblank_case g m = .ok (g', m')) :
    g'.dma_active = g.dma_active ∧ g'.dma_counter = g.dma_counter ∧
      g'.dma_source = g.dma_source ∧ m.ppu_frame m' := by
  unfold Graphics.hblank_case at h
  dsimp only at h
  split_ifs at h with hc hl
  · cases h
    exact ⟨rfl, rfl, rfl, Memory.ppu_frame_refl m⟩
  all_goals
    have f0 : m.ppu_frame (m.set_ptr 0x41 (STAT m &&& 0xFC)) :=
      Memory.set_ptr_frame m 0x41 _ (Or.inl rfl)
    split at h
    · cases h
    rename_i m1 hm1
    have f1 : m.ppu_frame m1 := by
      first
        | exact Memory.ppu_frame_trans (Memory.ppu_frame_trans f0
            (Memory.set_ptr_frame _ 0x41 _ (Or.inl rfl))) (interrupt_frame _ _ _ hm1)
        | (cases hm1; exact f0)
    split_ifs at h
    · split at h
      · cases h
      · rename_i m2 hm2
        split at h
        · cases h
        · rename_i m3 hm3
          cases h
          exact ⟨rfl, rfl, rfl, Memory.ppu_frame_trans f1 (Memory.ppu_frame_trans
            (Graphics.set_mode_frame _ _ _ hm2) (interrupt_frame _ _ _ hm3))⟩
    · split at h
      · cases h
      · rename_i m2 hm2
        split at h
        · cases h
        · rename_i g2 hg2
          cases h
          have c := Graphics.scan_loop_control _ _ _ _ hg2
          exact ⟨c.2.1, c.2.2.1, c.2.2.2, Memory.ppu_frame_trans f1 (Memory.ppu_frame_trans
            (Memory.set_ptr_frame m1 0x44 _ (Or.inr rfl)) (Graphics.set_mode_frame _ _ _ hm2))⟩

theorem Graphics.vblank_case_frame (g g' : Graphics) (m m' : Memory)
    (h : Graphics.vblank_case g m = .ok (g', m')) :
    g'.dma_active = g.dma_active ∧ g'.dma_counter = g.dma_counter ∧
      g'.dma_source = g.dma_source ∧ m.ppu_frame m' := by
  unfold Graphics.vblank_case at h
  dsimp only at h
  have f0 : m.ppu_frame (m.set_ptr 0x44 (LY m + 1)) :=
    Memory.set_ptr_frame m 0x44 _ (Or.inr rfl)
  split_ifs at h
  · cases h
    exact ⟨rfl, rfl, rfl, Memory.ppu_frame_refl m⟩
  · cases h
    exact ⟨rfl, rfl, rfl, f0⟩
  · split at h
    · cases h
    · rename_i m2 hm2
      cases h
      exact ⟨rfl, rfl, rfl, Memory.ppu_frame_trans f0 (Memory.ppu_frame_trans
        (Memory.set_ptr_frame _ 0x44 _ (Or.inr rfl)) (Graphics.set_mode_frame _ _ _ hm2))⟩

/-! ## The DMA -/

theorem Graphics.dma_step_progress (orig : Nat → Nat) (src k : Nat) (s : Graphics × Memory)
    (hsrc : src ≤ 0xF100) (hk : k ≤ 0xA0) (hp : Graphics.dma_progress orig src k s) :
    ∃ s', Graphics.dma_step s = .ok s' ∧
      Graphics.dma_progress orig src (min (k + 1) 0xA0) s' := by
  obtain ⟨h1, h2, h3, h4, h5⟩ := hp
  unfold Graphics.dma_step
  by_cases hk' : k = 0xA0
  · rw [if_neg (not_not.mpr (h3.mpr hk'))]
    refine ⟨s, rfl, ?_⟩
    have hmin : min (k + 1) 0xA0 = k := by omega
    rw [hmin]
    exact ⟨h1, h2, h3, h4, h5⟩
  · have hlt : k < 0xA0 := by omega
    rw [if_pos (fun h => hk' (h3.mp h))]
    refine ⟨_, rfl, ?_⟩
    have hmin : min (k + 1) 0xA0 = k + 1 := by omega
    rw [hmin]
    unfold Graphics.dma_progress Memory.copy
    dsimp only
    rw [h1, h2]
    have e1 : (0xFE00 + k) % 65536 = 0xFE00 + k := by omega
    have e2 : (src + k) % 65536 = src + k := by omega
    have e3 : (k + 1) % 256 = k + 1 := by omega
    rw [e1, e2, e3]
    refine ⟨rfl, rfl, ?_, ?_, ?_⟩
    · constructor
      · intro h; omega
      · intro h; omega
    · intro i hi
      by_cases hik : i = k
      · rw [hik, if_pos rfl]
        exact h5 _ (Or.inl (by omega))
      · rw [if_neg (by omega)]
        exact h4 i (by omega)
    · intro a ha
      rw [if_neg (by omega)]
      exact h5 a (by omega)

theorem Graphics.dma_loop_progress (orig : Nat → Nat) (src : Nat) (hsrc : src ≤ 0xF100) :
    ∀ (n k : Nat) (s : Graphics × Memory), k ≤ 0xA0 → Graphics.dma_progress orig src k s →
      ∃ s', repeat_times Graphics.dma_step n s = .ok s' ∧
        Graphics.dma_progress orig src (min (k + n) 0xA0) s' := by
  intro n
  induction n with
  | zero =>
    intro k s hk hp
    refine ⟨s, rfl, ?_⟩
    have : min (k + 0) 0xA0 = k := by omega
    rw [this]
    exact hp
  | succ n ih =>
    intro k s hk hp
    obtain ⟨s1, hs1, hp1⟩ := Graphics.dma_step_progress orig src k s hsrc hk hp
    obtain ⟨s2, hs2, hp2⟩ := ih (min (k + 1) 0xA0) s1 (by omega) hp1
    refine ⟨s2, ?_, ?_⟩
    · unfold repeat_times
      rw [hs1]
      exact hs2
    · have : min (k + (n + 1)) 0xA0 = min (min (k + 1) 0xA0 + n) 0xA0 := by omega
      rw [this]
      exact hp2

/-- The DMA loop always returns, and touches neither the clock nor the registers. -/
theorem Graphics.dma_loop_frame :
    ∀ (n : Nat) (s : Graphics × Memory),
      ∃ s', repeat_times Graphics.dma_step n s = .ok s' ∧ s'.1.clock = s.1.clock ∧
        s'.2.registers = s.2.registers := by
  intro n
  induction n with
  | zero => exact fun s => ⟨s, rfl, rfl, rfl⟩
  | succ n ih =>
    intro s
    have h1 : ∃ s1, Graphics.dma_step s = .ok s1 ∧ s1.1.clock = s.1.clock ∧
        s1.2.registers = s.2.registers := by
      unfold Graphics.dma_step
      split_ifs
      · exact ⟨_, rfl, rfl, rfl⟩
      · exact ⟨_, rfl, rfl, rfl⟩
    obtain ⟨s1, hs1, c1, r1⟩ := h1
    obtain ⟨s2, hs2, c2, r2⟩ := ih s1
    refine ⟨s2, ?_, c2.trans c1, r2.trans r1⟩
    unfold repeat_times
    rw [hs1]
    exact hs2

theorem Graphics.dma_progress_frame (orig : Nat → Nat) (src k : Nat) (g g' : Graphics)
    (m m' : Memory) (hp : Graphics.dma_progress orig src k (g, m))
    (hf : g'.dma_active = g.dma_active ∧ g'.dma_counter = g.dma_counter ∧
      g'.dma_source = g.dma_source ∧ m.ppu_frame m') :
    Graphics.dma_progress orig src k (g', m') := by
  obtain ⟨h1, h2, h3, h4, h5⟩ := hp
  obtain ⟨f1, f2, f3, f4, _⟩ := hf
  unfold Graphics.dma_progress
  dsimp only at h1 h2 h3 h4 h5 ⊢
  rw [f1, f2, f3, f4]
  exact ⟨h1, h2, h3, h4, h5⟩

theorem Graphics.tick_dma_progress (orig : Nat → Nat) (src k c : Nat) (g g' : Graphics)
    (m m' : Memory) (hsrc : src ≤ 0xF100) (hk : k ≤ 0xA0) (hLCD : LCDC m &&& 0x80 ≠ 0)
    (hp : Graphics.dma_progress orig src k (g, m))
    (h : Graphics.tick g m c = .ok (g', m')) :
    Graphics.dma_progress orig src (min (k + c) 0xA0) (g', m') ∧ LCDC m' = LCDC m := by
  unfold Graphics.tick at h
  rw [if_neg hLCD] at h
  dsimp only at h
  have hp0 : Graphics.dma_progress orig src k ({ g with clock := (g.clock + c) % 65536 }, m) :=
    hp
  obtain ⟨⟨g1, m1⟩, hs, hp1⟩ := Graphics.dma_loop_progress orig src hsrc c k _ hk hp0
  obtain ⟨s2, hs2, _, hr⟩ := Graphics.dma_loop_frame c
    ({ g with clock := (g.clock + c) % 65536 }, m)
  rw [hs] at hs2
  cases hs2
  dsimp only at hr
  rw [hs] at h
  dsimp only at h
  have hL1 : LCDC m1 = LCDC m := by
    unfold LCDC Memory.reg
    rw [hr]
  have key : ∀ (r : Except Error (Graphics × Memory)),
      r = .ok (g', m') →
      (r = .ok (g', m') → g'.dma_active = g1.dma_active ∧ g'.dma_counter = g1.dma_counter ∧
        g'.dma_source = g1.dma_source ∧ m1.ppu_frame m') →
      Graphics.dma_progress orig src (min (k + c) 0xA0) (g', m') ∧ LCDC m' = LCDC m := by
    intro r hr1 hfr
    have f := hfr hr1
    exact ⟨Graphics.dma_progress_frame orig src _ g1 g' m1 m' hp1 f,
      (LCDC_ppu_frame f.2.2.2).trans hL1⟩
  split at h
  · exact key _ h (Graphics.oam_case_frame g1 g' m1 m' c)
  · exact key _ h (Graphics.draw_case_frame g1 g' m1 m' c)
  · exact key _ h (Graphics.hblank_case_frame g1 g' m1 m')
  · exact key _ h (Graphics.vblank_case_frame g1 g' m1 m')

theorem Graphics.ticks_dma_progress (orig : Nat → Nat) (src : Nat) (hsrc : src ≤ 0xF100) :
    ∀ (cs : List Nat) (k : Nat) (g g' : Graphics) (m m' : Memory), k ≤ 0xA0 →
      LCDC m &&& 0x80 ≠ 0 → Graphics.dma_progress orig src k (g, m) →
      Graphics.ticks g m cs = .ok (g', m') →
      Graphics.dma_progress orig src (min (k + cs.sum) 0xA0) (g', m') := by
  intro cs
  induction cs with
  | nil =>
    intro k g g' m m' hk _ hp h
    cases h
    have : min (k + ([] : List Nat).sum) 0xA0 = k := by
      rw [List.sum_nil]; omega
    rw [this]
    exact hp
  | cons c rest ih =>
    intro k g g' m m' hk hLCD hp h
    unfold Graphics.ticks at h
    split at h
    · cases h
    · rename_i g1 m1 h1
      obtain ⟨p1, hL⟩ := Graphics.tick_dma_progress orig src k c g g1 m m1 hsrc hk hLCD hp h1
      have p2 := ih (min (k + c) 0xA0) g1 g' m1 m' (by omega) (by rw [hL]; exact hLCD) p1 h
      have : min (k + (c :: rest).sum) 0xA0 = min (min (k + c) 0xA0 + rest.sum) 0xA0 := by
        rw [List.sum_cons]; omega
      rw [this]
      exact p2

/-- C28 (counterexample). With the display off (`LCDC` = 0, bit 7 clear) and 0x77
at 0xC000, the write of 0xC0 to 0xFF46 arms the DMA, and 160 cycles delivered in 40
calls copy nothing: the first byte of the sprite table is still 0, no byte has been
counted and the DMA is still active. -/
theorem DMA_stalls_while_display_off :
    ∃ armed g2 m2,
      Graphics.write_FF46 (Graphics.init 160)
        (Graphics.start_memory (fun a => if a = 0xC000 then 0x77 else 0)) 0xC0 =
        .ok (armed, Graphics.start_memory (fun a => if a = 0xC000 then 0x77 else 0)) ∧
      Graphics.ticks armed (Graphics.start_memory (fun a => if a = 0xC000 then 0x77 else 0))
        (List.replicate 40 4) = .ok (g2, m2) ∧
      m2.memory 0xC000 = 0x77 ∧ m2.memory 0xFE00 = 0 ∧ g2.dma_counter = 0 ∧
      g2.dma_active = 1 :=
  ⟨_, _, _, rfl, rfl, rfl, rfl, rfl, rfl⟩

/-- C28 (amended). For every `v ≤ 0xF1` the write of `v` to 0xFF46 arms the DMA
(source `v << 8`, counter 0, active) and changes nothing else. From there, whenever
bit 7 of `LCDC` is set and the calls of `operator+=` return, once they have
delivered 160 cycles or more the byte at `0xFE00 + i` is the byte that was at
`(v << 8) + i` for every `i < 0xA0`, every other byte is unchanged, 0xA0 bytes have
been counted and the DMA is inactive. -/
theorem DMA_copies_sprite_table (g : Graphics) (m : Memory) (v : Nat) (hv : v ≤ 0xF1) :
    Graphics.write_FF46 g m v =
        .ok ({ g with dma_counter := 0, dma_active := 1, dma_source := v <<< 8 }, m) ∧
      ∀ (cs : List Nat) (g2 : Graphics) (m2 : Memory),
        LCDC m &&& 0x80 ≠ 0 → 160 ≤ cs.sum →
        Graphics.ticks { g with dma_counter := 0, dma_active := 1, dma_source := v <<< 8 } m cs =
          .ok (g2, m2) →
        (∀ i, i < 0xA0 → m2.memory (0xFE00 + i) = m.memory ((v <<< 8) + i)) ∧
        (∀ a, a < 0xFE00 ∨ 0xFEA0 ≤ a → m2.memory a = m.memory a) ∧
        g2.dma_counter = 0xA0 ∧ g2.dma_active = 0 ∧ g2.dma_source = v <<< 8 := by
  have hsh : v <<< 8 = v * 256 := by rw [Nat.shiftLeft_eq]
  constructor
  · unfold Graphics.write_FF46 Graphics.dma_callback
    have hmod : (v <<< 8) % 65536 = v <<< 8 := by omega
    simp only [Bool.true_eq_false, if_false, hv, not_true_eq_false, hmod]
  · intro cs g2 m2 hLCD hsum h
    have hp0 : Graphics.dma_progress m.memory (v <<< 8) 0
        ({ g with dma_counter := 0, dma_active := 1, dma_source := v <<< 8 }, m) := by
      refine ⟨rfl, rfl, ⟨fun h => ?_, fun h => ?_⟩,
        fun i hi => absurd hi (Nat.not_lt_zero i), fun _ _ => rfl⟩
      · dsimp only at h
        omega
      · omega
    have hp := Graphics.ticks_dma_progress m.memory (v <<< 8) (by omega) cs 0 _ g2 m m2
      (by decide) hLCD hp0 h
    have hmin : min (0 + cs.sum) 0xA0 = 0xA0 := by omega
    rw [hmin] at hp
    obtain ⟨h1, h2, h3, h4, h5⟩ := hp
    exact ⟨h4, h5, h2, h3.mpr rfl, h1⟩

/-- A computation whose `toBool` is true returned a result. -/
theorem returns_of_toBool {α : Type} (x : Except Error α) (h : x.toBool = true) :
    ∃ r, x = .ok r := by
  cases x with
  | error e => cases h
  | ok r => exact ⟨r, rfl⟩

set_option maxRecDepth 100000 in
/-- C28 (witness). Scenario: 0x77 at 0xC000..0xC09F, the start-up state with the
display switched on (`LCDC` = 0x80), then 0xC0 written to 0xFF46 and 160 cycles
delivered in 40 calls, which take the controller from HBLANK through OAM into DRAW. -/
theorem DMA_copies_sprite_table_witness :
    ∃ g2 m2,
      Graphics.ticks { Graphics.init 160 with dma_counter := 0, dma_active := 1,
                                              dma_source := 0xC0 <<< 8 }
        ((Graphics.start_memory (fun a => if 0xC000 ≤ a ∧ a < 0xC0A0 then 0x77 else 0)).set_ptr
          0x40 0x80) (List.replicate 40 4) = .ok (g2, m2) ∧
      (∀ i, i < 0xA0 → m2.memory (0xFE00 + i) = 0x77) ∧ g2.dma_active = 0 := by
  obtain ⟨⟨g2, m2⟩, h⟩ := returns_of_toBool
    (Graphics.ticks { Graphics.init 160 with dma_counter := 0, dma_active := 1,
                                             dma_source := 0xC0 <<< 8 }
      ((Graphics.start_memory (fun a => if 0xC000 ≤ a ∧ a < 0xC0A0 then 0x77 else 0)).set_ptr
        0x40 0x80) (List.replicate 40 4)) rfl
  have hc := (DMA_copies_sprite_table (Graphics.init 160)
    ((Graphics.start_memory (fun a => if 0xC000 ≤ a ∧ a < 0xC0A0 then 0x77 else 0)).set_ptr
      0x40 0x80) 0xC0 (by decide)).2
      (List.replicate 40 4) g2 m2 (by decide) (by decide) h
  refine ⟨g2, m2, h, fun i hi => ?_, hc.2.2.2.1⟩
  rw [hc.1 i hi]
  show (if 0xC000 ≤ (0xC0 <<< 8) + i ∧ (0xC0 <<< 8) + i < 0xC0A0 then 0x77 else 0) = 0x77
  have e : (0xC0 <<< 8 : Nat) = 0xC000 := by decide
  rw [e, if_pos ⟨by omega, by omega⟩]

/-! ## Scanline timing -/

theorem Memory.reg_set_ptr_same (m : Memory) (r v : Nat) : (m.set_ptr r v).reg r = v % 256 := by
  unfold Memory.reg Memory.set_ptr
  simp only [if_true]

theorem Memory.registers_set_ptr_ne (m : Memory) (r v j : Nat) (h : j ≠ r) :
    (m.set_ptr r v).registers j = m.registers j := by
  unfold Memory.set_ptr
  simp only [h, if_false]

theorem Memory.reg_set_ptr_ne (m : Memory) (r v j : Nat) (h : j ≠ r) :
    (m.set_ptr r v).reg j = m.reg j := by
  unfold Memory.reg
  rw [Memory.registers_set_ptr_ne m r v j h]

theorem Memory.direct_set_ptr (m : Memory) (r v i : Nat) (h : m.direct i) :
    (m.set_ptr r v).direct i := by
  unfold Memory.direct Memory.set_ptr
  dsimp only
  by_cases hi : i = r
  · rw [if_pos hi]
    exact hi ▸ h
  · rw [if_neg hi]
    exact h

theorem interrupt_direct (m : Memory) (i : Nat) (h : m.direct 0x0F) :
    interrupt m i = .ok (m.set_ptr 0x0F (m.reg 0x0F ||| i)) := by
  unfold interrupt Memory.read_byte Memory.write_byte
  have hsel : Memory.select 0xFF0F = .ok (some 0x0F) := rfl
  rw [hsel]
  simp only [Memory.set_ptr, Memory.reg, h.1, h.2, Bool.not_true, Bool.false_eq_true, if_false]

theorem or_two_and_one (x : Nat) : (x ||| 2) % 256 &&& 1 = x &&& 1 := by
  show (x ||| 2) % 2 ^ 8 &&& 1 = x &&& 1
  apply Nat.eq_of_testBit_eq
  intro i
  rw [Nat.testBit_and, Nat.testBit_and, Nat.testBit_mod_two_pow, Nat.testBit_or]
  cases i with
  | zero => simp
  | succ i =>
    have : Nat.testBit 1 (i + 1) = false := by
      rw [Nat.testBit_succ]; simp
    rw [this, Bool.and_false, Bool.and_false]

theorem or_one_and_one (x : Nat) : (x ||| 1) % 256 &&& 1 = 1 := by
  show (x ||| 1) % 2 ^ 8 &&& 1 = 1
  apply Nat.eq_of_testBit_eq
  intro i
  rw [Nat.testBit_and, Nat.testBit_mod_two_pow, Nat.testBit_or]
  cases i with
  | zero => simp
  | succ i =>
    have : Nat.testBit 1 (i + 1) = false := by
      rw [Nat.testBit_succ]; simp
    rw [this, Bool.and_false]

set_option maxRecDepth 100000 in
theorem mode_bits_byte : ∀ y, y < 256 → ∀ mode, mode < 4 →
    ((y &&& 0xFC) ||| mode) % 256 &&& 3 = mode := by decide

theorem mode_bits (x mode : Nat) (h : mode < 4) : ((x &&& 0xFC) ||| mode) % 256 &&& 3 = mode := by
  have hy : x &&& 0xFC < 256 := Nat.lt_of_le_of_lt Nat.and_le_right (by decide)
  have e : x &&& 0xFC = (x &&& 0xFC) &&& 0xFC := by
    rw [Nat.and_assoc]
    rfl
  rw [e]
  exact mode_bits_byte _ hy mode h

theorem Memory.stat_update_refl (m : Memory) (h : m.direct 0x0F) : m.stat_update m :=
  ⟨h, rfl, fun _ _ _ => rfl⟩

theorem Memory.stat_update_trans {m m' m'' : Memory} (h : m.stat_update m')
    (h' : m'.stat_update m'') : m.stat_update m'' :=
  ⟨h'.1, h'.2.1.trans h.2.1, fun j h1 h2 => (h'.2.2 j h1 h2).trans (h.2.2 j h1 h2)⟩

theorem Memory.stat_update_set_ptr (m : Memory) (v : Nat) (h : m.direct 0x0F) :
    m.stat_update (m.set_ptr 0x41 v) :=
  ⟨Memory.direct_set_ptr m 0x41 v 0x0F h, by rw [Memory.reg_set_ptr_ne m 0x41 v 0x0F (by decide)],
    fun j _ h2 => Memory.registers_set_ptr_ne m 0x41 v j h2⟩

theorem Memory.stat_update_request (m : Memory) (h : m.direct 0x0F) :
    m.stat_update (m.set_ptr 0x0F (m.reg 0x0F ||| Interrupt.LCDSTAT)) :=
  ⟨Memory.direct_set_ptr m 0x0F _ 0x0F h,
    by rw [Memory.reg_set_ptr_same]; exact or_two_and_one _,
    fun j h1 _ => Memory.registers_set_ptr_ne m 0x0F _ j h1⟩

theorem Graphics.set_mode_direct (m : Memory) (mode : Nat) (h : m.direct 0x0F) (hm : mode < 4) :
    ∃ m', Graphics.set_mode m mode = .ok m' ∧ m.stat_update m' ∧ STAT m' &&& 3 = mode := by
  unfold Graphics.set_mode
  dsimp only
  have h1 := Memory.stat_update_set_ptr m ((STAT m &&& 0xFC) ||| mode) h
  have hS : STAT (m.set_ptr 0x41 ((STAT m &&& 0xFC) ||| mode)) &&& 3 = mode := by
    unfold STAT
    rw [Memory.reg_set_ptr_same]
    exact mode_bits _ mode hm
  split_ifs
  · rw [interrupt_direct _ _ h1.1]
    refine ⟨_, rfl, Memory.stat_update_trans h1 (Memory.stat_update_request _ h1.1), ?_⟩
    unfold STAT
    rw [Memory.reg_set_ptr_ne _ 0x0F _ 0x41 (by decide)]
    exact hS
  · exact ⟨_, rfl, h1, hS⟩

theorem repeat_times_total {σ : Type} (f : σ → Except Error σ)
    (hf : ∀ s, ∃ s', f s = .ok s') : ∀ (n : Nat) (s : σ), ∃ s', repeat_times f n s = .ok s' := by
  intro n
  induction n with
  | zero => exact fun s => ⟨s, rfl⟩
  | succ n ih =>
    intro s
    obtain ⟨s1, h1⟩ := hf s
    obtain ⟨s2, h2⟩ := ih s1
    refine ⟨s2, ?_⟩
    unfold repeat_times
    rw [h1]
    exact h2

theorem ite_returns {σ : Type} (c : Prop) [Decidable c] (a b : Except Error σ)
    (ha : ∃ s, a = .ok s) (hb : ∃ s, b = .ok s) : ∃ s, (if c then a else b) = .ok s := by
  split_ifs
  · exact ha
  · exact hb

/-- The scan of the sprite table always returns: it reads the raw array only. -/
theorem SpriteFIFO.scan_total (sp : SpriteFIFO) (m : Memory) : ∃ sp', sp.scan m = .ok sp' := by
  unfold SpriteFIFO.scan
  by_cases h1 : sp.scan_index ≥ 1
  · rw [if_pos h1]
    exact ⟨_, rfl⟩
  rw [if_neg h1]
  refine ite_returns _ _ _ ⟨_, rfl⟩ ?_
  refine ite_returns _ _ _ ⟨_, rfl⟩ ?_
  refine ite_returns _ _ _ ⟨_, rfl⟩ ?_
  have h0 : sp.scan_index = 0 := by omega
  rw [h0]
  have r0 : m.read_byte (0xFE00 + (0 <<< 2) % 256) = .ok (m.memory 0xFE00) := rfl
  have r1 : m.read_byte (0xFE00 + (0 <<< 2) % 256 + 1) = .ok (m.memory 0xFE01) := rfl
  have r2 : m.read_byte (0xFE00 + (0 <<< 2) % 256 + 2) = .ok (m.memory 0xFE02) := rfl
  have r3 : m.read_byte (0xFE00 + (0 <<< 2) % 256 + 3) = .ok (m.memory 0xFE03) := rfl
  dsimp only
  rw [r0, r1, r2, r3]
  dsimp only
  refine ite_returns _ _ _ ⟨_, rfl⟩ ?_
  refine ite_returns _ _ _ ⟨_, rfl⟩ ?_
  refine ite_returns _ _ _ ⟨_, rfl⟩ ?_
  refine ite_returns _ _ _ ⟨_, rfl⟩ ?_
  refine ite_returns _ _ _ ⟨_, rfl⟩ ?_
  exact ite_returns _ _ _ ⟨_, rfl⟩ ⟨_, rfl⟩

theorem Graphics.scan_loop_total (m : Memory) (n : Nat) (g : Graphics) :
    ∃ g', repeat_times (Graphics.scan_step m) n g = .ok g' ∧ g'.clock = g.clock := by
  have ht : ∀ s, ∃ s', Graphics.scan_step m s = .ok s' := by
    intro s
    obtain ⟨sp, hsp⟩ := SpriteFIFO.scan_total s.spfifo m
    unfold Graphics.scan_step
    rw [hsp]
    exact ⟨_, rfl⟩
  obtain ⟨g', h⟩ := repeat_times_total _ ht n g
  exact ⟨g', h, (Graphics.scan_loop_control m n g g' h).1⟩

theorem Memory.stat_update_LY {m m' : Memory} (h : m.stat_update m') : LY m' = LY m := by
  unfold LY Memory.reg
  rw [h.2.2 0x44 (by decide) (by decide)]

theorem Graphics.oam_case_spec (g : Graphics) (m : Memory) (cycles : Nat) (h : m.direct 0x0F) :
    ∃ g' m', Graphics.oam_case g m cycles = .ok (g', m') ∧ m.stat_update m' ∧
      ((g.clock < 20 ∧ m' = m ∧ g'.clock = g.clock) ∨
       (20 ≤ g.clock ∧ STAT m' &&& 3 = Graphics.DRAW ∧ g'.clock = g.clock - 20)) := by
  obtain ⟨g1, h1, c1⟩ := Graphics.scan_loop_total m (cycles <<< 1) g
  unfold Graphics.oam_case
  rw [h1]
  dsimp only
  by_cases hc : g.clock < 20
  · rw [if_pos (c1 ▸ hc)]
    exact ⟨_, _, rfl, Memory.stat_update_refl m h, Or.inl ⟨hc, rfl, c1⟩⟩
  · rw [if_neg (c1 ▸ hc)]
    obtain ⟨m1, hm1, u1, s1⟩ := Graphics.set_mode_direct m Graphics.DRAW h (by decide)
    rw [hm1]
    exact ⟨_, _, rfl, u1, Or.inr ⟨by omega, s1, by dsimp only; rw [c1]⟩⟩

theorem Graphics.draw_case_spec (g g' : Graphics) (m m' : Memory) (cycles : Nat)
    (h : m.direct 0x0F) (hr : Graphics.draw_case g m cycles = .ok (g', m')) :
    m.stat_update m' ∧
      ((m' = m ∧ g'.clock = g.clock) ∨
       (43 ≤ g.clock ∧ STAT m' &&& 3 = Graphics.HBLANK ∧ g'.clock = g.clock - 43)) := by
  unfold Graphics.draw_case at hr
  split at hr
  · cases hr
  · rename_i g1 h1
    have c1 := (Graphics.draw_loop_control m _ g g1 h1).1
    split_ifs at hr with hx hc
    · cases hr
      exact ⟨Memory.stat_update_refl m h, Or.inl ⟨rfl, c1⟩⟩
    · cases hr
      exact ⟨Memory.stat_update_refl m h, Or.inl ⟨rfl, c1⟩⟩
    · obtain ⟨m1, hm1, u1, s1⟩ := Graphics.set_mode_direct m Graphics.HBLANK h (by decide)
      rw [hm1] at hr
      cases hr
      exact ⟨u1, Or.inr ⟨by omega, s1, by dsimp only; rw [c1]⟩⟩

theorem Graphics.lyc_check (m : Memory) (h : m.direct 0x0F) :
    ∃ m1, (if STAT (m.set_ptr 0x41 (STAT m &&& 0xFC)) &&& 0x20 ≠ 0 ∧
          LY (m.set_ptr 0x41 (STAT m &&& 0xFC)) = LYC (m.set_ptr 0x41 (STAT m &&& 0xFC)) then
        interrupt ((m.set_ptr 0x41 (STAT m &&& 0xFC)).set_ptr 0x41
          (STAT (m.set_ptr 0x41 (STAT m &&& 0xFC)) ||| 4)) Interrupt.LCDSTAT
      else .ok (m.set_ptr 0x41 (STAT m &&& 0xFC))) = .ok m1 ∧ m.stat_update m1 := by
  have u0 := Memory.stat_update_set_ptr m (STAT m &&& 0xFC) h
  split_ifs
  · have u1 := Memory.stat_update_set_ptr (m.set_ptr 0x41 (STAT m &&& 0xFC))
      (STAT (m.set_ptr 0x41 (STAT m &&& 0xFC)) ||| 4) u0.1
    rw [interrupt_direct _ _ u1.1]
    exact ⟨_, rfl, Memory.stat_update_trans u0
      (Memory.stat_update_trans u1 (Memory.stat_update_request _ u1.1))⟩
  · exact ⟨_, rfl, u0⟩

theorem Graphics.hblank_case_below (g : Graphics) (m : Memory) (hc : g.clock < 51) :
    Graphics.hblank_case g m = .ok (g, m) := by
  unfold Graphics.hblank_case
  rw [if_pos hc]

/-- The end of a horizontal blank that finds `LY ≥ 144`: the vertical blank starts
and its interrupt is requested. -/
theorem Graphics.hblank_case_vblank (g : Graphics) (m : Memory) (h : m.direct 0x0F)
    (hc : 51 ≤ g.clock) (hl : 144 ≤ LY m) :
    ∃ m', Graphics.hblank_case g m = .ok ({ g with clock := g.clock - 51 }, m') ∧
      STAT m' &&& 3 = Graphics.VBLANK ∧ LY m' = LY m ∧ m'.reg 0x0F &&& 1 = 1 := by
  obtain ⟨m1, hm1, u1⟩ := Graphics.lyc_check m h
  unfold Graphics.hblank_case
  rw [if_neg (by omega)]
  dsimp only
  rw [hm1]
  dsimp only
  have hl1 : LY m1 ≥ 144 := by rw [Memory.stat_update_LY u1]; exact hl
  rw [if_pos hl1]
  obtain ⟨m2, hm2, u2, s2⟩ := Graphics.set_mode_direct m1 Graphics.VBLANK u1.1 (by decide)
  rw [hm2]
  dsimp only
  rw [interrupt_direct _ _ u2.1]
  refine ⟨_, rfl, ?_, ?_, ?_⟩
  · unfold STAT
    rw [Memory.reg_set_ptr_ne _ 0x0F _ 0x41 (by decide)]
    exact s2
  · unfold LY
    rw [Memory.reg_set_ptr_ne _ 0x0F _ 0x44 (by decide)]
    exact (Memory.stat_update_LY u2).trans (Memory.stat_update_LY u1)
  · rw [Memory.reg_set_ptr_same]
    exact or_one_and_one _

/-- The end of a horizontal blank that finds `LY < 144`: the next line starts. -/
theorem Graphics.hblank_case_next (g : Graphics) (m : Memory) (h : m.direct 0x0F)
    (hc : 51 ≤ g.clock) (hl : LY m < 144) :
    ∃ g' m', Graphics.hblank_case g m = .ok (g', m') ∧ g'.clock = g.clock - 51 ∧
      STAT m' &&& 3 = Graphics.OAM ∧ LY m' = LY m + 1 ∧
      m'.reg 0x0F &&& 1 = m.reg 0x0F &&& 1 := by
  obtain ⟨m1, hm1, u1⟩ := Graphics.lyc_check m h
  unfold Graphics.hblank_case
  rw [if_neg (by omega)]
  dsimp only
  rw [hm1]
  dsimp only
  have e1 : LY m1 = LY m := Memory.stat_update_LY u1
  rw [if_neg (by omega)]
  have d2 : (m1.set_ptr 0x44 (LY m1 + 1)).direct 0x0F := Memory.direct_set_ptr _ _ _ _ u1.1
  obtain ⟨m2, hm2, u2, s2⟩ := Graphics.set_mode_direct _ Graphics.OAM d2 (by decide)
  rw [hm2]
  dsimp only
  obtain ⟨g2, hg2, c2⟩ := Graphics.scan_loop_total m2
    (((Graphics.reset_palettes
      { g with clock := g.clock - 51,
               win_enabled := decide (LCDC m1 &&& 0x20 ≠ 0 ∧ LY m1 ≤ WY m1 ∧ LY m1 ≤ WY m1 + 144),
               win_active := false, bgfifo := g.bgfifo.reset 0 false,
               spfifo := g.spfifo.reset, cursor_x := 0 }
      (m1.set_ptr 0x44 (LY m1 + 1))).clock) <<< 1) _
  rw [hg2]
  refine ⟨_, _, rfl, c2, s2, ?_, ?_⟩
  · rw [Memory.stat_update_LY u2]
    unfold LY
    rw [Memory.reg_set_ptr_same]
    show (LY m1 + 1) % 256 = LY m + 1
    rw [e1]
    omega
  · rw [u2.2.1, Memory.reg_set_ptr_ne _ 0x44 _ 0x0F (by decide)]
    exact u1.2.1

theorem Graphics.vblank_case_below (g : Graphics) (m : Memory) (hc : g.clock < 114) :
    Graphics.vblank_case g m = .ok (g, m) := by
  unfold Graphics.vblank_case
  rw [if_pos hc]

theorem Graphics.vblank_case_next (g : Graphics) (m : Memory) (hc : 114 ≤ g.clock)
    (hl : LY m + 1 < 154) :
    Graphics.vblank_case g m =
      .ok ({ g with clock := g.clock - 114 }, m.set_ptr 0x44 (LY m + 1)) := by
  unfold Graphics.vblank_case
  rw [if_neg (by omega)]
  dsimp only
  have e : LY (m.set_ptr 0x44 (LY m + 1)) = LY m + 1 := by
    unfold LY
    rw [Memory.reg_set_ptr_same]
    show (LY m + 1) % 256 = LY m + 1
    omega
  rw [if_pos (by rw [e]; exact hl)]

/-- The end of the last line of the vertical blank: the frame is presented, `LY`
returns to 0 and the next frame starts in mode `OAM`. -/
theorem Graphics.vblank_case_wrap (g : Graphics) (m : Memory) (h : m.direct 0x0F)
    (hc : 114 ≤ g.clock) (hl : LY m = 153) :
    ∃ g' m', Graphics.vblank_case g m = .ok (g', m') ∧ g'.clock = g.clock - 114 ∧
      STAT m' &&& 3 = Graphics.OAM ∧ LY m' = 0 ∧ m'.reg 0x0F &&& 1 = m.reg 0x0F &&& 1 := by
  unfold Graphics.vblank_case
  rw [if_neg (by omega)]
  dsimp only
  have e : LY (m.set_ptr 0x44 (LY m + 1)) = 154 := by
    unfold LY
    rw [Memory.reg_set_ptr_same]
    show (LY m + 1) % 256 = 154
    omega
  rw [if_neg (by rw [e]; decide)]
  have d2 : ((m.set_ptr 0x44 (LY m + 1)).set_ptr 0x44 0).direct 0x0F :=
    Memory.direct_set_ptr _ _ _ _ (Memory.direct_set_ptr _ _ _ _ h)
  obtain ⟨m2, hm2, u2, s2⟩ := Graphics.set_mode_direct _ Graphics.OAM d2 (by decide)
  rw [hm2]
  refine ⟨_, _, rfl, rfl, s2, ?_, ?_⟩
  · rw [Memory.stat_update_LY u2]
    unfold LY
    rw [Memory.reg_set_ptr_same]
  · rw [u2.2.1, Memory.reg_set_ptr_ne _ 0x44 _ 0x0F (by decide),
      Memory.reg_set_ptr_ne _ 0x44 _ 0x0F (by decide)]

/-- With the display on, `operator+=` adds the cycles to the clock, runs the DMA,
which leaves the registers alone, and enters the case of the mode in `STAT`. -/
theorem Graphics.tick_enabled (g : Graphics) (m : Memory) (c : Nat)
    (hLCD : LCDC m &&& 0x80 ≠ 0) :
    ∃ g1 m1, g1.clock = (g.clock + c) % 65536 ∧ m1.registers = m.registers ∧
      (STAT m &&& 3 = Graphics.OAM → Graphics.tick g m c = Graphics.oam_case g1 m1 c) ∧
      (STAT m &&& 3 = Graphics.DRAW → Graphics.tick g m c = Graphics.draw_case g1 m1 c) ∧
      (STAT m &&& 3 = Graphics.HBLANK → Graphics.tick g m c = Graphics.hblank_case g1 m1) ∧
      (STAT m &&& 3 = Graphics.VBLANK → Graphics.tick g m c = Graphics.vblank_case g1 m1) := by
  obtain ⟨⟨g1, m1⟩, hs, hc, hr⟩ := Graphics.dma_loop_frame c
    ({ g with clock := (g.clock + c) % 65536 }, m)
  dsimp only at hr
  have e : STAT m1 = STAT m := by
    unfold STAT Memory.reg
    rw [hr]
  have ht : Graphics.tick g m c =
      (match STAT m1 &&& 3 with
        | 2 => Graphics.oam_case g1 m1 c
        | 3 => Graphics.draw_case g1 m1 c
        | 0 => Graphics.hblank_case g1 m1
        | _ => Graphics.vblank_case g1 m1) := by
    unfold Graphics.tick
    rw [if_neg hLCD]
    dsimp only
    rw [hs]
  rw [e] at ht
  refine ⟨g1, m1, hc, hr, ?_, ?_, ?_, ?_⟩
  · intro hm
    rw [ht, hm]
    rfl
  · intro hm
    rw [ht, hm]
    rfl
  · intro hm
    rw [ht, hm]
    rfl
  · intro hm
    rw [ht, hm]
    rfl

/-- C29. Display on, mode HBLANK with 47 cycles on the clock, a call with 4 cycles.
With `LY` = 143 the call that ends the horizontal blank requests no interrupt and
starts the scan of another visible line, `LY` = 144; only the call that ends the
horizontal blank of that line, `LY` = 144, enters VBLANK and sets bit 0 of `IF`. So
line 143 is not the last visible line, and the interrupt comes one scanline late. -/
theorem line_143_is_followed_by_a_visible_line :
    (∃ g' m',
      Graphics.tick { Graphics.init 160 with clock := 47 }
        (((Graphics.start_memory (fun _ => 0)).set_ptr 0x40 0x80).set_ptr 0x44 143) 4 =
        .ok (g', m') ∧
      LY m' = 144 ∧ STAT m' &&& 3 = Graphics.OAM ∧ m'.reg 0x0F = 0 ∧ g'.clock = 0) ∧
    (∃ g' m',
      Graphics.tick { Graphics.init 160 with clock := 47 }
        (((Graphics.start_memory (fun _ => 0)).set_ptr 0x40 0x80).set_ptr 0x44 144) 4 =
        .ok (g', m') ∧
      LY m' = 144 ∧ STAT m' &&& 3 = Graphics.VBLANK ∧ m'.reg 0x0F = 1 ∧ g'.clock = 0) :=
  ⟨⟨_, _, rfl, rfl, rfl, rfl, rfl⟩, ⟨_, _, rfl, rfl, rfl, rfl, rfl⟩⟩

/-- One call of `operator+=` as a step of the mode machine. With the display on, the
slot of `IF` registered by the CPU and `LY` within a frame, a call with `c` cycles that
do not wrap the clock does the following. In mode OAM it returns, and moves to DRAW
taking 20 cycles off the clock once the clock has reached 20. In mode DRAW, when it
returns, it stays or moves to HBLANK taking 43 cycles off, the latter only once the
clock has reached 43. In mode HBLANK it returns, and once the clock has reached 51
takes 51 off and either, finding `LY < 144`, starts the next line in mode OAM with
`LY + 1`, or, finding `LY ≥ 144`, enters VBLANK and sets bit 0 of `IF`. In mode VBLANK
it returns, and once the clock has reached 114 takes 114 off and increments `LY`, the
increment from 153 setting `LY` to 0 and the mode to OAM. Bit 0 of `IF` and `LY` are
unchanged wherever nothing else is said. -/
theorem scanline_timing (g : Graphics) (m : Memory) (c : Nat)
    (hLCD : LCDC m &&& 0x80 ≠ 0) (hIF : m.direct 0x0F) (hclk : g.clock + c < 65536)
    (hLY : LY m ≤ 153) :
    (STAT m &&& 3 = Graphics.OAM →
      ∃ g' m', Graphics.tick g m c = .ok (g', m') ∧ LY m' = LY m ∧
        m'.reg 0x0F &&& 1 = m.reg 0x0F &&& 1 ∧
        ((g.clock + c < 20 ∧ STAT m' &&& 3 = Graphics.OAM ∧ g'.clock = g.clock + c) ∨
         (20 ≤ g.clock + c ∧ STAT m' &&& 3 = Graphics.DRAW ∧
            g'.clock = g.clock + c - 20))) ∧
    (STAT m &&& 3 = Graphics.DRAW →
      ∀ g' m', Graphics.tick g m c = .ok (g', m') → LY m' = LY m ∧
        m'.reg 0x0F &&& 1 = m.reg 0x0F &&& 1 ∧
        ((STAT m' &&& 3 = Graphics.DRAW ∧ g'.clock = g.clock + c) ∨
         (43 ≤ g.clock + c ∧ STAT m' &&& 3 = Graphics.HBLANK ∧
            g'.clock = g.clock + c - 43))) ∧
    (STAT m &&& 3 = Graphics.HBLANK →
      ∃ g' m', Graphics.tick g m c = .ok (g', m') ∧
        ((g.clock + c < 51 ∧ STAT m' &&& 3 = Graphics.HBLANK ∧ LY m' = LY m ∧
            m'.reg 0x0F &&& 1 = m.reg 0x0F &&& 1 ∧ g'.clock = g.clock + c) ∨
         (51 ≤ g.clock + c ∧ g'.clock = g.clock + c - 51 ∧
            (LY m < 144 → STAT m' &&& 3 = Graphics.OAM ∧ LY m' = LY m + 1 ∧
              m'.reg 0x0F &&& 1 = m.reg 0x0F &&& 1) ∧
            (144 ≤ LY m → STAT m' &&& 3 = Graphics.VBLANK ∧ LY m' = LY m ∧
              m'.reg 0x0F &&& 1 = 1)))) ∧
    (STAT m &&& 3 = Graphics.VBLANK →
      ∃ g' m', Graphics.tick g m c = .ok (g', m') ∧
        m'.reg 0x0F &&& 1 = m.reg 0x0F &&& 1 ∧
        ((g.clock + c < 114 ∧ STAT m' &&& 3 = Graphics.VBLANK ∧ LY m' = LY m ∧
            g'.clock = g.clock + c) ∨
         (114 ≤ g.clock + c ∧ g'.clock = g.clock + c - 114 ∧
            (LY m < 153 → STAT m' &&& 3 = Graphics.VBLANK ∧ LY m' = LY m + 1) ∧
            (LY m = 153 → STAT m' &&& 3 = Graphics.OAM ∧ LY m' = 0)))) := by
  obtain ⟨g1, m1, hc1, hr1, tO, tD, tH, tV⟩ := Graphics.tick_enabled g m c hLCD
  have hc : g1.clock = g.clock + c := by rw [hc1]; omega
  have hd : m1.direct 0x0F := by
    unfold Memory.direct
    rw [hr1]
    exact hIF
  have eS : STAT m1 = STAT m := by unfold STAT Memory.reg; rw [hr1]
  have eL : LY m1 = LY m := by unfold LY Memory.reg; rw [hr1]
  have eF : m1.reg 0x0F = m.reg 0x0F := by unfold Memory.reg; rw [hr1]
  refine ⟨fun hm => ?_, fun hm g' m' ht => ?_, fun hm => ?_, fun hm => ?_⟩
  · obtain ⟨g', m', h, u, hcase⟩ := Graphics.oam_case_spec g1 m1 c hd
    refine ⟨g', m', (tO hm).trans h, (Memory.stat_update_LY u).trans eL,
      u.2.1.trans (by rw [eF]), ?_⟩
    rcases hcase with ⟨h1, h2, h3⟩ | ⟨h1, h2, h3⟩
    · exact Or.inl ⟨by omega, by rw [h2, eS]; exact hm, by omega⟩
    · exact Or.inr ⟨by omega, h2, by omega⟩
  · rw [tD hm] at ht
    obtain ⟨u, hcase⟩ := Graphics.draw_case_spec g1 g' m1 m' c hd ht
    refine ⟨(Memory.stat_update_LY u).trans eL, u.2.1.trans (by rw [eF]), ?_⟩
    rcases hcase with ⟨h2, h3⟩ | ⟨h1, h2, h3⟩
    · exact Or.inl ⟨by rw [h2, eS]; exact hm, by omega⟩
    · exact Or.inr ⟨by omega, h2, by omega⟩
  · rw [tH hm]
    by_cases hb : g.clock + c < 51
    · rw [Graphics.hblank_case_below g1 m1 (by omega)]
      exact ⟨g1, m1, rfl, Or.inl ⟨hb, by rw [eS]; exact hm, eL, by rw [eF], hc⟩⟩
    · by_cases hl : 144 ≤ LY m
      · obtain ⟨m', h, h1, h2, h3⟩ := Graphics.hblank_case_vblank g1 m1 hd (by omega)
          (by rw [eL]; exact hl)
        refine ⟨_, m', h, Or.inr ⟨by omega, by dsimp only; omega, fun hlt => ?_, fun _ => ?_⟩⟩
        · omega
        · exact ⟨h1, h2.trans eL, h3⟩
      · obtain ⟨g', m', h, h0, h1, h2, h3⟩ := Graphics.hblank_case_next g1 m1 hd (by omega)
          (by rw [eL]; omega)
        refine ⟨g', m', h, Or.inr ⟨by omega, by omega, fun _ => ?_, fun hge => ?_⟩⟩
        · exact ⟨h1, by rw [h2, eL], by rw [h3, eF]⟩
        · exact absurd hge hl
  · rw [tV hm]
    by_cases hb : g.clock + c < 114
    · rw [Graphics.vblank_case_below g1 m1 (by omega)]
      exact ⟨g1, m1, rfl, by rw [eF], Or.inl ⟨hb, by rw [eS]; exact hm, eL, hc⟩⟩
    · by_cases hl : LY m = 153
      · obtain ⟨g', m', h, h0, h1, h2, h3⟩ := Graphics.vblank_case_wrap g1 m1 hd (by omega)
          (by rw [eL]; exact hl)
        refine ⟨g', m', h, by rw [h3, eF], Or.inr ⟨by omega, by omega, fun hlt => ?_,
          fun _ => ⟨h1, h2⟩⟩⟩
        omega
      · rw [Graphics.vblank_case_next g1 m1 (by omega) (by rw [eL]; omega)]
        refine ⟨_, _, rfl, ?_, Or.inr ⟨by omega, by dsimp only; omega, fun _ => ⟨?_, ?_⟩,
          fun he => absurd he hl⟩⟩
        · rw [Memory.reg_set_ptr_ne _ 0x44 _ 0x0F (by decide), eF]
        · have e2 : STAT (m1.set_ptr 0x44 (LY m1 + 1)) = STAT m1 := by
            unfold STAT
            rw [Memory.reg_set_ptr_ne _ 0x44 _ 0x41 (by decide)]
          rw [e2, eS]
          exact hm
        · unfold LY
          rw [Memory.reg_set_ptr_same]
          show (LY m1 + 1) % 256 = LY m + 1
          rw [eL]
          omega

/-- The step of the mode machine at the end of the horizontal blank of `LY` = 144,
with 47 cycles on the clock and 4 more delivered: VBLANK starts and bit 0 of `IF` is
set. -/
theorem scanline_timing_witness :
    ∃ g' m',
      Graphics.tick { Graphics.init 160 with clock := 47 }
        (((Graphics.start_memory (fun _ => 0)).set_ptr 0x40 0x80).set_ptr 0x44 144) 4 =
        .ok (g', m') ∧
      STAT m' &&& 3 = Graphics.VBLANK ∧ LY m' = 144 ∧ m'.reg 0x0F &&& 1 = 1 ∧
      g'.clock = 0 := by
  obtain ⟨g', m', h, hcase⟩ :=
    (scanline_timing { Graphics.init 160 with clock := 47 }
      (((Graphics.start_memory (fun _ => 0)).set_ptr 0x40 0x80).set_ptr 0x44 144) 4
      (by decide) ⟨rfl, rfl⟩ (by decide) (by decide)).2.2.1 rfl
  rcases hcase with ⟨h1, _⟩ | ⟨_, h2, _, h4⟩
  · exact absurd h1 (by decide)
  · have h5 := h4 (by decide)
    exact ⟨g', m', h, h5.1, h5.2.1, h5.2.2, h2⟩

/-! ## The guard word -/

theorem guard_set8 (r : RegisterFile) (x : ByteRegister) (v : Nat) (h : x ≠ .unused) :
    (r.set8 x v).guard_register = r.guard_register := by
  cases x <;> first | rfl | exact absurd rfl h

theorem guard_set16 (r : RegisterFile) (x : WordRegister) (v : Nat) (h : x ≠ .unused16) :
    (r.set16 x v).guard_register = r.guard_register := by
  cases x <;> first | rfl | exact absurd rfl h

theorem guard_SET_FLAG (r : RegisterFile) (f : Nat) :
    (r.SET_FLAG f).guard_register = r.guard_register := rfl

theorem guard_CLEAR_FLAG (r : RegisterFile) (f : Nat) :
    (r.CLEAR_FLAG f).guard_register = r.guard_register := rfl

theorem guard_push (s s' : State) (r : WordRegister) (h : CPU.push s r = .ok s') :
    s'.regs.guard_register = s.regs.guard_register := by
  rw [push_eq] at h
  generalize s.mem.write_word (s.regs.set16 .SP (s.regs.SP + 65536 - 2)).SP
        (if r = .AF then (s.regs.set16 .SP (s.regs.SP + 65536 - 2)).get16 r &&& 0xFFF0
         else (s.regs.set16 .SP (s.regs.SP + 65536 - 2)).get16 r) = X at h
  cases X with
  | error e => cases h
  | ok m =>
    cases h
    exact guard_set16 _ _ _ (by decide)

theorem guard_pop (s s' : State) (r : WordRegister) (hr : r ≠ .unused16)
    (h : CPU.pop s r = .ok s') : s'.regs.guard_register = s.regs.guard_register := by
  unfold CPU.pop at h
  split at h
  · cases h
  · cases h
    exact guard_set16 _ _ _ hr

theorem guard_LOAD_B (indirect immediate : Bool) (args : InstructionArgs) (s s' : State)
    (b : Nat) (h : Instructions.LOAD_U8_OPERAND_B indirect immediate args s = .ok (b, s')) :
    s'.regs.guard_register = s.regs.guard_register := by
  unfold Instructions.LOAD_U8_OPERAND_B at h
  split_ifs at h
  · split at h
    · cases h
    · cases h; rfl
  · split at h
    · cases h
    · cases h; rfl
  · cases h; rfl

theorem guard_STORE_A (indirect : Bool) (args : InstructionArgs) (s s' : State)
    (r : RegisterFile) (a : Nat) (hd : indirect = false → args.dst ≠ .unused)
    (h : Instructions.STORE_U8_OPERAND_A indirect args s r a = .ok s') :
    s'.regs.guard_register = r.guard_register := by
  unfold Instructions.STORE_U8_OPERAND_A at h
  split_ifs at h with hi
  · split at h
    · cases h
    · cases h; rfl
  · cases h
    exact guard_set8 _ _ _ (hd (by simpa using hi))

theorem guard_PC (r : RegisterFile) (v : Nat) :
    (r.set16 .PC v).guard_register = r.guard_register := rfl

theorem guard_HL (r : RegisterFile) (v : Nat) :
    (r.set16 .HL v).guard_register = r.guard_register := rfl

theorem guard_ite {c : Prop} {inst : Decidable c} {a b : RegisterFile} {g : Nat}
    (ha : a.guard_register = g) (hb : b.guard_register = g) :
    (@ite RegisterFile c inst a b).guard_register = g := by
  cases inst with
  | isTrue hc => exact ha
  | isFalse hc => exact hb

theorem guard_ADD (c i m : Bool) (args : InstructionArgs) (s s' : State) (n : Nat)
    (hd : args.dst ≠ .unused) (h : Instructions.ADD c i m args s = .ok (s', n)) :
    s'.regs.guard_register = s.regs.guard_register := by
  unfold Instructions.ADD at h
  split at h
  · cases h
  · rename_i b s1 hl
    have hg := guard_LOAD_B _ _ _ _ _ _ hl
    cases h
    refine (guard_set8 _ _ _ hd).trans ?_
    repeat' (first | rw [guard_SET_FLAG] | refine guard_ite ?_ ?_)
    all_goals exact hg

theorem guard_SUB (c i m : Bool) (args : InstructionArgs) (s s' : State) (n : Nat)
    (hd : args.dst ≠ .unused) (h : Instructions.SUB c i m args s = .ok (s', n)) :
    s'.regs.guard_register = s.regs.guard_register := by
  unfold Instructions.SUB at h
  split at h
  · cases h
  · rename_i b s1 hl
    have hg := guard_LOAD_B _ _ _ _ _ _ hl
    cases h
    refine (guard_set8 _ _ _ hd).trans ?_
    repeat' (first | rw [guard_SET_FLAG] | refine guard_ite ?_ ?_)
    all_goals exact hg

theorem guard_CP (i m : Bool) (args : InstructionArgs) (s s' : State) (n : Nat)
    (hd : args.dst ≠ .unused) (h : Instructions.CP i m args s = .ok (s', n)) :
    s'.regs.guard_register = s.regs.guard_register := by
  unfold Instructions.CP at h
  split at h
  · cases h
  · rename_i s1 n1 hs
    cases h
    exact (guard_set8 _ _ _ hd).trans (guard_SUB _ _ _ _ _ _ _ hd hs)

theorem guard_AND (i m : Bool) (args : InstructionArgs) (s s' : State) (n : Nat)
    (hd : args.dst ≠ .unused) (h : Instructions.AND i m args s = .ok (s', n)) :
    s'.regs.guard_register = s.regs.guard_register := by
  unfold Instructions.AND at h
  split at h
  · cases h
  · rename_i b s1 hl
    have hg := guard_LOAD_B _ _ _ _ _ _ hl
    cases h
    repeat' (first | rw [guard_SET_FLAG] | refine guard_ite ?_ ?_)
    all_goals exact (guard_set8 _ _ _ hd).trans hg

theorem guard_XOR (i m : Bool) (args : InstructionArgs) (s s' : State) (n : Nat)
    (hd : args.dst ≠ .unused) (h : Instructions.XOR i m args s = .ok (s', n)) :
    s'.regs.guard_register = s.regs.guard_register := by
  unfold Instructions.XOR at h
  split at h
  · cases h
  · rename_i b s1 hl
    have hg := guard_LOAD_B _ _ _ _ _ _ hl
    cases h
    repeat' (first | rw [guard_SET_FLAG] | refine guard_ite ?_ ?_)
    all_goals exact (guard_set8 _ _ _ hd).trans hg

theorem guard_OR (i m : Bool) (args : InstructionArgs) (s s' : State) (n : Nat)
    (hd : args.dst ≠ .unused) (h : Instructions.OR i m args s = .ok (s', n)) :
    s'.regs.guard_register = s.regs.guard_register := by
  unfold Instructions.OR at h
  split at h
  · cases h
  · rename_i b s1 hl
    have hg := guard_LOAD_B _ _ _ _ _ _ hl
    cases h
    repeat' (first | rw [guard_SET_FLAG] | refine guard_ite ?_ ?_)
    all_goals exact (guard_set8 _ _ _ hd).trans hg

theorem guard_CPL (args : InstructionArgs) (s s' : State) (n : Nat)
    (hd : args.dst ≠ .unused) (h : Instructions.CPL args s = .ok (s', n)) :
    s'.regs.guard_register = s.regs.guard_register := by
  unfold Instructions.CPL at h
  cases h
  exact guard_set8 _ _ _ hd

theorem guard_MV (args : InstructionArgs) (s s' : State) (n : Nat)
    (hd : args.dst ≠ .unused) (h : Instructions.MV args s = .ok (s', n)) :
    s'.regs.guard_register = s.regs.guard_register := by
  unfold Instructions.MV at h
  cases h
  exact guard_set8 _ _ _ hd

theorem store_result (X : Except Error State) (c : Nat) (s' : State) (n : Nat)
    (h : (match X with
          | .error e => .error e
          | .ok s => .ok (s, c)) = (.ok (s', n) : Except Error (State × Nat))) :
    X = .ok s' := by
  cases X with
  | error e => cases h
  | ok s => cases h; rfl

theorem guard_INC (i : Bool) (args : InstructionArgs) (s s' : State) (n : Nat)
    (hd : i = false → args.dst ≠ .unused) (h : Instructions.INC i args s = .ok (s', n)) :
    s'.regs.guard_register = s.regs.guard_register := by
  unfold Instructions.INC at h
  split at h
  · cases h
  · have hst := store_result _ _ _ _ h
    refine (guard_STORE_A _ _ _ _ _ _ hd hst).trans ?_
    repeat' (first | rw [guard_SET_FLAG] | refine guard_ite ?_ ?_)
    all_goals rfl

theorem guard_DEC (i : Bool) (args : InstructionArgs) (s s' : State) (n : Nat)
    (hd : i = false → args.dst ≠ .unused) (h : Instructions.DEC i args s = .ok (s', n)) :
    s'.regs.guard_register = s.regs.guard_register := by
  unfold Instructions.DEC at h
  split at h
  · cases h
  · have hst := store_result _ _ _ _ h
    refine (guard_STORE_A _ _ _ _ _ _ hd hst).trans ?_
    repeat' (first | rw [guard_SET_FLAG] | refine guard_ite ?_ ?_)
    all_goals rfl

theorem guard_RR (c i : Bool) (args : InstructionArgs) (s s' : State) (n : Nat)
    (hd : i = false → args.dst ≠ .unused) (h : Instructions.RR c i args s = .ok (s', n)) :
    s'.regs.guard_register = s.regs.guard_register := by
  unfold Instructions.RR at h
  split at h
  · cases h
  · have hst := store_result _ _ _ _ h
    refine (guard_STORE_A _ _ _ _ _ _ hd hst).trans ?_
    repeat' (first | rw [guard_SET_FLAG] | refine guard_ite ?_ ?_)
    all_goals rfl

theorem guard_RL (c i : Bool) (args : InstructionArgs) (s s' : State) (n : Nat)
    (hd : i = false → args.dst ≠ .unused) (h : Instructions.RL c i args s = .ok (s', n)) :
    s'.regs.guard_register = s.regs.guard_register := by
  unfold Instructions.RL at h
  split at h
  · cases h
  · have hst := store_result _ _ _ _ h
    refine (guard_STORE_A _ _ _ _ _ _ hd hst).trans ?_
    repeat' (first | rw [guard_SET_FLAG] | refine guard_ite ?_ ?_)
    all_goals rfl

theorem guard_SLA (i : Bool) (args : InstructionArgs) (s s' : State) (n : Nat)
    (hd : i = false → args.dst ≠ .unused) (h : Instructions.SLA i args s = .ok (s', n)) :
    s'.regs.guard_register = s.regs.guard_register := by
  unfold Instructions.SLA at h
  split at h
  · cases h
  · have hst := store_result _ _ _ _ h
    refine (guard_STORE_A _ _ _ _ _ _ hd hst).trans ?_
    repeat' (first | rw [guard_SET_FLAG] | refine guard_ite ?_ ?_)
    all_goals rfl

theorem guard_SRL (i : Bool) (args : InstructionArgs) (s s' : State) (n : Nat)
    (hd : i = false → args.dst ≠ .unused) (h : Instructions.SRL i args s = .ok (s', n)) :
    s'.regs.guard_register = s.regs.guard_register := by
  unfold Instructions.SRL at h
  split at h
  · cases h
  · have hst := store_result _ _ _ _ h
    refine (guard_STORE_A _ _ _ _ _ _ hd hst).trans ?_
    repeat' (first | rw [guard_SET_FLAG] | refine guard_ite ?_ ?_)
    all_goals rfl

theorem guard_SRA (i : Bool) (args : InstructionArgs) (s s' : State) (n : Nat)
    (hd : i = false → args.dst ≠ .unused) (h : Instructions.SRA i args s = .ok (s', n)) :
    s'.regs.guard_register = s.regs.guard_register := by
  unfold Instructions.SRA at h
  split at h
  · cases h
  · have hst := store_result _ _ _ _ h
    refine (guard_STORE_A _ _ _ _ _ _ hd hst).trans ?_
    repeat' (first | rw [guard_SET_FLAG] | refine guard_ite ?_ ?_)
    all_goals rfl

theorem guard_SWAP (i : Bool) (args : InstructionArgs) (s s' : State) (n : Nat)
    (hd : i = false → args.dst ≠ .unused) (h : Instructions.SWAP i args s = .ok (s', n)) :
    s'.regs.guard_register = s.regs.guard_register := by
  unfold Instructions.SWAP at h
  split at h
  · cases h
  · have hst := store_result _ _ _ _ h
    refine (guard_STORE_A _ _ _ _ _ _ hd hst).trans ?_
    repeat' (first | rw [guard_SET_FLAG] | refine guard_ite ?_ ?_)
    all_goals rfl

theorem guard_BIT (i : Bool) (args : InstructionArgs) (s s' : State) (n : Nat)
    (hd : i = false → args.dst ≠ .unused) (h : Instructions.BIT i args s = .ok (s', n)) :
    s'.regs.guard_register = s.regs.guard_register := by
  unfold Instructions.BIT at h
  split at h
  · cases h
  · have hst := store_result _ _ _ _ h
    refine (guard_STORE_A _ _ _ _ _ _ hd hst).trans ?_
    repeat' (first | rw [guard_SET_FLAG] | refine guard_ite ?_ ?_)

theorem guard_SET (i : Bool) (args : InstructionArgs) (s s' : State) (n : Nat)
    (hd : i = false → args.dst ≠ .unused) (h : Instructions.SET i args s = .ok (s', n)) :
    s'.regs.guard_register = s.regs.guard_register := by
  unfold Instructions.SET at h
  split at h
  · cases h
  · have hst := store_result _ _ _ _ h
    exact guard_STORE_A _ _ _ _ _ _ hd hst

theorem guard_RES (i : Bool) (args : InstructionArgs) (s s' : State) (n : Nat)
    (hd : i = false → args.dst ≠ .unused) (h : Instructions.RES i args s = .ok (s', n)) :
    s'.regs.guard_register = s.regs.guard_register := by
  unfold Instructions.RES at h
  split at h
  · cases h
  · have hst := store_result _ _ _ _ h
    exact guard_STORE_A _ _ _ _ _ _ hd hst

theorem guard_simple (args : InstructionArgs) (s s' : State) (n : Nat) :
    (Instructions.NOP args s = .ok (s', n) → s'.regs.guard_register = s.regs.guard_register) ∧
    (Instructions.ILL args s = .ok (s', n) → s'.regs.guard_register = s.regs.guard_register) ∧
    (Instructions.HALT args s = .ok (s', n) → s'.regs.guard_register = s.regs.guard_register) ∧
    (Instructions.STOP args s = .ok (s', n) → s'.regs.guard_register = s.regs.guard_register) ∧
    (Instructions.EI args s = .ok (s', n) → s'.regs.guard_register = s.regs.guard_register) ∧
    (Instructions.DI args s = .ok (s', n) → s'.regs.guard_register = s.regs.guard_register) ∧
    (Instructions.CB args s = .ok (s', n) → s'.regs.guard_register = s.regs.guard_register) := by
  refine ⟨fun h => ?_, fun h => ?_, fun h => ?_, fun h => ?_, fun h => ?_, fun h => ?_,
    fun h => ?_⟩
  · cases h; rfl
  · cases h
  · cases h; rfl
  · cases h; rfl
  · cases h; rfl
  · cases h; rfl
  · cases h; rfl

theorem guard_JP (i : Bool) (args : InstructionArgs) (s s' : State) (n : Nat)
    (h : Instructions.JP i args s = .ok (s', n)) :
    s'.regs.guard_register = s.regs.guard_register := by
  unfold Instructions.JP at h
  split_ifs at h
  all_goals
    first
    | (cases h; rfl)
    | (split at h
       · cases h
       · cases h; rfl)

theorem guard_JR (args : InstructionArgs) (s s' : State) (n : Nat)
    (h : Instructions.JR args s = .ok (s', n)) :
    s'.regs.guard_register = s.regs.guard_register := by
  unfold Instructions.JR at h
  dsimp only at h
  split_ifs at h
  all_goals
    first
    | (cases h; rfl)
    | (split at h
       · cases h
       · cases h; rfl)

theorem guard_RST (args : InstructionArgs) (s s' : State) (n : Nat)
    (h : Instructions.RST args s = .ok (s', n)) :
    s'.regs.guard_register = s.regs.guard_register := by
  unfold Instructions.RST at h
  generalize hp : CPU.push s .PC = X at h
  cases X with
  | error e => cases h
  | ok s1 =>
    cases h
    exact (guard_PC _ _).trans (guard_push _ _ _ hp)

theorem guard_CALL (args : InstructionArgs) (s s' : State) (n : Nat)
    (h : Instructions.CALL args s = .ok (s', n)) :
    s'.regs.guard_register = s.regs.guard_register := by
  unfold Instructions.CALL at h
  dsimp only at h
  split_ifs at h
  · cases h; rfl
  all_goals
    split at h
    · cases h
    · rename_i s1 hp
      split at h
      · cases h
      · cases h
        exact (guard_PC _ _).trans ((guard_push _ _ _ hp).trans (guard_PC _ _))

theorem guard_RET (i : Bool) (args : InstructionArgs) (s s' : State) (n : Nat)
    (h : Instructions.RET i args s = .ok (s', n)) :
    s'.regs.guard_register = s.regs.guard_register := by
  unfold Instructions.RET at h
  dsimp only at h
  split_ifs at h
  · cases h; rfl
  all_goals
    split at h
    · cases h
    · rename_i s1 hp
      have hg := guard_pop s s1 .PC (by decide) hp
      cases h
      exact hg

theorem guard_PUSH (args : InstructionArgs) (s s' : State) (n : Nat)
    (h : Instructions.PUSH args s = .ok (s', n)) :
    s'.regs.guard_register = s.regs.guard_register := by
  unfold Instructions.PUSH at h
  generalize hp : CPU.push s args.src16 = X at h
  cases X with
  | error e => cases h
  | ok s1 =>
    cases h
    exact guard_push _ _ _ hp

theorem guard_POP (args : InstructionArgs) (s s' : State) (n : Nat)
    (hd : args.dst16 ≠ .unused16) (h : Instructions.POP args s = .ok (s', n)) :
    s'.regs.guard_register = s.regs.guard_register := by
  unfold Instructions.POP at h
  generalize hp : CPU.pop s args.dst16 = X at h
  cases X with
  | error e => cases h
  | ok s1 =>
    cases h
    exact guard_pop _ _ _ hd hp

theorem guard_LD (i : Bool) (d : Int) (args : InstructionArgs) (s s' : State) (n : Nat)
    (hd : args.dst ≠ .unused) (hs : args.src16 ≠ .unused16)
    (h : Instructions.LD i d args s = .ok (s', n)) :
    s'.regs.guard_register = s.regs.guard_register := by
  unfold Instructions.LD at h
  dsimp only at h
  split at h
  · cases h
  · split at h
    · cases h
    · cases h
      exact (guard_set16 _ _ _ hs).trans (guard_set8 _ _ _ hd)

theorem guard_ST (i : Bool) (d : Int) (args : InstructionArgs) (s s' : State) (n : Nat)
    (hd : args.dst16 ≠ .unused16) (h : Instructions.ST i d args s = .ok (s', n)) :
    s'.regs.guard_register = s.regs.guard_register := by
  unfold Instructions.ST at h
  dsimp only at h
  split at h
  · cases h
  · split at h
    · cases h
    · cases h
      exact guard_set16 _ _ _ hd

theorem guard_LDH (i : Bool) (args : InstructionArgs) (s s' : State) (n : Nat)
    (hd : args.dst ≠ .unused) (h : Instructions.LDH i args s = .ok (s', n)) :
    s'.regs.guard_register = s.regs.guard_register := by
  unfold Instructions.LDH at h
  dsimp only at h
  cases i with
  | false =>
    simp only [Bool.false_eq_true, if_false] at h
    split at h
    · cases h
    · cases h
      exact guard_set8 _ _ _ hd
  | true =>
    simp only [if_true] at h
    cases hb : s.mem.read_byte s.regs.PC with
    | error e => rw [hb] at h; cases h
    | ok b =>
      rw [hb] at h
      dsimp only at h
      split at h
      · cases h
      · cases h
        exact guard_set8 _ _ _ hd

theorem guard_STH (i : Bool) (args : InstructionArgs) (s s' : State) (n : Nat)
    (h : Instructions.STH i args s = .ok (s', n)) :
    s'.regs.guard_register = s.regs.guard_register := by
  unfold Instructions.STH at h
  dsimp only at h
  cases i with
  | false =>
    simp only [Bool.false_eq_true, if_false] at h
    split at h
    · cases h
    · cases h
      rfl
  | true =>
    simp only [if_true] at h
    cases hb : s.mem.read_byte s.regs.PC with
    | error e => rw [hb] at h; cases h
    | ok b =>
      rw [hb] at h
      dsimp only at h
      split at h
      · cases h
      · cases h
        rfl

theorem guard_LET (i : Bool) (args : InstructionArgs) (s s' : State) (n : Nat)
    (hd : i = false → args.dst ≠ .unused) (h : Instructions.LET i args s = .ok (s', n)) :
    s'.regs.guard_register = s.regs.guard_register := by
  unfold Instructions.LET at h
  split at h
  · cases h
  · dsimp only at h
    cases i with
    | false =>
      simp only [Bool.false_eq_true, if_false] at h
      cases h
      exact guard_set8 _ _ _ (hd rfl)
    | true =>
      simp only [if_true] at h
      split at h
      · cases h
      · cases h
        rfl

theorem guard_MV16 (args : InstructionArgs) (s s' : State) (n : Nat)
    (hd : args.dst16 ≠ .unused16) (h : Instructions.MV16 args s = .ok (s', n)) :
    s'.regs.guard_register = s.regs.guard_register := by
  unfold Instructions.MV16 at h
  cases h
  exact guard_set16 _ _ _ hd

theorem guard_LET16 (args : InstructionArgs) (s s' : State) (n : Nat)
    (hd : args.dst16 ≠ .unused16) (h : Instructions.LET16 args s = .ok (s', n)) :
    s'.regs.guard_register = s.regs.guard_register := by
  unfold Instructions.LET16 at h
  split at h
  · cases h
  · cases h
    exact (guard_PC _ _).trans (guard_set16 _ _ _ hd)

theorem guard_MVSP (args : InstructionArgs) (s s' : State) (n : Nat)
    (h : Instructions.MVSP args s = .ok (s', n)) :
    s'.regs.guard_register = s.regs.guard_register := by
  unfold Instructions.MVSP at h
  split at h
  · cases h
  · cases h
    rfl

theorem guard_STSP (args : InstructionArgs) (s s' : State) (n : Nat)
    (h : Instructions.STSP args s = .ok (s', n)) :
    s'.regs.guard_register = s.regs.guard_register := by
  unfold Instructions.STSP at h
  split at h
  · cases h
  · split at h
    · cases h
    · cases h
      rfl

theorem guard_DAA (args : InstructionArgs) (s s' : State) (n : Nat)
    (h : Instructions.DAA args s = .ok (s', n)) :
    s'.regs.guard_register = s.regs.guard_register := by
  unfold Instructions.DAA at h
  cases h
  rw [guard_CLEAR_FLAG]
  repeat' (first | rw [guard_SET_FLAG] | refine guard_ite ?_ ?_)
  all_goals rfl

theorem guard_ADD16 (args : InstructionArgs) (s s' : State) (n : Nat)
    (hd : args.dst16 ≠ .unused16) (h : Instructions.ADD16 args s = .ok (s', n)) :
    s'.regs.guard_register = s.regs.guard_register := by
  unfold Instructions.ADD16 at h
  cases h
  refine (guard_set16 _ _ _ hd).trans ?_
  repeat' (first | rw [guard_SET_FLAG] | refine guard_ite ?_ ?_)
  all_goals rfl

theorem guard_INC16 (args : InstructionArgs) (s s' : State) (n : Nat)
    (hd : args.dst16 ≠ .unused16) (h : Instructions.INC16 args s = .ok (s', n)) :
    s'.regs.guard_register = s.regs.guard_register := by
  unfold Instructions.INC16 at h
  cases h
  exact guard_set16 _ _ _ hd

theorem guard_DEC16 (args : InstructionArgs) (s s' : State) (n : Nat)
    (hd : args.dst16 ≠ .unused16) (h : Instructions.DEC16 args s = .ok (s', n)) :
    s'.regs.guard_register = s.regs.guard_register := by
  unfold Instructions.DEC16 at h
  cases h
  exact guard_set16 _ _ _ hd

theorem guard_ADDS (args : InstructionArgs) (s s' : State) (n : Nat)
    (h : Instructions.ADDS args s = .ok (s', n)) :
    s'.regs.guard_register = s.regs.guard_register := by
  unfold Instructions.ADDS at h
  split at h
  · cases h
  · cases h
    repeat' (first | rw [guard_SET_FLAG] | refine guard_ite ?_ ?_)
    all_goals rfl

/-- A handler run on a descriptor that names a real register wherever the handler
assigns through a reference leaves the guard word alone. -/
theorem handler_keeps_guard (instr : Instruction) (s s' : State) (n : Nat)
    (hs : instr.guard_safe = true) (h : instr.run s = .ok (s', n)) :
    s'.regs.guard_register = s.regs.guard_register := by
  obtain ⟨op, args⟩ := instr
  unfold Instruction.guard_safe at hs
  simp only [Bool.and_eq_true, Bool.or_eq_true, Bool.not_eq_true', decide_eq_true_eq] at hs
  obtain ⟨⟨h1, h2⟩, h3⟩ := hs
  have hd : op.writes_dst = true → args.dst ≠ .unused := by
    intro hw
    rcases h1 with h1 | h1
    · rw [hw] at h1; cases h1
    · exact h1
  have hd16 : op.writes_dst16 = true → args.dst16 ≠ .unused16 := by
    intro hw
    rcases h2 with h2 | h2
    · rw [hw] at h2; cases h2
    · exact h2
  have hs16 : op.writes_src16 = true → args.src16 ≠ .unused16 := by
    intro hw
    rcases h3 with h3 | h3
    · rw [hw] at h3; cases h3
    · exact h3
  clear h1 h2 h3
  unfold Instruction.run at h
  cases op with
  | NOP => exact (guard_simple args s s' n).1 h
  | ILL => exact (guard_simple args s s' n).2.1 h
  | HALT => exact (guard_simple args s s' n).2.2.1 h
  | STOP => exact (guard_simple args s s' n).2.2.2.1 h
  | EI => exact (guard_simple args s s' n).2.2.2.2.1 h
  | DI => exact (guard_simple args s s' n).2.2.2.2.2.1 h
  | CB => exact (guard_simple args s s' n).2.2.2.2.2.2 h
  | JP i => exact guard_JP i args s s' n h
  | JR => exact guard_JR args s s' n h
  | RST => exact guard_RST args s s' n h
  | CALL => exact guard_CALL args s s' n h
  | RET i => exact guard_RET i args s s' n h
  | MV => exact guard_MV args s s' n (hd rfl) h
  | LD i d => exact guard_LD i d args s s' n (hd rfl) (hs16 rfl) h
  | ST i d => exact guard_ST i d args s s' n (hd16 rfl) h
  | LDH i => exact guard_LDH i args s s' n (hd rfl) h
  | STH i => exact guard_STH i args s s' n h
  | LET i => exact guard_LET i args s s' n (fun hi => hd (by rw [hi]; rfl)) h
  | MV16 => exact guard_MV16 args s s' n (hd16 rfl) h
  | LET16 => exact guard_LET16 args s s' n (hd16 rfl) h
  | MVSP => exact guard_MVSP args s s' n h
  | STSP => exact guard_STSP args s s' n h
  | POP => exact guard_POP args s s' n (hd16 rfl) h
  | PUSH => exact guard_PUSH args s s' n h
  | DAA => exact guard_DAA args s s' n h
  | ADD c i m => exact guard_ADD c i m args s s' n (hd rfl) h
  | SUB c i m => exact guard_SUB c i m args s s' n (hd rfl) h
  | INC i => exact guard_INC i args s s' n (fun hi => hd (by rw [hi]; rfl)) h
  | DEC i => exact guard_DEC i args s s' n (fun hi => hd (by rw [hi]; rfl)) h
  | ADD16 => exact guard_ADD16 args s s' n (hd16 rfl) h
  | INC16 => exact guard_INC16 args s s' n (hd16 rfl) h
  | DEC16 => exact guard_DEC16 args s s' n (hd16 rfl) h
  | ADDS => exact guard_ADDS args s s' n h
  | CPL => exact guard_CPL args s s' n (hd rfl) h
  | AND i m => exact guard_AND i m args s s' n (hd rfl) h
  | XOR i m => exact guard_XOR i m args s s' n (hd rfl) h
  | OR i m => exact guard_OR i m args s s' n (hd rfl) h
  | CP i m => exact guard_CP i m args s s' n (hd rfl) h
  | RR c i => exact guard_RR c i args s s' n (fun hi => hd (by rw [hi]; rfl)) h
  | RL c i => exact guard_RL c i args s s' n (fun hi => hd (by rw [hi]; rfl)) h
  | SLA i => exact guard_SLA i args s s' n (fun hi => hd (by rw [hi]; rfl)) h
  | SRL i => exact guard_SRL i args s s' n (fun hi => hd (by rw [hi]; rfl)) h
  | SRA i => exact guard_SRA i args s s' n (fun hi => hd (by rw [hi]; rfl)) h
  | SWAP i => exact guard_SWAP i args s s' n (fun hi => hd (by rw [hi]; rfl)) h
  | BIT i => exact guard_BIT i args s s' n (fun hi => hd (by rw [hi]; rfl)) h
  | SET i => exact guard_SET i args s s' n (fun hi => hd (by rw [hi]; rfl)) h
  | RES i => exact guard_RES i args s s' n (fun hi => hd (by rw [hi]; rfl)) h

set_option maxRecDepth 100000 in
theorem primary_table_guard_safe :
    primary_table.map Instruction.guard_safe = (List.range 256).map (fun _ => true) := by
  decide

set_option maxRecDepth 100000 in
theorem cb_table_guard_safe :
    cb_table.map Instruction.guard_safe = (List.range 256).map (fun _ => true) := by
  decide

theorem entry_guard_safe (set opcode : Nat) (instr : Instruction)
    (h : entry set opcode = some instr) : instr.guard_safe = true := by
  unfold entry at h
  have key : ∀ (t : List Instruction),
      t.map Instruction.guard_safe = (List.range 256).map (fun _ => true) →
      t[opcode]? = some instr → instr.guard_safe = true := by
    intro t ht hi
    have h1 := congrArg (fun l => l[opcode]?) ht
    simp only [List.getElem?_map, hi, Option.map_some'] at h1
    by_cases ho : opcode < 256
    · rw [List.getElem?_range ho] at h1
      simpa using h1
    · rw [List.getElem?_eq_none (by simp; omega)] at h1
      cases h1
  match set, h with
  | 0, h => exact key primary_table primary_table_guard_safe h
  | 1, h => exact key cb_table cb_table_guard_safe h
  | (k + 2), h => cases h

/-- C31. For every entry of the primary and of the CB table and every machine state
in which the guard word register reads `0xABCD`: when the entry's handler, run with
the entry's operand descriptor, returns, the guard word register still reads
`0xABCD`. No entry pairs a handler with a placeholder where the handler assigns. -/
theorem guard_word_preserved (set opcode : Nat) (instr : Instruction) (s s' : State) (n : Nat)
    (hentry : entry set opcode = some instr)
    (hguard : s.regs.get16 .unused16 = GUARD_REGISTER_VALUE)
    (hrun : instr.run s = .ok (s', n)) :
    s'.regs.get16 .unused16 = GUARD_REGISTER_VALUE ∧ instr.guard_safe = true := by
  have hsafe := entry_guard_safe set opcode instr hentry
  refine ⟨?_, hsafe⟩
  have h := handler_keeps_guard instr s s' n hsafe hrun
  show s'.regs.guard_register = GUARD_REGISTER_VALUE
  rw [h]
  exact hguard

set_option maxRecDepth 100000 in
/-- C31 (witness). Opcode 0x80 (`ADD A, B`) run on the start-up state. -/
theorem guard_word_preserved_witness :
    ∃ instr s' n, entry 0 0x80 = some instr ∧ instr.run State.init = .ok (s', n) ∧
      s'.regs.get16 .unused16 = GUARD_REGISTER_VALUE := by
  have hex : ∃ instr s' n, entry 0 0x80 = some instr ∧
      instr.run State.init = .ok (s', n) := ⟨_, _, _, rfl, rfl⟩
  obtain ⟨instr, s', n, he, hr⟩ := hex
  exact ⟨instr, s', n, he, hr, (guard_word_preserved 0 0x80 instr State.init s' n he rfl hr).1⟩

/-! ## The background fetcher -/

theorem push_row_nil (hi lo extra d : Nat) (f : PixelFIFO) :
    push_row hi lo extra d f [] = (d, f) := rfl

theorem push_row_spec (hi lo : Nat) :
    ∀ (ms : List Nat) (d : Nat) (f : PixelFIFO), d < 256 → f.fifo_size + ms.length ≤ 16 →
      (push_row hi lo 0 d f ms).1 = d - min d ms.length ∧
      (push_row hi lo 0 d f ms).2.contents =
        f.contents ++ (ms.drop (min d ms.length)).map (fun mask =>
          (((if hi &&& mask ≠ 0 then 1 else 0) <<< 1) ||| (if lo &&& mask ≠ 0 then 1 else 0))) ∧
      (push_row hi lo 0 d f ms).2.fifo_size = f.fifo_size + (ms.length - min d ms.length) ∧
      (push_row hi lo 0 d f ms).2.fifo_pos = f.fifo_pos ∧
      (push_row hi lo 0 d f ms).2.state = f.state := by
  intro ms
  induction ms with
  | nil =>
    intro d f _ _
    refine ⟨by simp [push_row], by simp [push_row], by simp [push_row], rfl, rfl⟩
  | cons mask rest ih =>
    intro d f hd hf
    rw [List.length_cons] at hf
    by_cases h0 : d = 0
    · subst h0
      have hpix : ∀ (a b : Nat), a ≤ 1 → b ≤ 1 → ((a <<< 1) ||| b ||| 0) % 256 = (a <<< 1) ||| b := by
        intro a b ha hb
        interval_cases a <;> interval_cases b <;> rfl
      have hdata : (((if hi &&& mask ≠ 0 then 1 else 0) <<< 1) |||
          (if lo &&& mask ≠ 0 then 1 else 0) ||| 0) % 256 =
          ((if hi &&& mask ≠ 0 then 1 else 0) <<< 1) ||| (if lo &&& mask ≠ 0 then 1 else 0) := by
        apply hpix <;> split_ifs <;> omega
      obtain ⟨p1, p2, p3⟩ := PixelFIFO.push_not_full f
        (((if hi &&& mask ≠ 0 then 1 else 0) <<< 1) ||| (if lo &&& mask ≠ 0 then 1 else 0))
        (by omega)
      have hstate : (f.push (((if hi &&& mask ≠ 0 then 1 else 0) <<< 1) |||
          (if lo &&& mask ≠ 0 then 1 else 0))).state = f.state := by
        unfold PixelFIFO.push
        split_ifs <;> rfl
      obtain ⟨i1, i2, i3, i4, i5⟩ := ih 0 (f.push (((if hi &&& mask ≠ 0 then 1 else 0) <<< 1) |||
          (if lo &&& mask ≠ 0 then 1 else 0))) (by omega) (by rw [p2]; omega)
      have e : push_row hi lo 0 0 f (mask :: rest) =
          push_row hi lo 0 0 (f.push (((if hi &&& mask ≠ 0 then 1 else 0) <<< 1) |||
            (if lo &&& mask ≠ 0 then 1 else 0))) rest := by
        rw [push_row, if_neg (by omega)]
        dsimp only
        rw [hdata]
      rw [e]
      simp only [Nat.zero_min, List.drop_zero, Nat.sub_zero, List.map_cons, List.length_cons]
        at i1 i2 i3 ⊢
      refine ⟨i1, ?_, ?_, i4.trans p3, i5.trans hstate⟩
      · rw [i2, p1, List.append_assoc]
        rfl
      · rw [i3, p2]
        omega
    · have e : push_row hi lo 0 d f (mask :: rest) =
          push_row hi lo 0 (d - 1) f rest := by
        rw [push_row, if_pos h0]
        have : (d + 256 - 1) % 256 = d - 1 := by omega
        rw [this]
      obtain ⟨i1, i2, i3, i4, i5⟩ := ih (d - 1) f (by omega) (by omega)
      rw [e]
      have hmin : min d (mask :: rest).length = min (d - 1) rest.length + 1 := by
        rw [List.length_cons]; omega
      rw [hmin, List.drop_succ_cons, List.length_cons]
      refine ⟨by omega, i2, by omega, i4, i5⟩

theorem mask_bit (x k : Nat) :
    (if x &&& 2 ^ k ≠ 0 then 1 else 0) = (x >>> k) &&& 1 := by
  rw [Nat.and_two_pow, Nat.and_one_is_mod, Nat.shiftRight_eq_div_pow]
  have hb := Nat.testBit_to_div_mod (x := x) (i := k)
  cases hx : x.testBit k
  · rw [hx] at hb
    have : x / 2 ^ k % 2 = 0 := by
      have := Nat.mod_two_eq_zero_or_one (x / 2 ^ k)
      rcases this with h | h
      · exact h
      · rw [h] at hb; simp at hb
    rw [this]
    simp
  · rw [hx] at hb
    have : x / 2 ^ k % 2 = 1 := by simpa using hb
    rw [this]
    have hp : 0 < 2 ^ k := Nat.two_pow_pos k
    simp only [Bool.toNat_true, Nat.one_mul]
    rw [if_pos (by omega)]

/-- C32. The case `PUSH` of the background fetcher. With more than 8 pixels in the
FIFO the step returns false and changes nothing, so `bgfifo++` leaves the fetch state
at `PUSH`. Otherwise it returns true: it skips the first `d = min(discard, 8)` bit
positions, `discard` goes down by `d`, and for each remaining position `k`, from bit 7
down, the pixel `(bit k of the high plane << 1) | bit k of the low plane` is appended
to the FIFO, whose size grows by `8 - d` and stays at most 16; `column` advances by 8
(as a `u8`) and `bgfifo++` moves the fetch state on to `TILENO`. -/
theorem background_push_step (b : BackgroundFIFO) (m : Memory) (hd : b.discard < 256) :
    (b.fifo.size > 8 →
      b.run m .PUSH = .ok (false, b) ∧ (b.fifo.state = .PUSH → b.advance m = .ok b)) ∧
    (b.fifo.size ≤ 8 →
      ∃ b', b.run m .PUSH = .ok (true, b') ∧
        b'.discard = b.discard - min b.discard 8 ∧
        b'.fifo.contents = b.fifo.contents ++
          ([7, 6, 5, 4, 3, 2, 1, 0].drop (min b.discard 8)).map (fun k =>
            (((b.tile_data_hi >>> k) &&& 1) <<< 1) ||| ((b.tile_data_lo >>> k) &&& 1)) ∧
        b'.fifo.size = b.fifo.size + (8 - min b.discard 8) ∧ b'.fifo.size ≤ 16 ∧
        b'.column = (b.column + 8) % 256 ∧
        (b.fifo.state = .PUSH →
          b.advance m = .ok { b' with fifo := { b'.fifo with state := .TILENO } })) := by
  constructor
  · intro hs
    have hr : b.run m .PUSH = .ok (false, b) := by
      unfold BackgroundFIFO.run
      simp only [if_pos hs]
    refine ⟨hr, fun hst => ?_⟩
    unfold BackgroundFIFO.advance
    rw [hst, hr]
  · intro hs
    have hs' : b.fifo.fifo_size ≤ 8 := hs
    obtain ⟨p1, p2, p3, p4, p5⟩ := push_row_spec b.tile_data_hi b.tile_data_lo row_masks
      b.discard b.fifo hd (by show b.fifo.fifo_size + 8 ≤ 16; omega)
    have hlen : row_masks.length = 8 := rfl
    rw [hlen] at p1 p2 p3
    have hr : b.run m .PUSH = .ok (true,
        { b with discard := (push_row b.tile_data_hi b.tile_data_lo 0 b.discard b.fifo row_masks).1
                 fifo := (push_row b.tile_data_hi b.tile_data_lo 0 b.discard b.fifo row_masks).2
                 column := (b.column + 8) % 256
                 map_index := (b.map_index + 1) % 65536 }) := by
      unfold BackgroundFIFO.run
      simp only [if_neg (Nat.not_lt.mpr hs)]
    refine ⟨_, hr, p1, ?_, p3, ?_, rfl, fun hst => ?_⟩
    · show (push_row b.tile_data_hi b.tile_data_lo 0 b.discard b.fifo row_masks).2.contents = _
      rw [p2]
      congr 1
      have hm : row_masks = [7, 6, 5, 4, 3, 2, 1, 0].map (fun k => 2 ^ k) := by decide
      rw [hm, ← List.map_drop, List.map_map]
      apply List.map_congr_left
      intro k _
      show ((if b.tile_data_hi &&& 2 ^ k ≠ 0 then 1 else 0) <<< 1) |||
          (if b.tile_data_lo &&& 2 ^ k ≠ 0 then 1 else 0) = _
      rw [mask_bit, mask_bit]
    · show (push_row b.tile_data_hi b.tile_data_lo 0 b.discard b.fifo row_masks).2.fifo_size ≤ 16
      rw [p3]
      omega
    · unfold BackgroundFIFO.advance
      rw [hst, hr]
      dsimp only
      rw [p5, hst]
      rfl

set_option maxRecDepth 8192 in
/-- C32 (witness). Low plane 0xAA, high plane 0x55, nothing to discard, empty FIFO:
the step pushes 1, 2, 1, 2, 1, 2, 1, 2. -/
theorem background_push_step_witness :
    ∃ b', ({ BackgroundFIFO.init with tile_data_lo := 0xAA, tile_data_hi := 0x55 }).run
        Memory.init .PUSH = .ok (true, b') ∧
      b'.fifo.contents = [1, 2, 1, 2, 1, 2, 1, 2] ∧ b'.fifo.size = 8 ∧ b'.column = 8 := by
  obtain ⟨b', h1, _, h3, h4, _, h6, _⟩ :=
    (background_push_step { BackgroundFIFO.init with tile_data_lo := 0xAA, tile_data_hi := 0x55 }
      Memory.init (by decide)).2 (by decide)
  exact ⟨b', h1, h3.trans (by decide), h4, h6⟩

set_option maxRecDepth 8192 in
/-- C33. The case `TILENO` of the background fetcher with `column` = 0, `SCX` = 0xFF,
`LY` = `SCY` = 0: the code reduces `column + SCX` modulo 0xFF, so `offset.x` is 0 and
the map index is 0, where `(column + SCX) & 0xFF` is 0xFF and gives the map index 31. -/
theorem TILENO_offset_is_taken_modulo_255 :
    ∃ b', BackgroundFIFO.init.run ((Graphics.start_memory (fun _ => 0)).set_ptr 0x43 0xFF)
        .TILENO = .ok (true, b') ∧
      b'.offset_x = 0 ∧ b'.map_index = 0 ∧
      (BackgroundFIFO.init.column +
        SCX ((Graphics.start_memory (fun _ => 0)).set_ptr 0x43 0xFF)) &&& 0xFF = 0xFF ∧
      ((0 >>> 3) <<< 5) + (0xFF >>> 3) = 31 :=
  ⟨_, rfl, rfl, rfl, by decide, by decide⟩

set_option maxRecDepth 8192 in
/-- C34. The case `TILENO` with `column` = 0 and `SCX` = 8 arms `discard` with
`SCX` = 8, not with `SCX & 7` = 0, and the `PUSH` that follows skips all 8 pixels
of the row: it returns true with the FIFO still empty. -/
theorem TILENO_arms_discard_with_SCX :
    ∃ b1 b2,
      BackgroundFIFO.init.run ((Graphics.start_memory (fun _ => 0)).set_ptr 0x43 8) .TILENO =
        .ok (true, b1) ∧
      b1.discard = 8 ∧ SCX ((Graphics.start_memory (fun _ => 0)).set_ptr 0x43 8) &&& 7 = 0 ∧
      b1.run ((Graphics.start_memory (fun _ => 0)).set_ptr 0x43 8) .PUSH = .ok (true, b2) ∧
      b2.fifo.size = 0 ∧ b2.discard = 0 :=
  ⟨_, _, rfl, rfl, by decide, rfl, rfl, rfl⟩

set_option maxRecDepth 8192 in
/-- C35. Sprites enabled with 8 rows (`LCDC` = 0x82), `LY` = 3, first entry of the
sprite table `y` = 14, `x` = 8: `LY` lies in `[y - 16, y - 16 + 8)` = `[-2, 6)` and
`y`, `x` are in range, but the scan reads the entry and rejects it, because of the
test `entry.y < 16 && LY >= 16 - entry.y`. -/
theorem scan_rejects_sprite_above_the_top :
    ∃ sp,
      SpriteFIFO.init.reset.scan
        (((Graphics.start_memory
          (fun a => if a = 0xFE00 then 14 else if a = 0xFE01 then 8 else 0)).set_ptr
            0x40 0x82).set_ptr 0x44 3) = .ok sp ∧
      sp.scan_index = 1 ∧ sp.size = 0 ∧
      ((14 : Int) - 16 ≤ 3 ∧ (3 : Int) < 14 - 16 + 8) :=
  ⟨_, rfl, rfl, rfl, by decide⟩

set_option maxRecDepth 8192 in
/-- C36. Sprites enabled (`LCDC` = 0x82), `LY` = 0, the sprite table holding an empty
entry 0 and the entry 1 with `y` = 16, `x` = 8, which passes the acceptance rule: after
40 calls of `scan` from the reset fetcher only entry 0 has been read (`scan_index` is
1) and nothing is accepted, because `scan` returns at once when `scan_index >= 1`. -/
theorem scan_reads_only_the_first_entry :
    ∃ g,
      repeat_times
        (Graphics.scan_step
          (((Graphics.start_memory
            (fun a => if a = 0xFE04 then 16 else if a = 0xFE05 then 8 else 0)).set_ptr
              0x40 0x82).set_ptr 0x44 0)) 40
        { Graphics.init 160 with spfifo := SpriteFIFO.init.reset } = .ok g ∧
      g.spfifo.scan_index = 1 ∧ g.spfifo.size = 0 ∧
      ((16 : Int) - 16 ≤ 0 ∧ (0 : Int) < 16 - 16 + 8) :=
  ⟨_, rfl, rfl, rfl, by decide⟩

set_option maxRecDepth 8192 in
/-- C37. With `BGP` = `OBP0` = 0xE4, `reset_palettes` stores `BGP & (3 << 2i)`
without shifting it down: entry 1 of the background palette is 4 where
`(BGP >> 2) & 3` is 1, and entry 3 of the sprite palette 0 is 0xC0, which is no index
into the 4 entries of `colour_palette`. -/
theorem reset_palettes_keeps_bits_in_place :
    ((Graphics.init 160).reset_palettes
        (((Graphics.start_memory (fun _ => 0)).set_ptr 0x47 0xE4).set_ptr 0x48 0xE4)).background_palette
        1 = 4 ∧
      (0xE4 >>> 2) &&& 3 = 1 ∧
      ((Graphics.init 160).reset_palettes
        (((Graphics.start_memory (fun _ => 0)).set_ptr 0x47 0xE4).set_ptr 0x48 0xE4)).sprite_palette
        0 3 = 0xC0 :=
  ⟨rfl, by decide, rfl⟩

set_option maxRecDepth 8192 in
/-- C38. Opcode 0x9E with `A` = 0x10, carry clear, `HL` = 0xC000 and 0x01 at 0xC000:
the entry is `SUB<1, 0, 0>` on the descriptor `INDIRECT(A, HL)`, so the operand is the
placeholder register (0xCD, the low byte of the guard word) and `A` becomes 0x43, not
`0x10 - 0x01` = 0x0F; opcode 0x96 (`SUB<0, 1, 0>`) gives 0x0F. -/
theorem SBC_HL_reads_the_placeholder :
    (entry 0 0x9E).map (fun i => i.args.src) = some ByteRegister.unused ∧
    (regs_after (((entry 0 0x9E).map (fun i => i.run
      { State.init with
        regs := { RegisterFile.init with A := 0x10, F := 0, H := 0xC0, L := 0x00 }
        mem := { Memory.init with memory := fun a => if a = 0xC000 then 0x01 else 0 } })).getD
      (.error .TableIndexOutOfRange))).map (fun r => r.A) = some 0x43 ∧
    (regs_after (((entry 0 0x96).map (fun i => i.run
      { State.init with
        regs := { RegisterFile.init with A := 0x10, F := 0, H := 0xC0, L := 0x00 }
        mem := { Memory.init with memory := fun a => if a = 0xC000 then 0x01 else 0 } })).getD
      (.error .TableIndexOutOfRange))).map (fun r => r.A) = some 0x0F :=
  ⟨rfl, rfl, rfl⟩

set_option maxRecDepth 8192 in
/-- C39. `SRA` on `A` = 0x80 (opcode CB 0x2F): the handler keeps bit 6, not bit 7,
so `A` becomes 0x40 where the arithmetic shift gives 0xC0. -/
theorem SRA_keeps_bit_6 :
    (regs_after (((entry 1 0x2F).map (fun i => i.run
      { State.init with regs := { RegisterFile.init with A := 0x80 } })).getD
      (.error .TableIndexOutOfRange))).map (fun r => r.A) = some 0x40 ∧
    (0x80 >>> 1) ||| (0x80 &&& 0x80) = 0xC0 :=
  ⟨rfl, by decide⟩

/-! ## RAM -/

theorem select_ram (a : Nat) (ha' : a ≤ 0xFEFF) (hg : a ≠ 0xABCD) :
    Memory.select a = .ok none := by
  apply select_not_io_bank a hg
  rintro (h | h)
  · have := Nat.and_le_left (n := a) (m := 0xFF80)
    omega
  · omega

/-- C40 (counterexample). The address 0xABCD lies in 0x8000..0xFEFF, and a write to it
fails the assertion of `operator[]`. -/
theorem ram_write_at_guard_address_fails :
    0x8000 ≤ 0xABCD ∧ 0xABCD ≤ 0xFEFF ∧
      Memory.init.write_byte 0xABCD 0x12 = .error .AssertionFailed ∧
      Memory.init.read_byte 0xABCD = .error .AssertionFailed :=
  ⟨by decide, by decide, rfl, rfl⟩

/-- C40 (amended). For every address `a` in 0x8000..0xFEFF other than 0xABCD and every
byte `v`: `write_byte(a, v)` returns, a following `read_byte(a)` returns `v`, every
other address reads as before, the array is unchanged elsewhere and so are the I/O
slots. -/
theorem ram_round_trip (m : Memory) (a v : Nat) (ha : 0x8000 ≤ a) (ha' : a ≤ 0xFEFF)
    (hg : a ≠ 0xABCD) :
    ∃ m', m.write_byte a v = .ok m' ∧ m'.read_byte a = .ok v ∧
      (∀ a', a' ≠ a → m'.read_byte a' = m.read_byte a') ∧
      (∀ a', a' ≠ a → m'.memory a' = m.memory a') ∧ m'.registers = m.registers := by
  have hsel := select_ram a ha' hg
  have hbit : a &&& 0x8000 ≠ 0 := by
    have h := (and_two_pow_ne_zero a 15).mpr (by
      have e : (2 : Nat) ^ 15 = 32768 := by decide
      rw [e]
      omega)
    exact h
  have hw : m.write_byte a v =
      .ok { m with memory := fun x => if x = a then v else m.memory x } := by
    unfold Memory.write_byte
    rw [hsel]
    dsimp only
    rw [if_pos hbit]
  refine ⟨_, hw, ?_, ?_, ?_, rfl⟩
  · unfold Memory.read_byte
    rw [hsel]
    dsimp only
    rw [if_pos rfl]
  · intro a' hne
    unfold Memory.read_byte
    cases hs : Memory.select a' with
    | error e => rfl
    | ok o =>
      cases o with
      | none =>
        dsimp only
        rw [if_neg hne]
      | some i => rfl
  · intro a' hne
    dsimp only
    rw [if_neg hne]

/-- C40 (witness). The byte 0x5A written to 0xC000 of the start-up memory. -/
theorem ram_round_trip_witness :
    ∃ m', Memory.init.write_byte 0xC000 0x5A = .ok m' ∧ m'.read_byte 0xC000 = .ok 0x5A ∧
      m'.read_byte 0xC001 = Memory.init.read_byte 0xC001 := by
  obtain ⟨m', h1, h2, h3, _⟩ :=
    ram_round_trip Memory.init 0xC000 0x5A (by decide) (by decide) (by decide)
  exact ⟨m', h1, h2, h3 0xC001 (by decide)⟩

end Emerald
